import Mathlib

/-!
# Cascading cluster removal (`pkg/controllers/provisioningv2/cluster/remove.go`)

A shallow embedding of the three removal handlers of the provisioning-v2 cluster
controller, `OnMgmtClusterRemove`, `OnClusterRemove` (with `updateClusterStatus`) and
`doClusterRemove`, and theorems about them.

Conventions of the embedding.

* A Go `(value, error)` result is a pair of `Option`s; `nil` is `none`.
* The clients held by the Go `handler` are functions over an abstract store state `σ`:
  every call takes the current state and gives its answer and the next state, so an
  answer may depend on everything that happened before.  Every call is also appended,
  with its arguments and its answer, to the event list of the `World`.
* The handlers are given first over values: there `cluster.DeepCopy()` and
  `cluster.Status.DeepCopy()` are the identity.  `updateClusterStatus` and
  `OnClusterRemove` are then given again over a memory of cells at addresses, where
  `DeepCopy` allocates and the condition helpers write through an address; the two
  are shown to return the same.
* `equality.Semantic.DeepEqual` on two statuses is structural equality (Lean lists do
  not distinguish a nil slice from an empty one, as `Semantic.DeepEqual` does not).
* `time.Now()` as read by the condition helpers is passed in explicitly.
-/

namespace ClusterRemove

/-! ## Errors -/

/-- An error answered by a client call.  `NotFound` is what `apierrors.IsNotFound`
tests, `Message` is the text of `err.Error()`. -/
structure APIError where
  NotFound : Bool
  Message : String
deriving DecidableEq, Repr

/-- The Go call `apierrors.IsNotFound(err)`; it is `false` on a nil error. -/
def apierrors.IsNotFound : Option APIError → Bool
  | none => false
  | some e => e.NotFound

/-- The non-nil `error` values a handler can return to the controller framework: an
error answered by one of the clients, or the sentinel `generic.ErrSkip`, which is
produced by `OnClusterRemove` only (a client never answers with it). -/
inductive GoError where
  | api (e : APIError)
  | ErrSkip
deriving DecidableEq, Repr

/-! ## Objects -/

/-- The type `genericcondition.GenericCondition`; `CondType` is its Go field `Type`. -/
structure GenericCondition where
  CondType : String
  Status : String
  LastUpdateTime : String
  LastTransitionTime : String
  Reason : String
  Message : String
deriving DecidableEq, Repr

/-- Modelled from the spec: the declaration of `v1.ClusterStatus` is not among the
sources.  It holds the name of the management cluster (`Status.ClusterName`, read by
`doClusterRemove`) and the conditions, among them `Removed`; `Other` stands for all
remaining fields, which `remove.go` never reads or writes one by one. -/
structure ClusterStatus where
  ClusterName : String
  Conditions : List GenericCondition
  Other : String
deriving DecidableEq, Repr

/-- The provisioning cluster `v1.Cluster`, with the fields `remove.go` uses. -/
structure Cluster where
  Namespace : String
  Name : String
  Status : ClusterStatus
deriving DecidableEq, Repr

/-- The management cluster `v3.Cluster`; only its name is used. -/
structure MgmtCluster where
  Name : String
deriving DecidableEq, Repr

/-- The cluster-api cluster object; `DeletionTimestamp` is a nullable pointer. -/
structure CapiCluster where
  Namespace : String
  Name : String
  DeletionTimestamp : Option String
deriving DecidableEq, Repr

/-- The cluster-api machine object. -/
structure Machine where
  Namespace : String
  Name : String
deriving DecidableEq, Repr

/-- The type `metav1.DeleteOptions`; `remove.go` only builds its zero value. -/
structure DeleteOptions where
  GracePeriodSeconds : Option Int := none
deriving DecidableEq, Repr

/-- A list of machines, as answered by the machine cache. -/
abbrev Machines : Type := List Machine

/-- A label selector built by `labels.SelectorFromSet`: the labels an object must carry. -/
abbrev Selector : Type := List (String × String)

/-- The constant `capiClusterLabel`. -/
def capiClusterLabel : String := "cluster.x-k8s.io/cluster-name"

/-- The condition `Removed = condition.Cond("Removed")`. -/
def Removed : String := "Removed"

/-- The Go constant `time.Second`, a `time.Duration` in nanoseconds. -/
def time.Second : Nat := 1000000000

/-! ## Condition helpers -/

/-- Modelled from the spec: the condition helpers (`wrangler/pkg/condition`) are not
among the sources.  The spec gives a condition a state (True, False, Unknown), a
reason, a message and a timestamp.  A helper works on the first condition of the
given type and creates it at the end of the list, with state `Unknown`, when there is
none.  This is the freshly created condition. -/
def condition.newCond (c : String) : GenericCondition :=
  { CondType := c, Status := "Unknown", LastUpdateTime := "", LastTransitionTime := "",
    Reason := "", Message := "" }

/-- Modelled from the spec: find-or-create of the condition helpers, followed by the
change `f` of the condition found. -/
def condition.modify (c : String) (f : GenericCondition → GenericCondition) :
    List GenericCondition → List GenericCondition
  | [] => [f (condition.newCond c)]
  | x :: xs => if x.CondType = c then f x :: xs else x :: condition.modify c f xs

/-- Modelled from the spec: the condition of type `c` a status carries, if any (the
first one, the one the helpers work on). -/
def condition.find (c : String) (status : ClusterStatus) : Option GenericCondition :=
  status.Conditions.find? (fun x => decide (x.CondType = c))

/-- Modelled from the spec: setting the state of a condition; the timestamp is
touched only when the state changes (an unchanged status must stay structurally
equal, so that no write follows). -/
def condition.setStatusField (value now : String) (x : GenericCondition) : GenericCondition :=
  if x.Status = value then x else { x with Status := value, LastUpdateTime := now }

/-- Modelled from the spec: setting the message of a condition; the timestamp is
touched only when the message changes. -/
def condition.setMessageField (value now : String) (x : GenericCondition) : GenericCondition :=
  if x.Message = value then x else { x with Message := value, LastUpdateTime := now }

/-- Modelled from the spec: `Cond.SetStatus(obj, status)`. -/
def condition.SetStatus (c : String) (status : ClusterStatus) (value now : String) :
    ClusterStatus :=
  { status with Conditions := condition.modify c (condition.setStatusField value now) status.Conditions }

/-- Modelled from the spec: `Cond.SetStatusBool(obj, val)`. -/
def condition.SetStatusBool (c : String) (status : ClusterStatus) (val : Bool) (now : String) :
    ClusterStatus :=
  condition.SetStatus c status (if val then "True" else "False") now

/-- Modelled from the spec: setting the reason of a condition. -/
def condition.setReasonField (value : String) (x : GenericCondition) : GenericCondition :=
  { x with Reason := value }

/-- Modelled from the spec: `Cond.Reason(obj, reason)`. -/
def condition.Reason (c : String) (status : ClusterStatus) (reason : String) : ClusterStatus :=
  { status with Conditions := condition.modify c (condition.setReasonField reason) status.Conditions }

/-- Modelled from the spec: `Cond.Message(obj, message)`. -/
def condition.Message (c : String) (status : ClusterStatus) (message now : String) :
    ClusterStatus :=
  { status with Conditions := condition.modify c (condition.setMessageField message now) status.Conditions }

/-- Modelled from the spec: `Cond.SetError(obj, reason, err)` for a non-nil error that
is not the skip sentinel: "set Removed condition to an error state carrying the error
text".  The state becomes `False`, the message the text of the error, and the reason
`"Error"` when none is given.  `now₁` and `now₂` are the clock readings of the state
change and of the message change. -/
def condition.SetError (c : String) (status : ClusterStatus) (reason : String) (err : APIError)
    (now₁ now₂ : String) : ClusterStatus :=
  condition.Reason c
    (condition.Message c (condition.SetStatusBool c status false now₁) err.Message now₂)
    (if reason = "" then "Error" else reason)

/-! ## Clients, events and the world -/

/-- One client call of a handler, with its arguments and its answer. -/
inductive Event where
  | clusterCacheGetByIndex (index key : String) (objs : List Cluster) (err : Option APIError)
  | clustersDelete (ns name : String) (opts : Option DeleteOptions) (err : Option APIError)
  | clustersUpdateStatus (obj : Cluster) (res : Option Cluster) (err : Option APIError)
  | clustersEnqueueAfter (ns name : String) (duration : Nat)
  | mgmtClustersDelete (name : String) (opts : Option DeleteOptions) (err : Option APIError)
  | mgmtClusterCacheGet (name : String) (obj : Option MgmtCluster) (err : Option APIError)
  | capiClustersCacheGet (ns name : String) (obj : Option CapiCluster) (err : Option APIError)
  | capiClustersDelete (ns name : String) (opts : Option DeleteOptions) (err : Option APIError)
  | capiMachinesCacheList (ns : String) (selector : Selector) (objs : Machines)
      (err : Option APIError)
deriving DecidableEq, Repr

/-- The cache of provisioning clusters, `h.clusterCache`. -/
structure ClusterCache (σ : Type) where
  GetByIndex : String → String → σ → (List Cluster × Option APIError) × σ

/-- The client of provisioning clusters, `h.clusters`. -/
structure ClusterClient (σ : Type) where
  Delete : String → String → Option DeleteOptions → σ → Option APIError × σ
  UpdateStatus : Cluster → σ → (Option Cluster × Option APIError) × σ
  EnqueueAfter : String → String → Nat → σ → σ

/-- The client of management clusters, `h.mgmtClusters`. -/
structure MgmtClusterClient (σ : Type) where
  Delete : String → Option DeleteOptions → σ → Option APIError × σ

/-- The cache of management clusters, `h.mgmtClusterCache`. -/
structure MgmtClusterCache (σ : Type) where
  Get : String → σ → (Option MgmtCluster × Option APIError) × σ

/-- The cache of cluster-api clusters, `h.capiClustersCache`. -/
structure CapiClusterCache (σ : Type) where
  Get : String → String → σ → (Option CapiCluster × Option APIError) × σ

/-- The client of cluster-api clusters, `h.capiClusters`. -/
structure CapiClusterClient (σ : Type) where
  Delete : String → String → Option DeleteOptions → σ → Option APIError × σ

/-- The cache of cluster-api machines, `h.capiMachinesCache`. -/
structure CapiMachineCache (σ : Type) where
  List : String → Selector → σ → (Machines × Option APIError) × σ

/-- The Go `handler`: the clients and caches used by the removal handlers. -/
structure handler (σ : Type) where
  clusterCache : ClusterCache σ
  clusters : ClusterClient σ
  mgmtClusters : MgmtClusterClient σ
  mgmtClusterCache : MgmtClusterCache σ
  capiClustersCache : CapiClusterCache σ
  capiClusters : CapiClusterClient σ
  capiMachinesCache : CapiMachineCache σ

/-- The store state together with the client calls made so far, oldest first. -/
structure World (σ : Type) where
  state : σ
  events : List Event

/-- The world at the start of a pass: no call made yet. -/
def World.start {σ : Type} (s : σ) : World σ := { state := s, events := [] }

/-- The world after one more client call that left the store in state `s`. -/
def World.record {σ : Type} (w : World σ) (s : σ) (e : Event) : World σ :=
  { state := s, events := w.events ++ [e] }

/-! ## Sorting -/

/-- Insertion of `x` into a list ordered by `less`: after every element that is
less than `x`, before the first one that is not. -/
def sort.insert {α : Type} (less : α → α → Bool) (x : α) : List α → List α
  | [] => [x]
  | y :: ys => if less y x then y :: sort.insert less x ys else x :: y :: ys

/-- The Go call `sort.Slice(xs, less)`, as an insertion sort by the same `less`.
`doClusterRemove` uses only the name of the first element of the result. -/
def sort.Slice {α : Type} (less : α → α → Bool) : List α → List α
  | [] => []
  | x :: xs => sort.insert less x (sort.Slice less xs)

/-- The Go comparison `a < b` of two strings (lexicographic). -/
def stringLess (a b : String) : Bool := decide (a.data < b.data)

/-! ## The handlers -/

/-- The Go function `OnMgmtClusterRemove` (lines 26-38), the loop over the
provisioning clusters found: a delete request for each, stopping at the first one that
fails. -/
def OnMgmtClusterRemove.deleteAll {σ : Type} (h : handler σ) :
    List Cluster → World σ → Option APIError × World σ
  | [], w => (none, w)
  | provisioningCluster :: rest, w =>
    let d := h.clusters.Delete provisioningCluster.Namespace provisioningCluster.Name none w.state
    let w₁ := w.record d.2
      (Event.clustersDelete provisioningCluster.Namespace provisioningCluster.Name none d.1)
    match d.1 with
    | some err => (some err, w₁)
    | none => OnMgmtClusterRemove.deleteAll h rest w₁

/-- The Go function `OnMgmtClusterRemove` (lines 26-38).  `ByCluster` is the name of
the index, a constant declared outside `remove.go`. -/
def OnMgmtClusterRemove {σ : Type} (h : handler σ) (ByCluster : String) (_key : String)
    (cluster : MgmtCluster) (w : World σ) : (Option MgmtCluster × Option GoError) × World σ :=
  let g := h.clusterCache.GetByIndex ByCluster cluster.Name w.state
  let w₁ := w.record g.2 (Event.clusterCacheGetByIndex ByCluster cluster.Name g.1.1 g.1.2)
  match g.1.2 with
  | some err => ((none, some (GoError.api err)), w₁)
  | none =>
    let r := OnMgmtClusterRemove.deleteAll h g.1.1 w₁
    match r.1 with
    | some err => ((none, some (GoError.api err)), r.2)
    | none => ((some cluster, none), r.2)

/-- The Go function `updateClusterStatus` (lines 40-51). -/
def updateClusterStatus {σ : Type} (h : handler σ) (cluster : Cluster) (status : ClusterStatus)
    (previousErr : Option GoError) (w : World σ) : (Option Cluster × Option GoError) × World σ :=
  if status = cluster.Status then
    ((some cluster, previousErr), w)
  else
    let cluster₁ : Cluster := { cluster with Status := status }
    let u := h.clusters.UpdateStatus cluster₁ w.state
    let w₁ := w.record u.2 (Event.clustersUpdateStatus cluster₁ u.1.1 u.1.2)
    match u.1.2 with
    | some err => ((u.1.1, some (GoError.api err)), w₁)
    | none => ((u.1.1, previousErr), w₁)

/-- The member stage of `doClusterRemove` (lines 99-117): the machines are listed and
sorted by name, the first one is reported; without machines the cluster-api cluster
is reported when its lookup gave no error. -/
def doClusterRemove.machines {σ : Type} (h : handler σ) (cluster : Cluster)
    (capiClusterErr : Option APIError) (w : World σ) : (String × Option APIError) × World σ :=
  let selector : Selector := [(capiClusterLabel, cluster.Name)]
  let l := h.capiMachinesCache.List cluster.Namespace selector w.state
  let w₁ := w.record l.2 (Event.capiMachinesCacheList cluster.Namespace selector l.1.1 l.1.2)
  match l.1.2 with
  | some err => (("", some err), w₁)
  | none =>
    match sort.Slice (fun a b => stringLess a.Name b.Name) l.1.1 with
    | machine :: _ => (("waiting for machine [" ++ machine.Name ++ "] to delete", none), w₁)
    | [] =>
      if capiClusterErr = none then
        (("waiting for cluster-api cluster [" ++ cluster.Name ++ "] to delete", none), w₁)
      else
        (("", none), w₁)

/-- The orchestration stage of `doClusterRemove` (lines 87-97) followed by the member
stage: the cluster-api cluster is looked up and, when found without a deletion
timestamp, deleted. -/
def doClusterRemove.capi {σ : Type} (h : handler σ) (cluster : Cluster) (w : World σ) :
    (String × Option APIError) × World σ :=
  let g := h.capiClustersCache.Get cluster.Namespace cluster.Name w.state
  let capiClusterErr := g.1.2
  let w₁ := w.record g.2 (Event.capiClustersCacheGet cluster.Namespace cluster.Name g.1.1 g.1.2)
  if capiClusterErr ≠ none ∧ apierrors.IsNotFound capiClusterErr = false then
    (("", capiClusterErr), w₁)
  else
    match g.1.1 with
    | some capiCluster =>
      if capiCluster.DeletionTimestamp = none then
        let d := h.capiClusters.Delete capiCluster.Namespace capiCluster.Name
          (some ({} : DeleteOptions)) w₁.state
        let w₂ := w₁.record d.2
          (Event.capiClustersDelete capiCluster.Namespace capiCluster.Name
            (some ({} : DeleteOptions)) d.1)
        if d.1 ≠ none ∧ apierrors.IsNotFound d.1 = false then
          (("", d.1), w₂)
        else
          doClusterRemove.machines h cluster capiClusterErr w₂
      else
        doClusterRemove.machines h cluster capiClusterErr w₁
    | none => doClusterRemove.machines h cluster capiClusterErr w₁

/-- The Go function `doClusterRemove` (lines 74-118): the management stage (lines
75-85), then the orchestration and member stages. -/
def doClusterRemove {σ : Type} (h : handler σ) (cluster : Cluster) (w : World σ) :
    (String × Option APIError) × World σ :=
  if cluster.Status.ClusterName ≠ "" then
    let d := h.mgmtClusters.Delete cluster.Status.ClusterName none w.state
    let w₁ := w.record d.2 (Event.mgmtClustersDelete cluster.Status.ClusterName none d.1)
    if d.1 ≠ none ∧ apierrors.IsNotFound d.1 = false then
      (("", d.1), w₁)
    else
      let g := h.mgmtClusterCache.Get cluster.Status.ClusterName w₁.state
      let w₂ := w₁.record g.2 (Event.mgmtClusterCacheGet cluster.Status.ClusterName g.1.1 g.1.2)
      if apierrors.IsNotFound g.1.2 = false then
        (("waiting for cluster [" ++ cluster.Status.ClusterName ++ "] to delete", none), w₂)
      else
        doClusterRemove.capi h cluster w₂
  else
    doClusterRemove.capi h cluster w

/-- What `OnClusterRemove` has computed when it calls `updateClusterStatus`: the new
status and the error or skip signal. -/
structure Computed (σ : Type) where
  status : ClusterStatus
  err : Option GoError
  world : World σ

/-- The Go function `OnClusterRemove`, lines 54-70: the status is copied, the stage
evaluator is asked, and the `Removed` condition and the signal are set from its
outcome.  `now₁` and `now₂` are the readings of the clock for the change of the
condition's state and for the change of its message. -/
def OnClusterRemove.compute {σ : Type} (h : handler σ) (now₁ now₂ : String) (cluster : Cluster)
    (w : World σ) : Computed σ :=
  let status := cluster.Status
  let r := doClusterRemove h cluster w
  match r.1.2 with
  | some err =>
    { status := condition.SetError Removed status "" err now₁ now₂,
      err := some (GoError.api err), world := r.2 }
  | none =>
    if r.1.1 = "" then
      { status := condition.Message Removed
          (condition.Reason Removed (condition.SetStatusBool Removed status true now₁) "") "" now₂,
        err := none, world := r.2 }
    else
      { status := condition.Message Removed
          (condition.Reason Removed (condition.SetStatus Removed status "Unknown" now₁) "Waiting")
          r.1.1 now₂,
        err := some GoError.ErrSkip,
        world := r.2.record
          (h.clusters.EnqueueAfter cluster.Namespace cluster.Name (5 * time.Second) r.2.state)
          (Event.clustersEnqueueAfter cluster.Namespace cluster.Name (5 * time.Second)) }

/-- The Go function `OnClusterRemove` (lines 53-72). -/
def OnClusterRemove {σ : Type} (h : handler σ) (now₁ now₂ : String) (_key : String)
    (cluster : Cluster) (w : World σ) : (Option Cluster × Option GoError) × World σ :=
  let c := OnClusterRemove.compute h now₁ now₂ cluster w
  updateClusterStatus h cluster c.status c.err c.world

/-! ## Observers of events -/

/-- Whether an event is a request for a later reconcile (`EnqueueAfter`). -/
def Event.isEnqueueAfter : Event → Bool
  | Event.clustersEnqueueAfter _ _ _ => true
  | _ => false

/-- Whether an event is a status write (`UpdateStatus`). -/
def Event.isUpdateStatus : Event → Bool
  | Event.clustersUpdateStatus _ _ _ => true
  | _ => false

/-- Whether an event is a delete request, of any kind of object. -/
def Event.isDelete : Event → Bool
  | Event.clustersDelete _ _ _ _ => true
  | Event.mgmtClustersDelete _ _ _ => true
  | Event.capiClustersDelete _ _ _ _ => true
  | _ => false

/-- Whether an event is a call about the cluster-api cluster or the machines: the
lookup or the delete of the cluster-api cluster, or the list of machines. -/
def Event.isCapiCall : Event → Bool
  | Event.capiClustersCacheGet _ _ _ _ => true
  | Event.capiClustersDelete _ _ _ _ => true
  | Event.capiMachinesCacheList _ _ _ _ => true
  | _ => false

/-- Whether an event is one of the calls of the stage evaluator `doClusterRemove`. -/
def Event.isEvaluatorCall : Event → Bool
  | Event.mgmtClustersDelete _ _ _ => true
  | Event.mgmtClusterCacheGet _ _ _ => true
  | Event.capiClustersCacheGet _ _ _ _ => true
  | Event.capiClustersDelete _ _ _ _ => true
  | Event.capiMachinesCacheList _ _ _ _ => true
  | _ => false

/-- Whether an event is a list of machines. -/
def Event.isMachinesList : Event → Bool
  | Event.capiMachinesCacheList _ _ _ _ => true
  | _ => false

/-- Whether an event is a status write that failed. -/
def Event.isFailedUpdateStatus : Event → Bool
  | Event.clustersUpdateStatus _ _ (some _) => true
  | _ => false

/-- The error a call answered with, if any. -/
def Event.err : Event → Option APIError
  | Event.clusterCacheGetByIndex _ _ _ err => err
  | Event.clustersDelete _ _ _ err => err
  | Event.clustersUpdateStatus _ _ err => err
  | Event.clustersEnqueueAfter _ _ _ => none
  | Event.mgmtClustersDelete _ _ err => err
  | Event.mgmtClusterCacheGet _ _ err => err
  | Event.capiClustersCacheGet _ _ _ err => err
  | Event.capiClustersDelete _ _ _ err => err
  | Event.capiMachinesCacheList _ _ _ err => err

/-- Whether an event is a get or a delete call (not a list, a status write, a lookup
by index or a request for a later reconcile). -/
def Event.isGetOrDelete : Event → Bool
  | Event.clustersDelete _ _ _ _ => true
  | Event.mgmtClustersDelete _ _ _ => true
  | Event.mgmtClusterCacheGet _ _ _ => true
  | Event.capiClustersCacheGet _ _ _ _ => true
  | Event.capiClustersDelete _ _ _ _ => true
  | _ => false

/-- Whether a call either did not fail, or is a get or delete call that answered
not-found. -/
def Event.failsAtMostNotFound (ev : Event) : Bool :=
  match ev.err with
  | none => true
  | some e => ev.isGetOrDelete && e.NotFound

/-- Whether an event is a lookup of the management cluster. -/
def Event.isMgmtClusterCacheGet : Event → Bool
  | Event.mgmtClusterCacheGet _ _ _ => true
  | _ => false

/-- Whether an error is one and is not a not-found error. -/
def failsOther (d : Option APIError) : Bool :=
  match d with
  | none => false
  | some e => !e.NotFound

/-- Whether an event is a call of the stage evaluator whose failure makes the
evaluator return: a delete request or a lookup of the cluster-api cluster that fails
with another error than not-found, or a list of machines that fails. -/
def Event.stopsEvaluator : Event → Bool
  | Event.mgmtClustersDelete _ _ err => failsOther err
  | Event.capiClustersCacheGet _ _ _ err => failsOther err
  | Event.capiClustersDelete _ _ _ err => failsOther err
  | Event.capiMachinesCacheList _ _ _ err => err.isSome
  | _ => false

/-- The calls `new` of an evaluator run with outcome `r` stop at a failing call: no call
but the last is a failure that makes the evaluator return; when the last one is, the
outcome is the empty message with its error; and an outcome with an error comes from
such a last call. -/
def stopsAtLast (r : String × Option APIError) (new : List Event) : Prop :=
  ∃ init last, new = init ++ [last] ∧ (∀ ev ∈ init, ev.stopsEvaluator = false) ∧
    (last.stopsEvaluator = true → ∃ e, last.err = some e ∧ r = ("", some e)) ∧
    (∀ e, r.2 = some e → last.stopsEvaluator = true ∧ last.err = some e)

/-- Whether an event is a delete request for a provisioning cluster that failed. -/
def Event.isFailedClustersDelete : Event → Bool
  | Event.clustersDelete _ _ _ (some _) => true
  | _ => false

/-- The event of a delete request for the provisioning cluster `c`, without options,
that is accepted. -/
def Event.deleted (c : Cluster) : Event :=
  Event.clustersDelete c.Namespace c.Name none none

/-- Whether an event is a delete request for a cluster-api cluster. -/
def Event.isCapiClustersDelete : Event → Bool
  | Event.capiClustersDelete _ _ _ _ => true
  | _ => false

/-- The management stage lets the evaluator pass, from store state `s` to `s₂` with the
events `pre`: the cluster references no management cluster (no call is made), or it
references one, the delete request for it does not fail (it is accepted or answers
not-found) and the lookup that follows answers not-found. -/
def mgmtGone {σ : Type} (h : handler σ) (cluster : Cluster) (s s₂ : σ) (pre : List Event) :
    Prop :=
  (cluster.Status.ClusterName = "" ∧ s₂ = s ∧ pre = []) ∨
  (cluster.Status.ClusterName ≠ "" ∧ ∃ d s₁ obj e,
    h.mgmtClusters.Delete cluster.Status.ClusterName none s = (d, s₁) ∧
    (d = none ∨ apierrors.IsNotFound d = true) ∧
    h.mgmtClusterCache.Get cluster.Status.ClusterName s₁ = ((obj, some e), s₂) ∧
    e.NotFound = true ∧
    pre = [Event.mgmtClustersDelete cluster.Status.ClusterName none d,
           Event.mgmtClusterCacheGet cluster.Status.ClusterName obj (some e)])

/-! ## Concrete stores for running the handlers -/

/-- The answers of a store whose clients answer every call of a kind the same way;
a status write may answer from the object written. -/
structure Answers where
  getByIndex : List Cluster × Option APIError
  clustersDelete : Option APIError
  updateStatus : Cluster → Option Cluster × Option APIError
  mgmtDelete : Option APIError
  mgmtGet : Option MgmtCluster × Option APIError
  capiGet : Option CapiCluster × Option APIError
  capiDelete : Option APIError
  machines : Machines × Option APIError

/-- The handler over the one-state store that answers as `a` says. -/
def Answers.toHandler (a : Answers) : handler Unit :=
  { clusterCache := { GetByIndex := fun _ _ s => (a.getByIndex, s) },
    clusters :=
      { Delete := fun _ _ _ s => (a.clustersDelete, s),
        UpdateStatus := fun c s => (a.updateStatus c, s),
        EnqueueAfter := fun _ _ _ s => s },
    mgmtClusters := { Delete := fun _ _ s => (a.mgmtDelete, s) },
    mgmtClusterCache := { Get := fun _ s => (a.mgmtGet, s) },
    capiClustersCache := { Get := fun _ _ s => (a.capiGet, s) },
    capiClusters := { Delete := fun _ _ _ s => (a.capiDelete, s) },
    capiMachinesCache := { List := fun _ _ s => (a.machines, s) } }

/-- A not-found error. -/
def errNotFound : APIError := { NotFound := true, Message := "not found" }

/-- An error that is not a not-found error. -/
def errConflict : APIError := { NotFound := false, Message := "conflict" }

/-- Another error that is not a not-found error. -/
def errTimeout : APIError := { NotFound := false, Message := "timeout" }

/-- The store in which everything the cluster depends on is gone, and a status write
gives back the object written. -/
def allGone : Answers :=
  { getByIndex := ([], none),
    clustersDelete := none,
    updateStatus := fun c => (some c, none),
    mgmtDelete := some errNotFound,
    mgmtGet := (none, some errNotFound),
    capiGet := (none, some errNotFound),
    capiDelete := some errNotFound,
    machines := ([], none) }

/-- The provisioning cluster `ns/foo` that references the management cluster `mgmt1`
and carries no condition yet. -/
def clusterFoo : Cluster :=
  { Namespace := "ns", Name := "foo",
    Status := { ClusterName := "mgmt1", Conditions := [], Other := "" } }

/-- The condition `Removed` with the given state, reason and message. -/
def removedCond (state reason message : String) : GenericCondition :=
  { CondType := "Removed", Status := state, LastUpdateTime := "t0", LastTransitionTime := "",
    Reason := reason, Message := message }

/-- The cluster `ns/foo` whose `Removed` condition is already `True`. -/
def clusterFooRemoved : Cluster :=
  { clusterFoo with
    Status := { ClusterName := "mgmt1", Conditions := [removedCond "True" "" ""], Other := "" } }

/-- The store in which the management cluster still exists: its delete is accepted and
its lookup finds it. -/
def mgmtPresent : Answers :=
  { allGone with mgmtDelete := none, mgmtGet := (some { Name := "mgmt1" }, none) }

/-- The store in which everything is gone and every status write fails with a conflict. -/
def allGoneWriteFails : Answers :=
  { allGone with updateStatus := fun _ => (none, some errConflict) }

/-- The store in which the lookup of the cluster-api cluster times out and every status
write fails with a conflict. -/
def capiTimeoutWriteFails : Answers :=
  { allGone with capiGet := (none, some errTimeout),
                 updateStatus := fun _ => (none, some errConflict) }

/-- The store in which the lookup of the cluster-api cluster times out. -/
def capiTimeout : Answers :=
  { allGone with capiGet := (none, some errTimeout) }

/-- The cluster-api cluster `ns/foo`, not marked for deletion. -/
def capiFoo : CapiCluster := { Namespace := "ns", Name := "foo", DeletionTimestamp := none }

/-- The store in which the management cluster is gone, the cluster-api cluster `ns/foo`
exists without a deletion timestamp and accepts its delete, and there is no machine. -/
def capiPresent : Answers :=
  { allGone with capiGet := (some capiFoo, none), capiDelete := none }

/-- The store in which the management cluster `mgmt1` is gone but its lookup fails with
a time-out. -/
def mgmtLookupTimeout : Answers :=
  { allGone with mgmtGet := (none, some errTimeout) }

/-- The cluster `ns/foo` without a reference to a management cluster. -/
def clusterFooUnreferenced : Cluster :=
  { Namespace := "ns", Name := "foo",
    Status := { ClusterName := "", Conditions := [], Other := "" } }

/-- The store of the spec's example: the management cluster is gone, the cluster-api
cluster `ns/foo` is being deleted, and the machines `b`, `a` and `c` are left, listed
in this order. -/
def machinesLeft : Answers :=
  { allGone with
    capiGet := (some { capiFoo with DeletionTimestamp := some "t0" }, none),
    machines := ([{ Namespace := "ns", Name := "b" }, { Namespace := "ns", Name := "a" },
                  { Namespace := "ns", Name := "c" }], none) }

/-- The cluster-api cluster `ns/foo`, already marked for deletion. -/
def capiFooDeleting : CapiCluster :=
  { Namespace := "ns", Name := "foo", DeletionTimestamp := some "t0" }

/-- The store in which the management cluster is gone, the cluster-api cluster `ns/foo`
is already marked for deletion, and there is no machine. -/
def capiDeleting : Answers :=
  { allGone with capiGet := (some capiFooDeleting, none) }

/-- The management cluster `mgmt1`. -/
def mgmtOne : MgmtCluster := { Name := "mgmt1" }

/-- The provisioning cluster `ns/bar`, which also references `mgmt1`. -/
def clusterBar : Cluster :=
  { Namespace := "ns", Name := "bar",
    Status := { ClusterName := "mgmt1", Conditions := [], Other := "" } }

/-- The store in which `ns/foo` and `ns/bar` are indexed under `mgmt1`, in this order,
and every delete request is accepted. -/
def twoIndexed : Answers :=
  { allGone with getByIndex := ([clusterFoo, clusterBar], none) }

/-- The store in which `ns/foo` and `ns/bar` are indexed under `mgmt1` but are already
gone: every delete request for a provisioning cluster answers not-found. -/
def twoIndexedGone : Answers :=
  { allGone with getByIndex := ([clusterFoo, clusterBar], none),
                 clustersDelete := some errNotFound }

/-- The cluster `ns/foo` with a `Ready` condition before a `Removed` condition that
says waiting, and some other status content. -/
def clusterFooReady : Cluster :=
  { Namespace := "ns", Name := "foo",
    Status :=
      { ClusterName := "mgmt1",
        Conditions :=
          [{ CondType := "Ready", Status := "True", LastUpdateTime := "t0",
             LastTransitionTime := "t0", Reason := "", Message := "" },
           removedCond "Unknown" "Waiting" "waiting for cluster [mgmt1] to delete"],
        Other := "observedGeneration: 3" } }

/-- The store in which the management cluster still exists and every status write fails
with a conflict. -/
def mgmtPresentWriteFails : Answers :=
  { mgmtPresent with updateStatus := fun _ => (none, some errConflict) }

/-- The store in which the management cluster is gone, the cluster-api cluster `ns/foo`
exists without a deletion timestamp, and its delete request fails with a time-out. -/
def capiPresentDeleteFails : Answers :=
  { capiPresent with capiDelete := some errTimeout }

/-- The store in which the management cluster is gone, the cluster-api cluster `ns/foo`
exists without a deletion timestamp and accepts its delete, and every status write fails
with a conflict. -/
def capiPresentWriteFails : Answers :=
  { capiPresent with updateStatus := fun _ => (none, some errConflict) }

/-! ## The handlers over the memory

In Go the handlers are given the address of a cluster, and what `remove.go` does with
`DeepCopy` matters only where two addresses may lead to the same cell.  This section
has the memory the handlers can reach, and `updateClusterStatus` and `OnClusterRemove`
once more over it, line by line: the objects are cells at addresses, `DeepCopy`
allocates, the condition helpers write through the address they are given. -/

/-- A `v1.ClusterStatus` value as it lies in memory.  Strings are immutable; the
`Conditions` field is a slice: nil, or the address of its backing array (a slice has no
spare capacity, as `DeepCopy` makes it, so that appending to it allocates). -/
structure StatusCell where
  ClusterName : String
  Conditions : Option Nat
  Other : String
deriving DecidableEq, Repr

/-- A `v1.Cluster` object as it lies in memory; its `Status` field is held inline. -/
structure ClusterCell where
  Namespace : String
  Name : String
  Status : StatusCell
deriving DecidableEq, Repr

/-- The memory: the cluster objects (what a `*v1.Cluster` points to), the status objects
that stand alone (what a `*v1.ClusterStatus` made by `DeepCopy` points to) and the
backing arrays of the condition slices.  An allocation takes the next free address of
its kind. -/
structure Memory where
  clusters : Nat → ClusterCell
  nextCluster : Nat
  statuses : Nat → StatusCell
  nextStatus : Nat
  arrays : Nat → List GenericCondition
  nextArray : Nat

/-- The conditions a slice holds. -/
def Memory.slice (m : Memory) : Option Nat → List GenericCondition
  | none => []
  | some a => m.arrays a

/-- The value of a status whose fields are `c`. -/
def Memory.status (m : Memory) (c : StatusCell) : ClusterStatus :=
  { ClusterName := c.ClusterName, Conditions := m.slice c.Conditions, Other := c.Other }

/-- The value of the cluster at address `p`. -/
def Memory.cluster (m : Memory) (p : Nat) : Cluster :=
  { Namespace := (m.clusters p).Namespace, Name := (m.clusters p).Name,
    Status := m.status (m.clusters p).Status }

/-- Whether `p` is the address of an allocated cluster whose condition slice, when not
nil, has an allocated backing array. -/
def Memory.holds (m : Memory) (p : Nat) : Bool :=
  decide (p < m.nextCluster) &&
    match (m.clusters p).Status.Conditions with
    | none => true
    | some a => decide (a < m.nextArray)

/-- Modelled from the spec: the copy of a condition slice made by the generated
`DeepCopyInto` (not among the sources; the spec asks for "a deep copy of the existing
status"): nil stays nil, otherwise a new backing array is allocated and filled with the
conditions. -/
def Memory.copySlice (m : Memory) : Option Nat → Option Nat × Memory
  | none => (none, m)
  | some a =>
    (some m.nextArray,
     { m with arrays := Function.update m.arrays m.nextArray (m.arrays a),
              nextArray := m.nextArray + 1 })

/-- Modelled from the spec: `(*ClusterStatus).DeepCopy()` on the status with fields `c`:
a new status object holding a deep copy; its address is returned. -/
def StatusCell.DeepCopy (c : StatusCell) (m : Memory) : Nat × Memory :=
  let s := m.copySlice c.Conditions
  (s.2.nextStatus,
   { s.2 with statuses := Function.update s.2.statuses s.2.nextStatus { c with Conditions := s.1 },
              nextStatus := s.2.nextStatus + 1 })

/-- Modelled from the spec: `(*Cluster).DeepCopy()` on the cluster at address `p`: a new
cluster object holding a deep copy; its address is returned. -/
def Memory.DeepCopyCluster (m : Memory) (p : Nat) : Nat × Memory :=
  let c := m.clusters p
  let s := m.copySlice c.Status.Conditions
  (s.2.nextCluster,
   { s.2 with clusters := Function.update s.2.clusters s.2.nextCluster
                { c with Status := { c.Status with Conditions := s.1 } },
              nextCluster := s.2.nextCluster + 1 })

/-- Modelled from the spec: what appending to the condition slice of the status object
at `status` does in the condition helpers: the conditions `xs` are put in a new backing
array and the slice of the status object is set to it. -/
def Memory.setSlice (m : Memory) (status : Nat) (xs : List GenericCondition) : Memory :=
  { m with arrays := Function.update m.arrays m.nextArray xs,
           nextArray := m.nextArray + 1,
           statuses := Function.update m.statuses status
             { m.statuses status with Conditions := some m.nextArray } }

/-- Modelled from the spec: find-or-create of the condition helpers on the status object
at address `status`, followed by the change `f`.  A condition that is found is changed
where it lies, in the backing array; one that is not is appended. -/
def Mem.modify (c : String) (f : GenericCondition → GenericCondition) (status : Nat)
    (m : Memory) : Memory :=
  match (m.statuses status).Conditions with
  | some a =>
    if (m.arrays a).any (fun x => decide (x.CondType = c)) then
      { m with arrays := Function.update m.arrays a (condition.modify c f (m.arrays a)) }
    else
      m.setSlice status (m.arrays a ++ [f (condition.newCond c)])
  | none => m.setSlice status [f (condition.newCond c)]

/-- Modelled from the spec: `Cond.SetStatus(obj, status)` through the address `obj`. -/
def Mem.SetStatus (c : String) (status : Nat) (value now : String) (m : Memory) : Memory :=
  Mem.modify c (condition.setStatusField value now) status m

/-- Modelled from the spec: `Cond.SetStatusBool(obj, val)` through the address `obj`. -/
def Mem.SetStatusBool (c : String) (status : Nat) (val : Bool) (now : String) (m : Memory) :
    Memory :=
  Mem.SetStatus c status (if val then "True" else "False") now m

/-- Modelled from the spec: `Cond.Reason(obj, reason)` through the address `obj`. -/
def Mem.Reason (c : String) (status : Nat) (reason : String) (m : Memory) : Memory :=
  Mem.modify c (condition.setReasonField reason) status m

/-- Modelled from the spec: `Cond.Message(obj, message)` through the address `obj`. -/
def Mem.Message (c : String) (status : Nat) (message now : String) (m : Memory) : Memory :=
  Mem.modify c (condition.setMessageField message now) status m

/-- Modelled from the spec: `Cond.SetError(obj, reason, err)` through the address `obj`,
for a non-nil error that is not the skip sentinel. -/
def Mem.SetError (c : String) (status : Nat) (reason : String) (err : APIError)
    (now₁ now₂ : String) (m : Memory) : Memory :=
  Mem.Reason c status (if reason = "" then "Error" else reason)
    (Mem.Message c status err.Message now₂ (Mem.SetStatusBool c status false now₁ m))

/-- The Go function `updateClusterStatus` (lines 40-51) over the memory: `cluster` is an
address, `status` a status passed by value (its slice still leads to the backing array
of the caller).  Line 44 allocates the copy and line 45 writes the status into the
copy.  The object handed to the client and the object returned are given by value. -/
def Mem.updateClusterStatus {σ : Type} (h : handler σ) (cluster : Nat) (status : StatusCell)
    (previousErr : Option GoError) (w : World σ) (m : Memory) :
    ((Option Cluster × Option GoError) × World σ) × Memory :=
  if m.status status = m.status (m.clusters cluster).Status then
    (((some (m.cluster cluster), previousErr), w), m)
  else
    let dc := m.DeepCopyCluster cluster
    let cluster₁ := dc.1
    let m₁ : Memory :=
      { dc.2 with clusters := Function.update dc.2.clusters cluster₁
                    { dc.2.clusters cluster₁ with Status := status } }
    let u := h.clusters.UpdateStatus (m₁.cluster cluster₁) w.state
    let w₁ := w.record u.2 (Event.clustersUpdateStatus (m₁.cluster cluster₁) u.1.1 u.1.2)
    match u.1.2 with
    | some err => (((u.1.1, some (GoError.api err)), w₁), m₁)
    | none => (((u.1.1, previousErr), w₁), m₁)

/-- What `OnClusterRemove` has computed over the memory when it calls
`updateClusterStatus`: the address of the new status and the error or skip signal. -/
structure Mem.Computed (σ : Type) where
  status : Nat
  err : Option GoError
  world : World σ
  memory : Memory

/-- The Go function `OnClusterRemove`, lines 54-70, over the memory: line 54 allocates
the copy of the status, the stage evaluator reads the cluster at its address, and the
condition helpers write through the address of the copy. -/
def Mem.compute {σ : Type} (h : handler σ) (now₁ now₂ : String) (cluster : Nat)
    (w : World σ) (m : Memory) : Mem.Computed σ :=
  let sc := (m.clusters cluster).Status.DeepCopy m
  let status := sc.1
  let r := doClusterRemove h (sc.2.cluster cluster) w
  match r.1.2 with
  | some err =>
    { status := status, err := some (GoError.api err), world := r.2,
      memory := Mem.SetError Removed status "" err now₁ now₂ sc.2 }
  | none =>
    if r.1.1 = "" then
      { status := status, err := none, world := r.2,
        memory := Mem.Message Removed status "" now₂
          (Mem.Reason Removed status "" (Mem.SetStatusBool Removed status true now₁ sc.2)) }
    else
      let m₃ := Mem.Message Removed status r.1.1 now₂
        (Mem.Reason Removed status "Waiting" (Mem.SetStatus Removed status "Unknown" now₁ sc.2))
      { status := status, err := some GoError.ErrSkip,
        world := r.2.record
          (h.clusters.EnqueueAfter (m₃.clusters cluster).Namespace (m₃.clusters cluster).Name
            (5 * time.Second) r.2.state)
          (Event.clustersEnqueueAfter (m₃.clusters cluster).Namespace
            (m₃.clusters cluster).Name (5 * time.Second)),
        memory := m₃ }

/-- The Go function `OnClusterRemove` (lines 53-72) over the memory; line 71 passes the
status object by value (`*status`). -/
def Mem.OnClusterRemove {σ : Type} (h : handler σ) (now₁ now₂ : String) (_key : String)
    (cluster : Nat) (w : World σ) (m : Memory) :
    ((Option Cluster × Option GoError) × World σ) × Memory :=
  let c := Mem.compute h now₁ now₂ cluster w m
  Mem.updateClusterStatus h cluster (c.memory.statuses c.status) c.err c.world c.memory

/-- What a pass leaves as it was: every cell of `m` that was allocated is the same in
`m'`, and nothing allocated is freed. -/
def Memory.keptBy (m m' : Memory) : Prop :=
  m.nextCluster ≤ m'.nextCluster ∧ m.nextStatus ≤ m'.nextStatus ∧
  m.nextArray ≤ m'.nextArray ∧
  (∀ p, p < m.nextCluster → m'.clusters p = m.clusters p) ∧
  (∀ q, q < m.nextStatus → m'.statuses q = m.statuses q) ∧
  (∀ a, a < m.nextArray → m'.arrays a = m.arrays a)

/-- The memory `m` while the pass works on its copy of the status at address `status`:
next to what `Memory.keptBy` says, no cluster object was written or allocated, and the
status object at `status` and its backing array were allocated after `m₀`. -/
def Memory.scratch (m₀ : Memory) (status : Nat) (m : Memory) : Prop :=
  m₀.keptBy m ∧ m.clusters = m₀.clusters ∧ m.nextCluster = m₀.nextCluster ∧
  m₀.nextStatus ≤ status ∧
  ∀ a, (m.statuses status).Conditions = some a → m₀.nextArray ≤ a ∧ a < m.nextArray

/-- A memory holding the cluster `clusterFooReady` at address 0, its conditions in the
backing array at address 0, and nothing else. -/
def memoryFooReady : Memory :=
  { clusters := fun _ =>
      { Namespace := "ns", Name := "foo",
        Status := { ClusterName := "mgmt1", Conditions := some 0,
                    Other := "observedGeneration: 3" } },
    nextCluster := 1,
    statuses := fun _ => { ClusterName := "", Conditions := none, Other := "" },
    nextStatus := 0,
    arrays := fun _ => clusterFooReady.Status.Conditions,
    nextArray := 1 }

/-! ## Auxiliary facts -/

theorem sort_insert_ne_nil {α : Type} (less : α → α → Bool) (x : α) (l : List α) :
    sort.insert less x l ≠ [] := by
  cases l with
  | nil => simp [sort.insert]
  | cons y ys =>
    unfold sort.insert
    split <;> simp

theorem sort_Slice_eq_nil {α : Type} (less : α → α → Bool) (l : List α) :
    sort.Slice less l = [] ↔ l = [] := by
  cases l with
  | nil => simp [sort.Slice]
  | cons x xs => simp [sort.Slice, sort_insert_ne_nil]

theorem append3_ne_empty (a b x : String) (ha : a ≠ "") : a ++ x ++ b ≠ "" := by
  intro hx
  have hlen := congrArg String.length hx
  simp at hlen
  apply ha
  have h0 : a.length = 0 := hlen.1.1
  cases a with
  | mk d =>
    have hd : d = [] := by simpa [String.length] using h0
    subst hd
    rfl

theorem machines_world {σ : Type} (h : handler σ) (cluster : Cluster)
    (capiClusterErr : Option APIError) (w : World σ) :
    (doClusterRemove.machines h cluster capiClusterErr w).2 =
      w.record (h.capiMachinesCache.List cluster.Namespace [(capiClusterLabel, cluster.Name)] w.state).2
        (Event.capiMachinesCacheList cluster.Namespace [(capiClusterLabel, cluster.Name)]
          (h.capiMachinesCache.List cluster.Namespace [(capiClusterLabel, cluster.Name)] w.state).1.1
          (h.capiMachinesCache.List cluster.Namespace [(capiClusterLabel, cluster.Name)] w.state).1.2) := by
  unfold doClusterRemove.machines
  simp only
  split
  · rfl
  · split
    · rfl
    · split <;> rfl

theorem machines_done {σ : Type} (h : handler σ) (cluster : Cluster)
    (capiClusterErr : Option APIError) (w : World σ)
    (hdone : (doClusterRemove.machines h cluster capiClusterErr w).1 = ("", none)) :
    capiClusterErr ≠ none ∧
      (h.capiMachinesCache.List cluster.Namespace [(capiClusterLabel, cluster.Name)] w.state).1
        = ([], none) := by
  unfold doClusterRemove.machines at hdone
  simp only at hdone
  split at hdone
  · simp at hdone
  · rename_i herr
    split at hdone
    · exact absurd (congrArg Prod.fst hdone) (append3_ne_empty _ _ _ (by decide))
    · rename_i hsort
      split at hdone
      · exact absurd (congrArg Prod.fst hdone) (append3_ne_empty _ _ _ (by decide))
      · rename_i hc
        refine ⟨hc, ?_⟩
        rw [sort_Slice_eq_nil] at hsort
        exact Prod.ext hsort herr

theorem capi_done {σ : Type} (h : handler σ) (cluster : Cluster) (w : World σ)
    (hdone : (doClusterRemove.capi h cluster w).1 = ("", none)) :
    ∃ obj e mid, e.NotFound = true ∧
      (doClusterRemove.capi h cluster w).2.events =
        w.events ++ [Event.capiClustersCacheGet cluster.Namespace cluster.Name obj (some e)]
          ++ mid
          ++ [Event.capiMachinesCacheList cluster.Namespace [(capiClusterLabel, cluster.Name)]
                [] none] ∧
      (mid = [] ∨ ∃ ns name er, mid = [Event.capiClustersDelete ns name (some {}) er]) := by
  rcases hg : h.capiClustersCache.Get cluster.Namespace cluster.Name w.state with ⟨⟨obj, cerr⟩, s₁⟩
  unfold doClusterRemove.capi at hdone ⊢
  simp only [hg] at hdone ⊢
  cases cerr with
  | none =>
    simp only [ne_eq, not_true_eq_false, false_and, if_false] at hdone ⊢
    exfalso
    split at hdone
    · split at hdone
      · split at hdone
        · rename_i hd
          have := congrArg Prod.snd hdone
          simp at this
          exact hd.1 this
        · exact (machines_done _ _ _ _ hdone).1 rfl
      · exact (machines_done _ _ _ _ hdone).1 rfl
    · exact (machines_done _ _ _ _ hdone).1 rfl
  | some e =>
    cases hnf : e.NotFound with
    | false => simp [apierrors.IsNotFound, hnf] at hdone
    | true =>
      simp only [ne_eq, apierrors.IsNotFound, hnf, reduceCtorEq, not_false_eq_true, and_false,
        if_false] at hdone ⊢
      cases obj with
      | none =>
        simp only at hdone ⊢
        obtain ⟨-, hl⟩ := machines_done _ _ _ _ hdone
        rw [machines_world, hl]
        exact ⟨none, e, [], hnf, by simp [World.record], Or.inl rfl⟩
      | some capiCluster =>
        simp only at hdone ⊢
        by_cases hts : capiCluster.DeletionTimestamp = none
        · simp only [hts, if_true] at hdone ⊢
          split at hdone
          · rename_i hd
            have := congrArg Prod.snd hdone
            simp at this
            exact absurd this hd.1
          · rename_i hd
            rw [if_neg hd]
            obtain ⟨-, hl⟩ := machines_done _ _ _ _ hdone
            rw [machines_world, hl]
            exact ⟨some capiCluster, e,
              [Event.capiClustersDelete capiCluster.Namespace capiCluster.Name (some {})
                (h.capiClusters.Delete capiCluster.Namespace capiCluster.Name (some {}) s₁).1],
              hnf, by simp [World.record], Or.inr ⟨_, _, _, rfl⟩⟩
        · simp only [hts, if_false] at hdone ⊢
          obtain ⟨-, hl⟩ := machines_done _ _ _ _ hdone
          rw [machines_world, hl]
          exact ⟨some capiCluster, e, [], hnf, by simp [World.record], Or.inl rfl⟩

theorem doClusterRemove_done {σ : Type} (h : handler σ) (cluster : Cluster) (w : World σ)
    (hdone : (doClusterRemove h cluster w).1 = ("", none)) :
    ∃ pre obj e mid, e.NotFound = true ∧
      (doClusterRemove h cluster w).2.events =
        w.events ++ pre
          ++ [Event.capiClustersCacheGet cluster.Namespace cluster.Name obj (some e)]
          ++ mid
          ++ [Event.capiMachinesCacheList cluster.Namespace [(capiClusterLabel, cluster.Name)]
                [] none] ∧
      (mid = [] ∨ ∃ ns name er, mid = [Event.capiClustersDelete ns name (some {}) er]) ∧
      ((cluster.Status.ClusterName = "" ∧ pre = []) ∨
        (cluster.Status.ClusterName ≠ "" ∧ ∃ d obj₀ e₀, e₀.NotFound = true ∧
          pre = [Event.mgmtClustersDelete cluster.Status.ClusterName none d,
                 Event.mgmtClusterCacheGet cluster.Status.ClusterName obj₀ (some e₀)])) := by
  by_cases hname : cluster.Status.ClusterName = ""
  · unfold doClusterRemove at hdone ⊢
    simp only [ne_eq, hname, not_true_eq_false, if_false] at hdone ⊢
    obtain ⟨obj, e, mid, he, hev, hmid⟩ := capi_done h cluster w hdone
    exact ⟨[], obj, e, mid, he, by simpa using hev, hmid, Or.inl ⟨trivial, rfl⟩⟩
  · rcases hd : h.mgmtClusters.Delete cluster.Status.ClusterName none w.state with ⟨d, s₁⟩
    rcases hg : h.mgmtClusterCache.Get cluster.Status.ClusterName s₁ with ⟨⟨obj₀, gerr⟩, s₂⟩
    unfold doClusterRemove at hdone ⊢
    simp only [ne_eq, hname, not_false_eq_true, if_true, hd, World.record, hg] at hdone ⊢
    split at hdone
    · rename_i hderr
      have := congrArg Prod.snd hdone
      simp at this
      exact absurd this hderr.1
    · rename_i hderr
      rw [if_neg hderr]
      split at hdone
      · exact absurd (congrArg Prod.fst hdone) (append3_ne_empty _ _ _ (by decide))
      · rename_i hgerr
        rw [if_neg hgerr]
        obtain ⟨obj, e, mid, he, hev, hmid⟩ := capi_done h cluster _ hdone
        cases gerr with
        | none => simp [apierrors.IsNotFound] at hgerr
        | some e₀ =>
          refine ⟨[Event.mgmtClustersDelete cluster.Status.ClusterName none d,
                 Event.mgmtClusterCacheGet cluster.Status.ClusterName obj₀ (some e₀)],
            obj, e, mid, he, ?_, hmid, Or.inr ⟨trivial, d, obj₀, e₀, ?_, rfl⟩⟩
          · rw [hev]
            simp
          · simpa [apierrors.IsNotFound] using hgerr

theorem compute_err_none {σ : Type} (h : handler σ) (now₁ now₂ : String) (cluster : Cluster)
    (w : World σ) (hnone : (OnClusterRemove.compute h now₁ now₂ cluster w).err = none) :
    (doClusterRemove h cluster w).1 = ("", none) ∧
      (OnClusterRemove.compute h now₁ now₂ cluster w).world = (doClusterRemove h cluster w).2 := by
  unfold OnClusterRemove.compute at hnone ⊢
  simp only at hnone ⊢
  split at hnone
  · simp at hnone
  · rename_i herr
    split at hnone
    · rename_i hmsg
      simp only [herr, hmsg, if_true]
      exact ⟨Prod.ext hmsg herr, trivial⟩
    · simp at hnone

theorem updateClusterStatus_events {σ : Type} (h : handler σ) (cluster : Cluster)
    (status : ClusterStatus) (previousErr : Option GoError) (w : World σ) :
    (updateClusterStatus h cluster status previousErr w).2.events = w.events ∨
      ∃ obj res err, (updateClusterStatus h cluster status previousErr w).2.events =
        w.events ++ [Event.clustersUpdateStatus obj res err] := by
  unfold updateClusterStatus
  split
  · exact Or.inl rfl
  · simp only
    split <;> exact Or.inr ⟨_, _, _, rfl⟩

theorem updateClusterStatus_nil {σ : Type} (h : handler σ) (cluster : Cluster)
    (status : ClusterStatus) (previousErr : Option GoError) (w : World σ)
    (hnil : (updateClusterStatus h cluster status previousErr w).1.2 = none) :
    previousErr = none := by
  unfold updateClusterStatus at hnil
  split at hnil
  · exact hnil
  · simp only at hnil
    split at hnil
    · simp at hnil
    · exact hnil

/-! ## Facts about the condition helpers -/

theorem find_modify (c : String) (f : GenericCondition → GenericCondition)
    (hf : ∀ x, (f x).CondType = x.CondType) (l : List GenericCondition) :
    (condition.modify c f l).find? (fun x => decide (x.CondType = c)) =
      some (f ((l.find? (fun x => decide (x.CondType = c))).getD (condition.newCond c))) := by
  induction l with
  | nil => simp [condition.modify, hf, condition.newCond]
  | cons x xs ih =>
    unfold condition.modify
    by_cases hx : x.CondType = c
    · simp [hx, hf]
    · simp [hx, ih]

theorem setStatusField_type (value now : String) (x : GenericCondition) :
    (condition.setStatusField value now x).CondType = x.CondType := by
  unfold condition.setStatusField
  split <;> rfl

theorem setMessageField_type (value now : String) (x : GenericCondition) :
    (condition.setMessageField value now x).CondType = x.CondType := by
  unfold condition.setMessageField
  split <;> rfl

theorem setStatusField_fields (value now : String) (x : GenericCondition) :
    (condition.setStatusField value now x).Status = value ∧
    (condition.setStatusField value now x).Reason = x.Reason ∧
    (condition.setStatusField value now x).Message = x.Message := by
  unfold condition.setStatusField
  split
  · rename_i hx
    exact ⟨hx, rfl, rfl⟩
  · exact ⟨rfl, rfl, rfl⟩

theorem setMessageField_fields (value now : String) (x : GenericCondition) :
    (condition.setMessageField value now x).Message = value ∧
    (condition.setMessageField value now x).Reason = x.Reason ∧
    (condition.setMessageField value now x).Status = x.Status := by
  unfold condition.setMessageField
  split
  · rename_i hx
    exact ⟨hx, rfl, rfl⟩
  · exact ⟨rfl, rfl, rfl⟩

/-- The condition found after state, reason and message have been set in this order. -/
theorem find_status_reason_message (c : String) (status : ClusterStatus)
    (value reason message now₁ now₂ : String) :
    condition.find c (condition.Message c
        (condition.Reason c (condition.SetStatus c status value now₁) reason) message now₂) =
      some (condition.setMessageField message now₂ (condition.setReasonField reason
        (condition.setStatusField value now₁
          ((condition.find c status).getD (condition.newCond c))))) := by
  unfold condition.find condition.Message condition.Reason condition.SetStatus
  simp only
  rw [find_modify _ _ (setMessageField_type _ _),
    find_modify _ (condition.setReasonField reason) (fun _ => rfl),
    find_modify _ _ (setStatusField_type _ _)]
  rfl

/-- After state, reason and message have been set in this order, the condition carries
exactly these three. -/
theorem find_after_status_reason_message (c : String) (status : ClusterStatus)
    (value reason message now₁ now₂ : String) :
    ∃ x, condition.find c (condition.Message c
        (condition.Reason c (condition.SetStatus c status value now₁) reason) message now₂) = some x ∧
      x.Status = value ∧ x.Reason = reason ∧ x.Message = message := by
  rw [find_status_reason_message]
  refine ⟨_, rfl, ?_, ?_, ?_⟩
  · rw [(setMessageField_fields _ _ _).2.2]
    exact (setStatusField_fields _ _ _).1
  · rw [(setMessageField_fields _ _ _).2.1]
    rfl
  · exact (setMessageField_fields _ _ _).1

/-- After state, message and reason have been set in this order, the condition carries
exactly these three. -/
theorem find_after_status_message_reason (c : String) (status : ClusterStatus)
    (value reason message now₁ now₂ : String) :
    ∃ x, condition.find c (condition.Reason c
        (condition.Message c (condition.SetStatus c status value now₁) message now₂) reason) = some x ∧
      x.Status = value ∧ x.Reason = reason ∧ x.Message = message := by
  unfold condition.find condition.Message condition.Reason condition.SetStatus
  simp only
  rw [find_modify _ (condition.setReasonField reason) (fun _ => rfl),
    find_modify _ _ (setMessageField_type _ _),
    find_modify _ _ (setStatusField_type _ _)]
  refine ⟨_, rfl, ?_, rfl, ?_⟩
  · show (condition.setMessageField _ _ _).Status = value
    rw [(setMessageField_fields _ _ _).2.2]
    exact (setStatusField_fields _ _ _).1
  · exact (setMessageField_fields _ _ _).1

/-- The three ways `updateClusterStatus` can go: no write, a write that succeeds, a
write that fails. -/
theorem updateClusterStatus_cases {σ : Type} (h : handler σ) (cluster : Cluster)
    (status : ClusterStatus) (previousErr : Option GoError) (w : World σ) :
    (status = cluster.Status ∧
      updateClusterStatus h cluster status previousErr w = ((some cluster, previousErr), w)) ∨
    (status ≠ cluster.Status ∧ ∃ res s₁,
      h.clusters.UpdateStatus { cluster with Status := status } w.state = ((res, none), s₁) ∧
      updateClusterStatus h cluster status previousErr w =
        ((res, previousErr),
          w.record s₁ (Event.clustersUpdateStatus { cluster with Status := status } res none))) ∨
    (status ≠ cluster.Status ∧ ∃ res e s₁,
      h.clusters.UpdateStatus { cluster with Status := status } w.state = ((res, some e), s₁) ∧
      updateClusterStatus h cluster status previousErr w =
        ((res, some (GoError.api e)),
          w.record s₁ (Event.clustersUpdateStatus { cluster with Status := status } res (some e)))) := by
  by_cases hs : status = cluster.Status
  · left
    exact ⟨hs, by simp [updateClusterStatus, hs]⟩
  · right
    rcases hu : h.clusters.UpdateStatus { cluster with Status := status } w.state with
      ⟨⟨res, err⟩, s₁⟩
    cases err with
    | none =>
      left
      exact ⟨hs, res, s₁, rfl, by simp [updateClusterStatus, hs, hu]⟩
    | some e =>
      right
      exact ⟨hs, res, e, s₁, rfl, by simp [updateClusterStatus, hs, hu]⟩

theorem updateClusterStatus_filter {σ : Type} (h : handler σ) (cluster : Cluster)
    (status : ClusterStatus) (previousErr : Option GoError) (w : World σ) (p : Event → Bool)
    (hp : ∀ ev, ev.isUpdateStatus = true → p ev = false) :
    (updateClusterStatus h cluster status previousErr w).2.events.filter p =
      w.events.filter p := by
  have h₁ : ∀ o r e, p (Event.clustersUpdateStatus o r e) = false := fun _ _ _ => hp _ rfl
  rcases updateClusterStatus_cases h cluster status previousErr w with
    ⟨-, hr⟩ | ⟨-, res, s₁, -, hr⟩ | ⟨-, res, e, s₁, -, hr⟩ <;>
    rw [hr] <;> simp [World.record, List.filter_append, h₁]

/-- When no status write of the pass fails, `updateClusterStatus` returns the signal
it was given; when one fails, it returns an error all the same. -/
theorem updateClusterStatus_err {σ : Type} (h : handler σ) (cluster : Cluster)
    (status : ClusterStatus) (previousErr : Option GoError) (w : World σ) :
    ((updateClusterStatus h cluster status previousErr w).2.events.filter
        Event.isFailedUpdateStatus = [] →
      (updateClusterStatus h cluster status previousErr w).1.2 = previousErr) ∧
    (previousErr ≠ none → (updateClusterStatus h cluster status previousErr w).1.2 ≠ none) := by
  rcases updateClusterStatus_cases h cluster status previousErr w with
    ⟨-, hr⟩ | ⟨-, res, s₁, -, hr⟩ | ⟨-, res, e, s₁, -, hr⟩ <;> rw [hr]
  · exact ⟨fun _ => rfl, fun hne => hne⟩
  · exact ⟨fun _ => rfl, fun hne => hne⟩
  · refine ⟨fun hno => ?_, fun _ => by simp⟩
    simp [World.record, List.filter_append, Event.isFailedUpdateStatus] at hno

theorem not_failed_cases (d : Option APIError)
    (hd : d = none ∨ apierrors.IsNotFound d = true) :
    d = none ∨ ∃ e, d = some e ∧ e.NotFound = true := by
  rcases hd with rfl | hd
  · exact Or.inl rfl
  · cases d with
    | none => exact Or.inl rfl
    | some e => exact Or.inr ⟨e, rfl, by simpa [apierrors.IsNotFound] using hd⟩

theorem machines_filter {σ : Type} (h : handler σ) (cluster : Cluster)
    (capiClusterErr : Option APIError) (w : World σ) (p : Event → Bool)
    (hp : ∀ ev, ev.isEvaluatorCall = true → p ev = false) :
    (doClusterRemove.machines h cluster capiClusterErr w).2.events.filter p =
      w.events.filter p := by
  have h₁ : ∀ ns sel o e, p (Event.capiMachinesCacheList ns sel o e) = false :=
    fun _ _ _ _ => hp _ rfl
  rw [machines_world]
  simp [World.record, List.filter_append, h₁]

theorem capi_filter {σ : Type} (h : handler σ) (cluster : Cluster) (w : World σ)
    (p : Event → Bool) (hp : ∀ ev, ev.isEvaluatorCall = true → p ev = false) :
    (doClusterRemove.capi h cluster w).2.events.filter p = w.events.filter p := by
  have h₁ : ∀ ns n o e, p (Event.capiClustersCacheGet ns n o e) = false :=
    fun _ _ _ _ => hp _ rfl
  have h₂ : ∀ ns n o e, p (Event.capiClustersDelete ns n o e) = false :=
    fun _ _ _ _ => hp _ rfl
  unfold doClusterRemove.capi
  simp only
  split
  · simp [World.record, List.filter_append, h₁]
  · split
    · split
      · split
        · simp [World.record, List.filter_append, h₁, h₂]
        · rw [machines_filter _ _ _ _ p hp]
          simp [World.record, List.filter_append, h₁, h₂]
      · rw [machines_filter _ _ _ _ p hp]
        simp [World.record, List.filter_append, h₁]
    · rw [machines_filter _ _ _ _ p hp]
      simp [World.record, List.filter_append, h₁]

theorem doClusterRemove_filter {σ : Type} (h : handler σ) (cluster : Cluster) (w : World σ)
    (p : Event → Bool) (hp : ∀ ev, ev.isEvaluatorCall = true → p ev = false) :
    (doClusterRemove h cluster w).2.events.filter p = w.events.filter p := by
  have h₁ : ∀ n o e, p (Event.mgmtClustersDelete n o e) = false := fun _ _ _ => hp _ rfl
  have h₂ : ∀ n o e, p (Event.mgmtClusterCacheGet n o e) = false := fun _ _ _ => hp _ rfl
  unfold doClusterRemove
  simp only
  split
  · split
    · simp [World.record, List.filter_append, h₁]
    · split
      · simp [World.record, List.filter_append, h₁, h₂]
      · rw [capi_filter _ _ _ p hp]
        simp [World.record, List.filter_append, h₁, h₂]
  · exact capi_filter _ _ _ p hp

/-- The events of the stage evaluator hold no request for a later reconcile and no
status write. -/
theorem doClusterRemove_no_enqueue {σ : Type} (h : handler σ) (cluster : Cluster) (s : σ) :
    (doClusterRemove h cluster (World.start s)).2.events.filter Event.isEnqueueAfter = [] ∧
    (doClusterRemove h cluster (World.start s)).2.events.filter Event.isUpdateStatus = [] := by
  constructor
  · rw [doClusterRemove_filter]
    · rfl
    · intro ev hev
      cases ev <;> simp_all [Event.isEvaluatorCall, Event.isEnqueueAfter]
  · rw [doClusterRemove_filter]
    · rfl
    · intro ev hev
      cases ev <;> simp_all [Event.isEvaluatorCall, Event.isUpdateStatus]

theorem compute_done {σ : Type} (h : handler σ) (now₁ now₂ : String) (cluster : Cluster)
    (w : World σ) (hdone : (doClusterRemove h cluster w).1 = ("", none)) :
    OnClusterRemove.compute h now₁ now₂ cluster w =
      { status := condition.Message Removed
          (condition.Reason Removed (condition.SetStatusBool Removed cluster.Status true now₁) "")
          "" now₂,
        err := none, world := (doClusterRemove h cluster w).2 } := by
  unfold OnClusterRemove.compute
  simp [hdone]

theorem compute_waiting {σ : Type} (h : handler σ) (now₁ now₂ : String) (cluster : Cluster)
    (w : World σ) (msg : String) (hwait : (doClusterRemove h cluster w).1 = (msg, none))
    (hmsg : msg ≠ "") :
    OnClusterRemove.compute h now₁ now₂ cluster w =
      { status := condition.Message Removed
          (condition.Reason Removed (condition.SetStatus Removed cluster.Status "Unknown" now₁)
            "Waiting") msg now₂,
        err := some GoError.ErrSkip,
        world := (doClusterRemove h cluster w).2.record
          (h.clusters.EnqueueAfter cluster.Namespace cluster.Name (5 * time.Second)
            (doClusterRemove h cluster w).2.state)
          (Event.clustersEnqueueAfter cluster.Namespace cluster.Name (5 * time.Second)) } := by
  unfold OnClusterRemove.compute
  simp [hwait, hmsg]

theorem compute_error {σ : Type} (h : handler σ) (now₁ now₂ : String) (cluster : Cluster)
    (w : World σ) (err : APIError) (herr : (doClusterRemove h cluster w).1.2 = some err) :
    OnClusterRemove.compute h now₁ now₂ cluster w =
      { status := condition.SetError Removed cluster.Status "" err now₁ now₂,
        err := some (GoError.api err), world := (doClusterRemove h cluster w).2 } := by
  unfold OnClusterRemove.compute
  simp [herr]

theorem compute_no_updateStatus {σ : Type} (h : handler σ) (now₁ now₂ : String)
    (cluster : Cluster) (s : σ) :
    (OnClusterRemove.compute h now₁ now₂ cluster (World.start s)).world.events.filter
      Event.isUpdateStatus = [] := by
  have hev := (doClusterRemove_no_enqueue h cluster s).2
  unfold OnClusterRemove.compute
  simp only
  split
  · exact hev
  · split
    · exact hev
    · simp [World.record, List.filter_append, hev, Event.isUpdateStatus]

/-- Every status write of a pass of `OnClusterRemove` writes the cluster with the
computed status, and happens only when that status differs from the current one. -/
theorem OnClusterRemove_written {σ : Type} (h : handler σ) (now₁ now₂ key : String)
    (cluster : Cluster) (s : σ) (obj : Cluster) (res : Option Cluster) (e : Option APIError)
    (hmem : Event.clustersUpdateStatus obj res e ∈
      (OnClusterRemove h now₁ now₂ key cluster (World.start s)).2.events) :
    obj = { cluster with
            Status := (OnClusterRemove.compute h now₁ now₂ cluster (World.start s)).status } ∧
    (OnClusterRemove.compute h now₁ now₂ cluster (World.start s)).status ≠ cluster.Status := by
  have hno := compute_no_updateStatus h now₁ now₂ cluster s
  have hnot : Event.clustersUpdateStatus obj res e ∉
      (OnClusterRemove.compute h now₁ now₂ cluster (World.start s)).world.events := by
    intro hin
    have : Event.clustersUpdateStatus obj res e ∈
        (OnClusterRemove.compute h now₁ now₂ cluster (World.start s)).world.events.filter
          Event.isUpdateStatus := List.mem_filter.mpr ⟨hin, rfl⟩
    rw [hno] at this
    exact absurd this (List.not_mem_nil _)
  unfold OnClusterRemove at hmem
  simp only at hmem
  rcases updateClusterStatus_cases h cluster
    (OnClusterRemove.compute h now₁ now₂ cluster (World.start s)).status
    (OnClusterRemove.compute h now₁ now₂ cluster (World.start s)).err
    (OnClusterRemove.compute h now₁ now₂ cluster (World.start s)).world with
    ⟨-, hr⟩ | ⟨hne, r, s₁, -, hr⟩ | ⟨hne, r, e₁, s₁, -, hr⟩ <;> rw [hr] at hmem
  · exact absurd hmem hnot
  · simp only [World.record, List.mem_append, List.mem_singleton] at hmem
    rcases hmem with hin | heq
    · exact absurd hin hnot
    · injection heq with h₁ h₂ h₃
      exact ⟨h₁, hne⟩
  · simp only [World.record, List.mem_append, List.mem_singleton] at hmem
    rcases hmem with hin | heq
    · exact absurd hin hnot
    · injection heq with h₁ h₂ h₃
      exact ⟨h₁, hne⟩

/-- The requests for a later reconcile among the events of a pass of `OnClusterRemove`
are those among the events of its first part. -/
theorem OnClusterRemove_enqueues {σ : Type} (h : handler σ) (now₁ now₂ key : String)
    (cluster : Cluster) (w : World σ) :
    (OnClusterRemove h now₁ now₂ key cluster w).2.events.filter Event.isEnqueueAfter =
      (OnClusterRemove.compute h now₁ now₂ cluster w).world.events.filter
        Event.isEnqueueAfter := by
  unfold OnClusterRemove
  simp only
  apply updateClusterStatus_filter
  intro ev hev
  cases ev <;> simp_all [Event.isUpdateStatus, Event.isEnqueueAfter]

/-- When no status write of the pass fails, `OnClusterRemove` returns the signal its
first part computed; it returns an error whenever that signal is one. -/
theorem OnClusterRemove_err {σ : Type} (h : handler σ) (now₁ now₂ key : String)
    (cluster : Cluster) (w : World σ) :
    ((OnClusterRemove h now₁ now₂ key cluster w).2.events.filter
        Event.isFailedUpdateStatus = [] →
      (OnClusterRemove h now₁ now₂ key cluster w).1.2 =
        (OnClusterRemove.compute h now₁ now₂ cluster w).err) ∧
    ((OnClusterRemove.compute h now₁ now₂ cluster w).err ≠ none →
      (OnClusterRemove h now₁ now₂ key cluster w).1.2 ≠ none) :=
  updateClusterStatus_err h cluster (OnClusterRemove.compute h now₁ now₂ cluster w).status
    (OnClusterRemove.compute h now₁ now₂ cluster w).err
    (OnClusterRemove.compute h now₁ now₂ cluster w).world

/-- When the management stage lets the evaluator pass, `doClusterRemove` goes on with
the orchestration stage. -/
theorem doClusterRemove_of_mgmtGone {σ : Type} (h : handler σ) (cluster : Cluster)
    (s s₂ : σ) (pre : List Event) (hm : mgmtGone h cluster s s₂ pre) :
    doClusterRemove h cluster (World.start s) =
      doClusterRemove.capi h cluster { state := s₂, events := pre } := by
  rcases hm with ⟨hname, rfl, rfl⟩ | ⟨hname, d, s₁, obj, e, hdel, hd, hget, he, rfl⟩
  · simp [doClusterRemove, hname, World.start]
  · rcases not_failed_cases d hd with rfl | ⟨e₁, rfl, he₁⟩ <;>
      simp [doClusterRemove, hname, World.start, World.record, hdel, hget,
        apierrors.IsNotFound, he, *]

theorem stringLess_iff (a b : String) : stringLess a b = true ↔ a < b := by
  unfold stringLess
  rw [decide_eq_true_iff, String.lt_iff_toList_lt]
  rfl

/-- The first element of a sorted non-empty list of machines has the least name. -/
theorem sort_head_least (l : Machines) (hne : l ≠ []) :
    ∃ m rest, sort.Slice (fun a b => stringLess a.Name b.Name) l = m :: rest ∧ m ∈ l ∧
      ∀ x ∈ l, m.Name ≤ x.Name := by
  induction l with
  | nil => exact absurd rfl hne
  | cons x xs ih =>
    by_cases hxs : xs = []
    · subst hxs
      exact ⟨x, [], by simp [sort.Slice, sort.insert], by simp, by simp⟩
    · obtain ⟨m, rest, hsort, hm, hleast⟩ := ih hxs
      by_cases hlt : m.Name < x.Name
      · refine ⟨m, sort.insert (fun a b => stringLess a.Name b.Name) x rest, ?_, ?_, ?_⟩
        · simp [sort.Slice, hsort, sort.insert, (stringLess_iff _ _).mpr hlt]
        · exact List.mem_cons_of_mem _ hm
        · intro y hy
          rcases List.mem_cons.mp hy with rfl | hy
          · exact le_of_lt hlt
          · exact hleast y hy
      · refine ⟨x, m :: rest, ?_, ?_, ?_⟩
        · have hnot : stringLess m.Name x.Name = false := by
            cases hsl : stringLess m.Name x.Name with
            | false => rfl
            | true => exact absurd ((stringLess_iff _ _).mp hsl) hlt
          simp [sort.Slice, hsort, sort.insert, hnot]
        · exact List.mem_cons_self _ _
        · intro y hy
          rcases List.mem_cons.mp hy with rfl | hy
          · exact le_refl _
          · exact le_trans (not_lt.mp hlt) (hleast y hy)

/-- The member stage with a non-empty list of machines reports the least name. -/
theorem machines_nonempty {σ : Type} (h : handler σ) (cluster : Cluster)
    (capiClusterErr : Option APIError) (w : World σ) (machines : Machines)
    (hl : (h.capiMachinesCache.List cluster.Namespace [(capiClusterLabel, cluster.Name)]
      w.state).1 = (machines, none))
    (hne : machines ≠ []) :
    ∃ m ∈ machines, (∀ x ∈ machines, m.Name ≤ x.Name) ∧
      (doClusterRemove.machines h cluster capiClusterErr w).1 =
        ("waiting for machine [" ++ m.Name ++ "] to delete", none) := by
  obtain ⟨m, rest, hsort, hm, hleast⟩ := sort_head_least machines hne
  refine ⟨m, hm, hleast, ?_⟩
  have h₁ := congrArg Prod.fst hl
  have h₂ := congrArg Prod.snd hl
  simp only at h₁ h₂
  unfold doClusterRemove.machines
  simp only [h₂, h₁, hsort]

/-- Either `doClusterRemove` stops before the member stage, and none of its events is
a list of machines, or it ends with the member stage, entered with events none of
which is a list of machines. -/
theorem capi_reaches_machines {σ : Type} (h : handler σ) (cluster : Cluster) (w : World σ)
    (hw : w.events.filter Event.isMachinesList = []) :
    (doClusterRemove.capi h cluster w).2.events.filter Event.isMachinesList = [] ∨
    ∃ cerr w₁, w₁.events.filter Event.isMachinesList = [] ∧
      doClusterRemove.capi h cluster w = doClusterRemove.machines h cluster cerr w₁ := by
  unfold doClusterRemove.capi
  simp only
  split
  · left
    simp [World.record, List.filter_append, hw, Event.isMachinesList]
  · split
    · split
      · split
        · left
          simp [World.record, List.filter_append, hw, Event.isMachinesList]
        · right
          exact ⟨_, _, by simp [World.record, List.filter_append, hw, Event.isMachinesList], rfl⟩
      · right
        exact ⟨_, _, by simp [World.record, List.filter_append, hw, Event.isMachinesList], rfl⟩
    · right
      exact ⟨_, _, by simp [World.record, List.filter_append, hw, Event.isMachinesList], rfl⟩

theorem doClusterRemove_reaches_machines {σ : Type} (h : handler σ) (cluster : Cluster)
    (s : σ) :
    (doClusterRemove h cluster (World.start s)).2.events.filter Event.isMachinesList = [] ∨
    ∃ cerr w₁, w₁.events.filter Event.isMachinesList = [] ∧
      doClusterRemove h cluster (World.start s) = doClusterRemove.machines h cluster cerr w₁ := by
  unfold doClusterRemove
  simp only
  split
  · split
    · left
      simp [World.record, World.start, Event.isMachinesList]
    · split
      · left
        simp [World.record, World.start, Event.isMachinesList]
      · apply capi_reaches_machines
        simp [World.record, World.start, Event.isMachinesList]
  · apply capi_reaches_machines
    simp [World.start]

theorem mgmtGone_no_capi_delete {σ : Type} (h : handler σ) (cluster : Cluster) (s s₂ : σ)
    (pre : List Event) (hm : mgmtGone h cluster s s₂ pre) :
    ∀ ev ∈ pre, ev.isCapiClustersDelete = false := by
  rcases hm with ⟨-, -, rfl⟩ | ⟨-, d₀, s₁, obj, e, -, -, -, -, rfl⟩ <;>
    simp [Event.isCapiClustersDelete]

/-- The delete requests for a cluster-api cluster among the events of the orchestration
and member stages, when the lookup of the cluster-api cluster does not fail with another
error than not-found: one, right after the lookup, exactly when an object was answered
that carries no deletion timestamp. -/
theorem capi_delete_events {σ : Type} (h : handler σ) (cluster : Cluster) (w : World σ)
    (obj : Option CapiCluster) (cerr : Option APIError) (s₃ : σ)
    (hcapi : h.capiClustersCache.Get cluster.Namespace cluster.Name w.state = ((obj, cerr), s₃))
    (hok : cerr = none ∨ apierrors.IsNotFound cerr = true) :
    (doClusterRemove.capi h cluster w).2.events.filter Event.isCapiClustersDelete =
      w.events.filter Event.isCapiClustersDelete ++
        (match obj with
         | some c =>
           if c.DeletionTimestamp = none then
             [Event.capiClustersDelete c.Namespace c.Name (some {})
               (h.capiClusters.Delete c.Namespace c.Name (some {}) s₃).1]
           else []
         | none => []) := by
  have hok' : ¬ (cerr ≠ none ∧ apierrors.IsNotFound cerr = false) := by
    rcases hok with rfl | hok
    · simp
    · simp [hok]
  unfold doClusterRemove.capi
  simp only [hcapi, if_neg hok']
  cases obj with
  | none =>
    simp only
    rw [machines_world]
    simp [World.record, List.filter_append, Event.isCapiClustersDelete]
  | some c =>
    simp only
    by_cases hts : c.DeletionTimestamp = none
    · simp only [hts, if_true]
      split
      · simp [World.record, List.filter_append, Event.isCapiClustersDelete]
      · rw [machines_world]
        simp [World.record, List.filter_append, Event.isCapiClustersDelete]
    · simp only [hts, if_false]
      rw [machines_world]
      simp [World.record, List.filter_append, Event.isCapiClustersDelete]

/-- The loop of `OnMgmtClusterRemove`: either every cluster got its delete request, in
order, and all were accepted, or the requests stop at the first one that fails. -/
theorem deleteAll_shape {σ : Type} (h : handler σ) (objs : List Cluster) (w : World σ) :
    ((OnMgmtClusterRemove.deleteAll h objs w).1 = none ∧
      (OnMgmtClusterRemove.deleteAll h objs w).2.events =
        w.events ++ objs.map Event.deleted) ∨
    (∃ pre c post e, objs = pre ++ c :: post ∧
      (OnMgmtClusterRemove.deleteAll h objs w).1 = some e ∧
      (OnMgmtClusterRemove.deleteAll h objs w).2.events =
        w.events ++ (pre.map Event.deleted ++
          [Event.clustersDelete c.Namespace c.Name none (some e)])) := by
  induction objs generalizing w with
  | nil =>
    left
    simp [OnMgmtClusterRemove.deleteAll]
  | cons c rest ih =>
    rcases hd : h.clusters.Delete c.Namespace c.Name none w.state with ⟨d, s₁⟩
    cases d with
    | some e =>
      right
      refine ⟨[], c, rest, e, rfl, ?_, ?_⟩
      · simp [OnMgmtClusterRemove.deleteAll, hd]
      · simp [OnMgmtClusterRemove.deleteAll, hd, World.record]
    | none =>
      have hstep : OnMgmtClusterRemove.deleteAll h (c :: rest) w =
          OnMgmtClusterRemove.deleteAll h rest
            (w.record s₁ (Event.clustersDelete c.Namespace c.Name none none)) := by
        simp [OnMgmtClusterRemove.deleteAll, hd]
      rw [hstep]
      rcases ih (w.record s₁ (Event.clustersDelete c.Namespace c.Name none none)) with
        ⟨hnone, hev⟩ | ⟨pre, c₁, post, e, hobjs, herr, hev⟩
      · left
        refine ⟨hnone, ?_⟩
        rw [hev]
        simp [World.record, Event.deleted]
      · right
        refine ⟨c :: pre, c₁, post, e, by simp [hobjs], herr, ?_⟩
        rw [hev]
        simp [World.record, Event.deleted]

/-- After a lookup that succeeds, `OnMgmtClusterRemove` is its loop over the clusters
found. -/
theorem OnMgmtClusterRemove_of_lookup {σ : Type} (h : handler σ) (ByCluster key : String)
    (cluster : MgmtCluster) (s s₁ : σ) (objs : List Cluster)
    (hget : h.clusterCache.GetByIndex ByCluster cluster.Name s = ((objs, none), s₁)) :
    OnMgmtClusterRemove h ByCluster key cluster (World.start s) =
      (match (OnMgmtClusterRemove.deleteAll h objs
          { state := s₁,
            events := [Event.clusterCacheGetByIndex ByCluster cluster.Name objs none] }).1 with
       | some err =>
         ((none, some (GoError.api err)),
          (OnMgmtClusterRemove.deleteAll h objs
            { state := s₁,
              events := [Event.clusterCacheGetByIndex ByCluster cluster.Name objs none] }).2)
       | none =>
         ((some cluster, none),
          (OnMgmtClusterRemove.deleteAll h objs
            { state := s₁,
              events := [Event.clusterCacheGetByIndex ByCluster cluster.Name objs none] }).2)) := by
  unfold OnMgmtClusterRemove
  simp only [World.start, World.record, hget, List.nil_append]

/-! ## Facts about repeated changes of a condition -/

theorem modify_modify (c : String) (f g : GenericCondition → GenericCondition)
    (hf : ∀ x, (f x).CondType = x.CondType) (l : List GenericCondition) :
    condition.modify c g (condition.modify c f l) = condition.modify c (fun x => g (f x)) l := by
  induction l with
  | nil => simp [condition.modify, hf, condition.newCond]
  | cons x xs ih =>
    by_cases hx : x.CondType = c
    · simp [condition.modify, hx, hf]
    · simp [condition.modify, hx, ih]

theorem modify_congr (c : String) (f g : GenericCondition → GenericCondition)
    (hfg : ∀ x, f x = g x) (l : List GenericCondition) :
    condition.modify c f l = condition.modify c g l := by
  have : f = g := funext hfg
  rw [this]

theorem setReasonField_type (value : String) (x : GenericCondition) :
    (condition.setReasonField value x).CondType = x.CondType := rfl

/-- State, reason and message set in this order are one change of the condition. -/
theorem status_reason_message_eq (c : String) (status : ClusterStatus)
    (value reason message now₁ now₂ : String) :
    condition.Message c (condition.Reason c (condition.SetStatus c status value now₁) reason)
        message now₂ =
      { status with
        Conditions := condition.modify c
          (fun x => condition.setMessageField message now₂
            (condition.setReasonField reason (condition.setStatusField value now₁ x)))
          status.Conditions } := by
  unfold condition.Message condition.Reason condition.SetStatus
  simp only
  rw [modify_modify _ _ _ (setStatusField_type _ _),
    modify_modify _ _ _ (fun x => by
      rw [setReasonField_type, setStatusField_type])]

/-- State, message and reason set in this order are one change of the condition. -/
theorem status_message_reason_eq (c : String) (status : ClusterStatus)
    (value reason message now₁ now₂ : String) :
    condition.Reason c (condition.Message c (condition.SetStatus c status value now₁)
        message now₂) reason =
      { status with
        Conditions := condition.modify c
          (fun x => condition.setReasonField reason
            (condition.setMessageField message now₂ (condition.setStatusField value now₁ x)))
          status.Conditions } := by
  unfold condition.Message condition.Reason condition.SetStatus
  simp only
  rw [modify_modify _ _ _ (setStatusField_type _ _),
    modify_modify _ _ _ (fun x => by
      rw [setMessageField_type, setStatusField_type])]

/-- A condition that already carries the state, reason and message to set is left as
it is, timestamp included. -/
theorem set_fields_fixed (value reason message now₁ now₂ : String) (y : GenericCondition)
    (hs : y.Status = value) (hr : y.Reason = reason) (hm : y.Message = message) :
    condition.setMessageField message now₂
        (condition.setReasonField reason (condition.setStatusField value now₁ y)) = y ∧
    condition.setReasonField reason
        (condition.setMessageField message now₂ (condition.setStatusField value now₁ y)) = y := by
  cases y
  simp only at hs hr hm
  subst hs hr hm
  simp [condition.setMessageField, condition.setReasonField, condition.setStatusField]

/-- Setting the same state, reason and message a second time, at whatever time, changes
nothing. -/
theorem status_reason_message_idem (c : String) (status : ClusterStatus)
    (value reason message now₁ now₂ now₃ now₄ : String) :
    condition.Message c (condition.Reason c (condition.SetStatus c
        (condition.Message c (condition.Reason c (condition.SetStatus c status value now₁)
          reason) message now₂) value now₃) reason) message now₄ =
      condition.Message c (condition.Reason c (condition.SetStatus c status value now₁) reason)
        message now₂ := by
  rw [status_reason_message_eq c status, status_reason_message_eq]
  simp only
  rw [modify_modify _ _ _ (fun x => by
    rw [setMessageField_type]
    exact setStatusField_type _ _ _)]
  congr 1
  apply modify_congr
  intro x
  refine (set_fields_fixed value reason message now₃ now₄ _ ?_ ?_ ?_).1
  · rw [(setMessageField_fields _ _ _).2.2]
    exact (setStatusField_fields _ _ _).1
  · rw [(setMessageField_fields _ _ _).2.1]
    rfl
  · exact (setMessageField_fields _ _ _).1

/-- Setting the same state, message and reason a second time, at whatever time, changes
nothing. -/
theorem status_message_reason_idem (c : String) (status : ClusterStatus)
    (value reason message now₁ now₂ now₃ now₄ : String) :
    condition.Reason c (condition.Message c (condition.SetStatus c
        (condition.Reason c (condition.Message c (condition.SetStatus c status value now₁)
          message now₂) reason) value now₃) message now₄) reason =
      condition.Reason c (condition.Message c (condition.SetStatus c status value now₁)
        message now₂) reason := by
  rw [status_message_reason_eq c status, status_message_reason_eq]
  simp only
  rw [modify_modify _ _ _ (fun x => by
    rw [setReasonField_type, setMessageField_type]
    exact setStatusField_type _ _ _)]
  congr 1
  apply modify_congr
  intro x
  refine (set_fields_fixed value reason message now₃ now₄ _ ?_ ?_ ?_).2
  · show (condition.setMessageField _ _ _).Status = value
    rw [(setMessageField_fields _ _ _).2.2]
    exact (setStatusField_fields _ _ _).1
  · rfl
  · exact (setMessageField_fields _ _ _).1

/-- A pass over a cluster that already carries the status computed by an earlier pass
computes, for the same outcome of the evaluator, that same status again. -/
theorem compute_status_idem {σ τ : Type} (h : handler σ) (h' : handler τ)
    (now₁ now₂ now₃ now₄ : String) (cluster cluster₂ : Cluster) (w : World σ) (w' : World τ)
    (hst : cluster₂.Status = (OnClusterRemove.compute h now₁ now₂ cluster w).status)
    (hout : (doClusterRemove h' cluster₂ w').1 = (doClusterRemove h cluster w).1) :
    (OnClusterRemove.compute h' now₃ now₄ cluster₂ w').status = cluster₂.Status := by
  rcases hr : (doClusterRemove h cluster w).1 with ⟨msg, err⟩
  rw [hr] at hout
  cases err with
  | some e =>
    have h₁ := compute_error h now₁ now₂ cluster w e (by rw [hr])
    have h₂ := compute_error h' now₃ now₄ cluster₂ w' e (by rw [hout])
    rw [h₁] at hst
    simp only at hst
    rw [h₂]
    simp only
    rw [hst]
    simp only [condition.SetError, condition.SetStatusBool]
    exact status_message_reason_idem _ _ _ _ _ _ _ _ _
  | none =>
    by_cases hmsg : msg = ""
    · subst hmsg
      have h₁ := compute_done h now₁ now₂ cluster w hr
      have h₂ := compute_done h' now₃ now₄ cluster₂ w' hout
      rw [h₁] at hst
      simp only at hst
      rw [h₂]
      simp only
      rw [hst]
      simp only [condition.SetStatusBool]
      exact status_reason_message_idem _ _ _ _ _ _ _ _ _
    · have h₁ := compute_waiting h now₁ now₂ cluster w msg hr hmsg
      have h₂ := compute_waiting h' now₃ now₄ cluster₂ w' msg hout hmsg
      rw [h₁] at hst
      simp only at hst
      rw [h₂]
      simp only
      rw [hst]
      exact status_reason_message_idem _ _ _ _ _ _ _ _ _

/-- A pass whose computed status equals the current one makes no status write and
returns the cluster it was given. -/
theorem OnClusterRemove_no_write {σ : Type} (h : handler σ) (now₁ now₂ key : String)
    (cluster : Cluster) (s : σ)
    (heq : (OnClusterRemove.compute h now₁ now₂ cluster (World.start s)).status =
      cluster.Status) :
    (OnClusterRemove h now₁ now₂ key cluster (World.start s)).2.events.filter
        Event.isUpdateStatus = [] ∧
    (OnClusterRemove h now₁ now₂ key cluster (World.start s)).1.1 = some cluster := by
  have hno := compute_no_updateStatus h now₁ now₂ cluster s
  unfold OnClusterRemove
  simp only [updateClusterStatus, heq, if_true]
  exact ⟨hno, trivial⟩

/-- What find-or-create does to a list of conditions: the first condition of the type
is changed in place, or a new one is added at the end when there is none. -/
theorem modify_shape (c : String) (f : GenericCondition → GenericCondition)
    (l : List GenericCondition) :
    (∃ pre x post, l = pre ++ x :: post ∧ (∀ y ∈ pre, y.CondType ≠ c) ∧ x.CondType = c ∧
      condition.modify c f l = pre ++ f x :: post) ∨
    ((∀ y ∈ l, y.CondType ≠ c) ∧ condition.modify c f l = l ++ [f (condition.newCond c)]) := by
  induction l with
  | nil =>
    right
    simp [condition.modify]
  | cons x xs ih =>
    by_cases hx : x.CondType = c
    · left
      exact ⟨[], x, xs, rfl, by simp, hx, by simp [condition.modify, hx]⟩
    · rcases ih with ⟨pre, y, post, hl, hpre, hy, hmod⟩ | ⟨hall, hmod⟩
      · left
        refine ⟨x :: pre, y, post, by simp [hl], ?_, hy, by simp [condition.modify, hx, hmod]⟩
        intro z hz
        rcases List.mem_cons.mp hz with rfl | hz
        · exact hx
        · exact hpre z hz
      · right
        refine ⟨?_, by simp [condition.modify, hx, hmod]⟩
        intro z hz
        rcases List.mem_cons.mp hz with rfl | hz
        · exact hx
        · exact hall z hz

theorem set_fields_frame (value reason message now₁ now₂ : String) (x : GenericCondition) :
    ((condition.setMessageField message now₂
        (condition.setReasonField reason (condition.setStatusField value now₁ x))).CondType =
        x.CondType ∧
      (condition.setMessageField message now₂
        (condition.setReasonField reason (condition.setStatusField value now₁ x))).LastTransitionTime =
        x.LastTransitionTime) ∧
    ((condition.setReasonField reason
        (condition.setMessageField message now₂ (condition.setStatusField value now₁ x))).CondType =
        x.CondType ∧
      (condition.setReasonField reason
        (condition.setMessageField message now₂ (condition.setStatusField value now₁ x))).LastTransitionTime =
        x.LastTransitionTime) := by
  unfold condition.setMessageField condition.setReasonField condition.setStatusField
  refine ⟨⟨?_, ?_⟩, ⟨?_, ?_⟩⟩ <;> (split <;> split <;> rfl)

/-- The status computed by a pass is the current status with one change of the
`Removed` condition, a change that keeps the type and the transition time. -/
theorem compute_status_shape {σ : Type} (h : handler σ) (now₁ now₂ : String)
    (cluster : Cluster) (w : World σ) :
    ∃ F : GenericCondition → GenericCondition,
      (∀ x, (F x).CondType = x.CondType ∧ (F x).LastTransitionTime = x.LastTransitionTime) ∧
      (OnClusterRemove.compute h now₁ now₂ cluster w).status =
        { cluster.Status with
          Conditions := condition.modify Removed F cluster.Status.Conditions } := by
  unfold OnClusterRemove.compute
  simp only
  split
  · rename_i err _
    refine ⟨_, fun x => (set_fields_frame "False" "Error" err.Message now₁ now₂ x).2, ?_⟩
    simp only [condition.SetError, condition.SetStatusBool]
    exact status_message_reason_eq _ _ _ _ _ _ _
  · split
    · refine ⟨_, fun x => (set_fields_frame "True" "" "" now₁ now₂ x).1, ?_⟩
      simp only [condition.SetStatusBool]
      exact status_reason_message_eq _ _ _ _ _ _ _
    · refine ⟨_, fun x => (set_fields_frame "Unknown" "Waiting"
        (doClusterRemove h cluster w).1.1 now₁ now₂ x).1, ?_⟩
      exact status_reason_message_eq _ _ _ _ _ _ _

/-! ## Where the evaluator stops -/

theorem failsOther_iff (d : Option APIError) :
    (d ≠ none ∧ apierrors.IsNotFound d = false) ↔ failsOther d = true := by
  cases d with
  | none => simp [failsOther]
  | some e => simp [failsOther, apierrors.IsNotFound]

theorem stopsAtLast_cons (r : String × Option APIError) (a : Event) (new : List Event)
    (ha : a.stopsEvaluator = false) (hnew : stopsAtLast r new) : stopsAtLast r (a :: new) := by
  obtain ⟨init, last, hnew, hinit, hlast, herr⟩ := hnew
  refine ⟨a :: init, last, by simp [hnew], ?_, hlast, herr⟩
  intro ev hev
  rcases List.mem_cons.mp hev with rfl | hev
  · exact ha
  · exact hinit ev hev

theorem machines_stops {σ : Type} (h : handler σ) (cluster : Cluster)
    (capiClusterErr : Option APIError) (w : World σ) :
    ∃ new, (doClusterRemove.machines h cluster capiClusterErr w).2.events = w.events ++ new ∧
      stopsAtLast (doClusterRemove.machines h cluster capiClusterErr w).1 new := by
  rcases hl : h.capiMachinesCache.List cluster.Namespace [(capiClusterLabel, cluster.Name)]
    w.state with ⟨⟨ms, lerr⟩, s₁⟩
  refine ⟨[Event.capiMachinesCacheList cluster.Namespace [(capiClusterLabel, cluster.Name)]
    ms lerr], ?_, ?_⟩
  · rw [machines_world, hl]
    rfl
  · refine ⟨[], _, rfl, by simp, ?_, ?_⟩
    · intro hstop
      cases lerr with
      | none => simp [Event.stopsEvaluator] at hstop
      | some e =>
        refine ⟨e, rfl, ?_⟩
        simp [doClusterRemove.machines, hl]
    · intro e he
      cases lerr with
      | some e₁ =>
        simp [doClusterRemove.machines, hl] at he
        subst he
        exact ⟨rfl, rfl⟩
      | none =>
        exfalso
        unfold doClusterRemove.machines at he
        simp only [hl] at he
        split at he
        · simp at he
        · split at he <;> simp at he

theorem stopsAtLast_single (r : String × Option APIError) (a : Event)
    (hstop : a.stopsEvaluator = true → ∃ e, a.err = some e ∧ r = ("", some e))
    (herr : ∀ e, r.2 = some e → a.stopsEvaluator = true ∧ a.err = some e) :
    stopsAtLast r [a] :=
  ⟨[], a, rfl, by simp, hstop, herr⟩

theorem capi_stops {σ : Type} (h : handler σ) (cluster : Cluster) (w : World σ) :
    ∃ new, (doClusterRemove.capi h cluster w).2.events = w.events ++ new ∧
      stopsAtLast (doClusterRemove.capi h cluster w).1 new := by
  rcases hg : h.capiClustersCache.Get cluster.Namespace cluster.Name w.state with
    ⟨⟨obj, cerr⟩, s₁⟩
  unfold doClusterRemove.capi
  simp only [hg]
  by_cases hfail : cerr ≠ none ∧ apierrors.IsNotFound cerr = false
  · rw [if_pos hfail]
    refine ⟨[Event.capiClustersCacheGet cluster.Namespace cluster.Name obj cerr], rfl, ?_⟩
    cases cerr with
    | none => exact absurd rfl hfail.1
    | some e =>
      apply stopsAtLast_single
      · intro _
        exact ⟨e, rfl, rfl⟩
      · intro e₁ he₁
        simp only [Option.some.injEq] at he₁
        subst he₁
        exact ⟨(failsOther_iff _).mp hfail, rfl⟩
  · rw [if_neg hfail]
    have hget : (Event.capiClustersCacheGet cluster.Namespace cluster.Name obj
        cerr).stopsEvaluator = false := by
      cases hf : failsOther cerr with
      | false => simpa [Event.stopsEvaluator] using hf
      | true => exact absurd ((failsOther_iff _).mpr hf) hfail
    have hthrough : ∀ w₁ : World σ,
        w₁.events = w.events ++
          [Event.capiClustersCacheGet cluster.Namespace cluster.Name obj cerr] →
        ∃ new, (doClusterRemove.machines h cluster cerr w₁).2.events = w.events ++ new ∧
          stopsAtLast (doClusterRemove.machines h cluster cerr w₁).1 new := by
      intro w₁ hw₁
      obtain ⟨new, hev, hstop⟩ := machines_stops h cluster cerr w₁
      refine ⟨_ :: new, ?_, stopsAtLast_cons _ _ _ hget hstop⟩
      rw [hev, hw₁]
      simp
    cases obj with
    | none => exact hthrough _ rfl
    | some c =>
      simp only
      by_cases hts : c.DeletionTimestamp = none
      · simp only [hts, if_true]
        rcases hd : h.capiClusters.Delete c.Namespace c.Name (some {})
          (w.record s₁ (Event.capiClustersCacheGet cluster.Namespace cluster.Name (some c)
            cerr)).state with ⟨d, s₂⟩
        simp only
        by_cases hdfail : d ≠ none ∧ apierrors.IsNotFound d = false
        · rw [if_pos hdfail]
          refine ⟨[Event.capiClustersCacheGet cluster.Namespace cluster.Name (some c) cerr,
            Event.capiClustersDelete c.Namespace c.Name (some {}) d],
            by simp [World.record], ?_⟩
          apply stopsAtLast_cons _ _ _ hget
          cases d with
          | none => exact absurd rfl hdfail.1
          | some e =>
            apply stopsAtLast_single
            · intro _
              exact ⟨e, rfl, rfl⟩
            · intro e₁ he₁
              simp only [Option.some.injEq] at he₁
              subst he₁
              exact ⟨(failsOther_iff _).mp hdfail, rfl⟩
        · rw [if_neg hdfail]
          have hdel : (Event.capiClustersDelete c.Namespace c.Name (some {})
              d).stopsEvaluator = false := by
            cases hf : failsOther d with
            | false => simpa [Event.stopsEvaluator] using hf
            | true => exact absurd ((failsOther_iff _).mpr hf) hdfail
          obtain ⟨new, hev, hstop⟩ := machines_stops h cluster cerr
            ((w.record s₁ (Event.capiClustersCacheGet cluster.Namespace cluster.Name (some c)
              cerr)).record s₂ (Event.capiClustersDelete c.Namespace c.Name (some {}) d))
          refine ⟨_ :: _ :: new, ?_,
            stopsAtLast_cons _ _ _ hget (stopsAtLast_cons _ _ _ hdel hstop)⟩
          rw [hev]
          simp [World.record]
      · simp only [hts, if_false]
        exact hthrough _ rfl

theorem doClusterRemove_stops {σ : Type} (h : handler σ) (cluster : Cluster) (w : World σ) :
    ∃ new, (doClusterRemove h cluster w).2.events = w.events ++ new ∧
      stopsAtLast (doClusterRemove h cluster w).1 new := by
  unfold doClusterRemove
  by_cases hname : cluster.Status.ClusterName = ""
  · simp only [ne_eq, hname, not_true_eq_false, if_false]
    exact capi_stops h cluster w
  · rcases hd : h.mgmtClusters.Delete cluster.Status.ClusterName none w.state with ⟨d, s₁⟩
    rcases hg : h.mgmtClusterCache.Get cluster.Status.ClusterName s₁ with ⟨⟨obj, gerr⟩, s₂⟩
    simp only [ne_eq, hname, not_false_eq_true, if_true, hd, World.record, hg]
    by_cases hdfail : ¬d = none ∧ apierrors.IsNotFound d = false
    · rw [if_pos hdfail]
      refine ⟨[Event.mgmtClustersDelete cluster.Status.ClusterName none d], rfl, ?_⟩
      cases d with
      | none => exact absurd rfl hdfail.1
      | some e =>
        apply stopsAtLast_single
        · intro _
          exact ⟨e, rfl, rfl⟩
        · intro e₁ he₁
          simp only [Option.some.injEq] at he₁
          subst he₁
          exact ⟨(failsOther_iff _).mp hdfail, rfl⟩
    · rw [if_neg hdfail]
      have hdel : (Event.mgmtClustersDelete cluster.Status.ClusterName none
          d).stopsEvaluator = false := by
        cases hf : failsOther d with
        | false => simpa [Event.stopsEvaluator] using hf
        | true => exact absurd ((failsOther_iff _).mpr hf) hdfail
      by_cases hwait : apierrors.IsNotFound gerr = false
      · rw [if_pos hwait]
        refine ⟨[Event.mgmtClustersDelete cluster.Status.ClusterName none d,
          Event.mgmtClusterCacheGet cluster.Status.ClusterName obj gerr], by simp, ?_⟩
        apply stopsAtLast_cons _ _ _ hdel
        apply stopsAtLast_single
        · intro hstop
          simp [Event.stopsEvaluator] at hstop
        · intro e₁ he₁
          simp at he₁
      · rw [if_neg hwait]
        obtain ⟨new, hev, hstop⟩ := capi_stops h cluster
          { state := s₂,
            events := w.events ++ [Event.mgmtClustersDelete cluster.Status.ClusterName none d]
              ++ [Event.mgmtClusterCacheGet cluster.Status.ClusterName obj gerr] }
        have hget : (Event.mgmtClusterCacheGet cluster.Status.ClusterName obj
            gerr).stopsEvaluator = false := rfl
        refine ⟨_ :: _ :: new, ?_,
          stopsAtLast_cons _ _ _ hdel (stopsAtLast_cons _ _ _ hget hstop)⟩
        rw [hev]
        simp

/-- A failing call that makes the evaluator return is the last call of the evaluator,
and the evaluator returns its error with the empty message. -/
theorem doClusterRemove_stop_event {σ : Type} (h : handler σ) (cluster : Cluster) (s : σ)
    (ev : Event) (hmem : ev ∈ (doClusterRemove h cluster (World.start s)).2.events)
    (hstop : ev.stopsEvaluator = true) :
    ∃ e init, ev.err = some e ∧
      (doClusterRemove h cluster (World.start s)).1 = ("", some e) ∧
      (doClusterRemove h cluster (World.start s)).2.events = init ++ [ev] := by
  obtain ⟨new, hev, init, last, hnew, hinit, hlast, -⟩ :=
    doClusterRemove_stops h cluster (World.start s)
  rw [show (World.start s).events = [] from rfl, List.nil_append] at hev
  rw [hev, hnew] at hmem
  rcases List.mem_append.mp hmem with hin | hin
  · rw [hinit ev hin] at hstop
    exact absurd hstop (by simp)
  · have hlast_eq : ev = last := by simpa using hin
    subst hlast_eq
    obtain ⟨e, he, hr⟩ := hlast hstop
    exact ⟨e, init, he, hr, by rw [hev, hnew]⟩

/-- An error returned by the evaluator is the error of its last call, a failing call
that makes it return. -/
theorem doClusterRemove_error_event {σ : Type} (h : handler σ) (cluster : Cluster) (s : σ)
    (e : APIError) (herr : (doClusterRemove h cluster (World.start s)).1.2 = some e) :
    ∃ init last, (doClusterRemove h cluster (World.start s)).2.events = init ++ [last] ∧
      last.stopsEvaluator = true ∧ last.err = some e := by
  obtain ⟨new, hev, init, last, hnew, -, -, hlast⟩ :=
    doClusterRemove_stops h cluster (World.start s)
  rw [show (World.start s).events = [] from rfl, List.nil_append] at hev
  obtain ⟨hstop, he⟩ := hlast e herr
  exact ⟨init, last, by rw [hev, hnew], hstop, he⟩

theorem stops_not_atMostNotFound (ev : Event) (hstop : ev.stopsEvaluator = true) :
    ev.failsAtMostNotFound = false := by
  cases ev with
  | mgmtClustersDelete n o err =>
    cases err with
    | none => simp [Event.stopsEvaluator, failsOther] at hstop
    | some e =>
      simp [Event.stopsEvaluator, failsOther] at hstop
      simp [Event.failsAtMostNotFound, Event.err, hstop]
  | capiClustersCacheGet ns n o err =>
    cases err with
    | none => simp [Event.stopsEvaluator, failsOther] at hstop
    | some e =>
      simp [Event.stopsEvaluator, failsOther] at hstop
      simp [Event.failsAtMostNotFound, Event.err, hstop]
  | capiClustersDelete ns n o err =>
    cases err with
    | none => simp [Event.stopsEvaluator, failsOther] at hstop
    | some e =>
      simp [Event.stopsEvaluator, failsOther] at hstop
      simp [Event.failsAtMostNotFound, Event.err, hstop]
  | capiMachinesCacheList ns sel o err =>
    cases err with
    | none => simp [Event.stopsEvaluator] at hstop
    | some e => simp [Event.failsAtMostNotFound, Event.err, Event.isGetOrDelete]
  | _ => simp [Event.stopsEvaluator] at hstop

/-- A call of the evaluator, other than the lookup of the management cluster, that
fails with another error than not-found makes the evaluator return. -/
theorem evaluator_failure_stops (ev : Event) (e : APIError)
    (hcall : ev.isEvaluatorCall = true) (herr : ev.err = some e) (hnf : e.NotFound = false)
    (hnot : ev.isMgmtClusterCacheGet = false) : ev.stopsEvaluator = true := by
  cases ev <;>
    simp_all [Event.isEvaluatorCall, Event.err, Event.isMgmtClusterCacheGet,
      Event.stopsEvaluator, failsOther]

/-- The events of a pass of `OnClusterRemove`: those of the evaluator, then the request
for a later reconcile if any, then the status write if any; a status write that fails
gives the error returned. -/
theorem OnClusterRemove_events_shape {σ : Type} (h : handler σ) (now₁ now₂ key : String)
    (cluster : Cluster) (s : σ) :
    ∃ mid post, (OnClusterRemove h now₁ now₂ key cluster (World.start s)).2.events =
        (doClusterRemove h cluster (World.start s)).2.events ++ mid ++ post ∧
      (∀ ev ∈ mid, ev.isEnqueueAfter = true) ∧
      (∀ ev ∈ post, ev.isUpdateStatus = true ∧
        ∀ e, ev.err = some e →
          (OnClusterRemove h now₁ now₂ key cluster (World.start s)).1.2 =
            some (GoError.api e)) := by
  have hmid : ∃ mid, (OnClusterRemove.compute h now₁ now₂ cluster (World.start s)).world.events =
      (doClusterRemove h cluster (World.start s)).2.events ++ mid ∧
      ∀ ev ∈ mid, ev.isEnqueueAfter = true := by
    unfold OnClusterRemove.compute
    simp only
    split
    · exact ⟨[], by simp, by simp⟩
    · split
      · exact ⟨[], by simp, by simp⟩
      · exact ⟨[Event.clustersEnqueueAfter cluster.Namespace cluster.Name (5 * time.Second)],
          rfl, by simp [Event.isEnqueueAfter]⟩
  obtain ⟨mid, hmid, hmid'⟩ := hmid
  unfold OnClusterRemove
  simp only
  rcases updateClusterStatus_cases h cluster
    (OnClusterRemove.compute h now₁ now₂ cluster (World.start s)).status
    (OnClusterRemove.compute h now₁ now₂ cluster (World.start s)).err
    (OnClusterRemove.compute h now₁ now₂ cluster (World.start s)).world with
    ⟨-, hr⟩ | ⟨-, res, s₁, -, hr⟩ | ⟨-, res, e, s₁, -, hr⟩ <;> rw [hr]
  · exact ⟨mid, [], by simp [hmid], hmid', by simp⟩
  · refine ⟨mid, [Event.clustersUpdateStatus
        { cluster with
          Status := (OnClusterRemove.compute h now₁ now₂ cluster (World.start s)).status }
        res none], by simp [World.record, hmid], hmid', ?_⟩
    intro ev hev
    simp only [List.mem_singleton] at hev
    subst hev
    exact ⟨rfl, fun e he => by simp [Event.err] at he⟩
  · refine ⟨mid, [Event.clustersUpdateStatus
        { cluster with
          Status := (OnClusterRemove.compute h now₁ now₂ cluster (World.start s)).status }
        res (some e)], by simp [World.record, hmid], hmid', ?_⟩
    intro ev hev
    simp only [List.mem_singleton] at hev
    subst hev
    refine ⟨rfl, fun e₁ he₁ => ?_⟩
    simp only [Event.err, Option.some.injEq] at he₁
    subst he₁
    rfl

/-- When the evaluator fails, `OnClusterRemove` returns an error of a client. -/
theorem OnClusterRemove_api_error {σ : Type} (h : handler σ) (now₁ now₂ key : String)
    (cluster : Cluster) (s : σ) (err : APIError)
    (herr : (doClusterRemove h cluster (World.start s)).1.2 = some err) :
    ∃ e, (OnClusterRemove h now₁ now₂ key cluster (World.start s)).1.2 =
      some (GoError.api e) := by
  have hc : (OnClusterRemove.compute h now₁ now₂ cluster (World.start s)).err =
      some (GoError.api err) := by rw [compute_error h now₁ now₂ cluster _ err herr]
  unfold OnClusterRemove
  simp only
  rcases updateClusterStatus_cases h cluster
    (OnClusterRemove.compute h now₁ now₂ cluster (World.start s)).status
    (OnClusterRemove.compute h now₁ now₂ cluster (World.start s)).err
    (OnClusterRemove.compute h now₁ now₂ cluster (World.start s)).world with
    ⟨-, hr⟩ | ⟨-, res, s₁, -, hr⟩ | ⟨-, res, e, s₁, -, hr⟩ <;> rw [hr]
  · exact ⟨err, hc⟩
  · exact ⟨err, hc⟩
  · exact ⟨e, rfl⟩

theorem doClusterRemove_all_evaluator_calls {σ : Type} (h : handler σ) (cluster : Cluster)
    (s : σ) (ev : Event) (hmem : ev ∈ (doClusterRemove h cluster (World.start s)).2.events) :
    ev.isEvaluatorCall = true := by
  have hfil := doClusterRemove_filter h cluster (World.start s)
    (fun ev => !ev.isEvaluatorCall) (fun ev hev => by simp [hev])
  rw [show (World.start s).events = [] from rfl, List.filter_nil] at hfil
  cases hcall : ev.isEvaluatorCall with
  | true => rfl
  | false =>
    have : ev ∈ (doClusterRemove h cluster (World.start s)).2.events.filter
        (fun ev => !ev.isEvaluatorCall) := List.mem_filter.mpr ⟨hmem, by simp [hcall]⟩
    rw [hfil] at this
    exact absurd this (List.not_mem_nil _)

/-- In `doClusterRemove` and `OnClusterRemove` a not-found answer of a get or delete call
is swallowed: when no call of the pass fails except get or delete calls that answer
not-found, `doClusterRemove` returns no error, and `OnClusterRemove` returns nil or the
skip signal. -/
theorem teardown_swallows_not_found {σ : Type} (h : handler σ) (now₁ now₂ key : String)
    (cluster : Cluster) (s : σ) :
    ((doClusterRemove h cluster (World.start s)).2.events.all Event.failsAtMostNotFound = true →
      (doClusterRemove h cluster (World.start s)).1.2 = none) ∧
    ((OnClusterRemove h now₁ now₂ key cluster (World.start s)).2.events.all
        Event.failsAtMostNotFound = true →
      (OnClusterRemove h now₁ now₂ key cluster (World.start s)).1.2 = none ∨
      (OnClusterRemove h now₁ now₂ key cluster (World.start s)).1.2 = some GoError.ErrSkip) := by
  have hdcr : (∀ ev ∈ (doClusterRemove h cluster (World.start s)).2.events,
      ev.failsAtMostNotFound = true) →
      (doClusterRemove h cluster (World.start s)).1.2 = none := by
    intro hall
    cases herr : (doClusterRemove h cluster (World.start s)).1.2 with
    | none => rfl
    | some e =>
      obtain ⟨init, last, hev, hstop, -⟩ := doClusterRemove_error_event h cluster s e herr
      have hin : last ∈ (doClusterRemove h cluster (World.start s)).2.events := by
        rw [hev]
        simp
      have hok := hall last hin
      rw [stops_not_atMostNotFound last hstop] at hok
      exact absurd hok (by simp)
  constructor
  · intro hall
    exact hdcr (List.all_eq_true.mp hall)
  · intro hall
    have hall' := List.all_eq_true.mp hall
    obtain ⟨mid, post, hev, -, hpost⟩ := OnClusterRemove_events_shape h now₁ now₂ key cluster s
    have hnone := hdcr (fun ev hin => hall' ev (by rw [hev]; simp [hin]))
    have hnofail : (OnClusterRemove h now₁ now₂ key cluster (World.start s)).2.events.filter
        Event.isFailedUpdateStatus = [] := by
      rw [List.filter_eq_nil_iff]
      intro ev hin
      have hok := hall' ev hin
      cases ev with
      | clustersUpdateStatus obj res err =>
        cases err with
        | none => simp [Event.isFailedUpdateStatus]
        | some e => simp [Event.failsAtMostNotFound, Event.err, Event.isGetOrDelete] at hok
      | _ => simp [Event.isFailedUpdateStatus]
    rw [(OnClusterRemove_err h now₁ now₂ key cluster _).1 hnofail]
    rcases hr : (doClusterRemove h cluster (World.start s)).1 with ⟨msg, err⟩
    rw [hr] at hnone
    simp only at hnone
    subst hnone
    by_cases hmsg : msg = ""
    · subst hmsg
      left
      rw [compute_done h now₁ now₂ cluster _ hr]
    · right
      rw [compute_waiting h now₁ now₂ cluster _ msg hr hmsg]

/-- A status write of a pass that fails gives the error `OnClusterRemove` returns. -/
theorem OnClusterRemove_failed_write {σ : Type} (h : handler σ) (now₁ now₂ key : String)
    (cluster : Cluster) (s : σ) (obj : Cluster) (res : Option Cluster) (e : APIError)
    (hmem : Event.clustersUpdateStatus obj res (some e) ∈
      (OnClusterRemove h now₁ now₂ key cluster (World.start s)).2.events) :
    (OnClusterRemove h now₁ now₂ key cluster (World.start s)).1.2 = some (GoError.api e) := by
  obtain ⟨mid, post, hev, hmid, hpost⟩ := OnClusterRemove_events_shape h now₁ now₂ key cluster s
  rw [hev] at hmem
  simp only [List.mem_append] at hmem
  rcases hmem with (hin | hin) | hin
  · have hcall := doClusterRemove_all_evaluator_calls h cluster s _ hin
    simp [Event.isEvaluatorCall] at hcall
  · have henq := hmid _ hin
    simp [Event.isEnqueueAfter] at henq
  · exact (hpost _ hin).2 e rfl

/-! ## The memory -/

/-- Find-or-create on a list that has no condition of the type appends the new one. -/
theorem modify_append (c : String) (f : GenericCondition → GenericCondition)
    (l : List GenericCondition) (hno : l.any (fun x => decide (x.CondType = c)) = false) :
    condition.modify c f l = l ++ [f (condition.newCond c)] := by
  induction l with
  | nil => rfl
  | cons x xs ih =>
    simp only [List.any_cons, Bool.or_eq_false_iff, decide_eq_false_iff_not] at hno
    simp [condition.modify, hno.1, ih hno.2]

/-- A memory keeps itself. -/
theorem keptBy_refl (m : Memory) : m.keptBy m :=
  ⟨le_refl _, le_refl _, le_refl _, fun _ _ => rfl, fun _ _ => rfl, fun _ _ => rfl⟩

/-- What is kept by two steps is kept by both. -/
theorem keptBy_trans {m₁ m₂ m₃ : Memory} (h₁ : m₁.keptBy m₂) (h₂ : m₂.keptBy m₃) :
    m₁.keptBy m₃ := by
  obtain ⟨a₁, b₁, c₁, d₁, e₁, f₁⟩ := h₁
  obtain ⟨a₂, b₂, c₂, d₂, e₂, f₂⟩ := h₂
  refine ⟨le_trans a₁ a₂, le_trans b₁ b₂, le_trans c₁ c₂, ?_, ?_, ?_⟩
  · intro p hp
    rw [d₂ p (lt_of_lt_of_le hp a₁), d₁ p hp]
  · intro q hq
    rw [e₂ q (lt_of_lt_of_le hq b₁), e₁ q hq]
  · intro a ha
    rw [f₂ a (lt_of_lt_of_le ha c₁), f₁ a ha]

/-- A cluster that is held reads the same in every memory that keeps the first. -/
theorem keptBy_cluster {m m' : Memory} (hk : m.keptBy m') (p : Nat) (hp : m.holds p = true) :
    m'.cluster p = m.cluster p := by
  obtain ⟨-, -, -, hc, -, ha⟩ := hk
  simp only [Memory.holds, Bool.and_eq_true, decide_eq_true_eq] at hp
  obtain ⟨hlt, hslice⟩ := hp
  simp only [Memory.cluster, Memory.status, hc p hlt]
  cases hcond : (m.clusters p).Status.Conditions with
  | none => simp [Memory.slice]
  | some a =>
    rw [hcond] at hslice
    simp only [decide_eq_true_eq] at hslice
    simp [Memory.slice, ha a hslice]

/-- The copy of a status made by `DeepCopy`: a new status object with the same value,
its backing array new as well; nothing else is written. -/
theorem DeepCopy_scratch (c : StatusCell) (m : Memory) :
    m.scratch (c.DeepCopy m).1 (c.DeepCopy m).2 ∧
    (c.DeepCopy m).2.status ((c.DeepCopy m).2.statuses (c.DeepCopy m).1) = m.status c := by
  cases hc : c.Conditions with
  | none =>
    refine ⟨⟨⟨?_, ?_, ?_, ?_, ?_, ?_⟩, ?_, ?_, ?_, ?_⟩, ?_⟩ <;>
      simp [StatusCell.DeepCopy, Memory.copySlice, hc, Memory.status, Memory.slice]
    intro q hq
    rw [Function.update_noteq (Nat.ne_of_lt hq)]
  | some a =>
    refine ⟨⟨⟨?_, ?_, ?_, ?_, ?_, ?_⟩, ?_, ?_, ?_, ?_⟩, ?_⟩ <;>
      simp [StatusCell.DeepCopy, Memory.copySlice, hc, Memory.status, Memory.slice]
    · intro q hq
      rw [Function.update_noteq (Nat.ne_of_lt hq)]
    · intro b hb
      rw [Function.update_noteq (Nat.ne_of_lt hb)]

/-- A condition helper writes to the copy only. -/
theorem modify_scratch (c : String) (f : GenericCondition → GenericCondition)
    (m₀ : Memory) (status : Nat) (m : Memory) (hs : m₀.scratch status m) :
    m₀.scratch status (Mem.modify c f status m) := by
  obtain ⟨⟨k₁, k₂, k₃, k₄, k₅, k₆⟩, hcl, hnc, hst, hown⟩ := hs
  have hset : ∀ xs, m₀.scratch status (m.setSlice status xs) := by
    intro xs
    refine ⟨⟨k₁, k₂, Nat.le_succ_of_le k₃, k₄, ?_, ?_⟩, hcl, hnc, hst, ?_⟩
    · intro q hq
      simp only [Memory.setSlice]
      rw [Function.update_noteq (Nat.ne_of_lt (lt_of_lt_of_le hq hst))]
      exact k₅ q hq
    · intro a ha
      simp only [Memory.setSlice]
      rw [Function.update_noteq (Nat.ne_of_lt (lt_of_lt_of_le ha k₃))]
      exact k₆ a ha
    · intro a ha
      simp only [Memory.setSlice, Function.update_same, Option.some.injEq] at ha
      subst ha
      exact ⟨k₃, Nat.lt_succ_self _⟩
  unfold Mem.modify
  cases hcond : (m.statuses status).Conditions with
  | none => exact hset _
  | some a =>
    simp only
    split
    · refine ⟨⟨k₁, k₂, k₃, k₄, k₅, ?_⟩, hcl, hnc, hst, ?_⟩
      · intro b hb
        simp only
        rw [Function.update_noteq (Nat.ne_of_lt (lt_of_lt_of_le hb (hown a hcond).1))]
        exact k₆ b hb
      · intro b hb
        exact hown b hb
    · exact hset _

/-- A condition helper through the address of a status does to the value of that
status what the helper on values does. -/
theorem modify_status (c : String) (f : GenericCondition → GenericCondition)
    (status : Nat) (m : Memory) :
    (Mem.modify c f status m).status ((Mem.modify c f status m).statuses status) =
      { m.status (m.statuses status) with
        Conditions := condition.modify c f (m.status (m.statuses status)).Conditions } := by
  unfold Mem.modify
  cases hcond : (m.statuses status).Conditions with
  | none => simp [Memory.setSlice, Memory.status, Memory.slice, hcond, condition.modify]
  | some a =>
    simp only
    split
    · simp [Memory.status, Memory.slice, hcond]
    · rename_i hno
      simp only [Bool.not_eq_true] at hno
      simp [Memory.setSlice, Memory.status, Memory.slice, hcond, modify_append c f _ hno]

/-- What `OnClusterRemove` computes over the memory is what it computes on the value of
the cluster, and it writes to its copy of the status only. -/
theorem compute_refines {σ : Type} (h : handler σ) (now₁ now₂ : String) (p : Nat)
    (w : World σ) (m : Memory) (hp : m.holds p = true) :
    (Mem.compute h now₁ now₂ p w m).err =
      (OnClusterRemove.compute h now₁ now₂ (m.cluster p) w).err ∧
    (Mem.compute h now₁ now₂ p w m).world =
      (OnClusterRemove.compute h now₁ now₂ (m.cluster p) w).world ∧
    (Mem.compute h now₁ now₂ p w m).memory.status
        ((Mem.compute h now₁ now₂ p w m).memory.statuses (Mem.compute h now₁ now₂ p w m).status) =
      (OnClusterRemove.compute h now₁ now₂ (m.cluster p) w).status ∧
    m.scratch (Mem.compute h now₁ now₂ p w m).status (Mem.compute h now₁ now₂ p w m).memory := by
  obtain ⟨hsc, hval⟩ := DeepCopy_scratch (m.clusters p).Status m
  have hcl : ((m.clusters p).Status.DeepCopy m).2.cluster p = m.cluster p :=
    keptBy_cluster hsc.1 p hp
  have hval' : ((m.clusters p).Status.DeepCopy m).2.status
      (((m.clusters p).Status.DeepCopy m).2.statuses ((m.clusters p).Status.DeepCopy m).1) =
      (m.cluster p).Status := hval
  unfold Mem.compute OnClusterRemove.compute
  simp only [hcl]
  rcases hr : doClusterRemove h (m.cluster p) w with ⟨⟨msg, err⟩, w₁⟩
  cases err with
  | some e =>
    simp only
    refine ⟨trivial, trivial, ?_, ?_⟩
    · simp only [Mem.SetError, Mem.Reason, Mem.Message, Mem.SetStatusBool, Mem.SetStatus,
        modify_status, hval', condition.SetError, condition.Reason, condition.Message,
        condition.SetStatusBool, condition.SetStatus]
    · exact modify_scratch _ _ _ _ _ (modify_scratch _ _ _ _ _ (modify_scratch _ _ _ _ _ hsc))
  | none =>
    simp only
    by_cases hmsg : msg = ""
    · simp only [hmsg, if_true]
      refine ⟨trivial, trivial, ?_, ?_⟩
      · simp only [Mem.Reason, Mem.Message, Mem.SetStatusBool, Mem.SetStatus,
          modify_status, hval', condition.Reason, condition.Message,
          condition.SetStatusBool, condition.SetStatus]
      · exact modify_scratch _ _ _ _ _ (modify_scratch _ _ _ _ _ (modify_scratch _ _ _ _ _ hsc))
    · simp only [hmsg, if_false]
      have hs₃ := modify_scratch Removed (condition.setMessageField msg now₂) _ _ _
        (modify_scratch Removed (condition.setReasonField "Waiting") _ _ _
          (modify_scratch Removed (condition.setStatusField "Unknown" now₁) _ _ _ hsc))
      refine ⟨trivial, ?_, ?_, ?_⟩
      · simp only [Mem.Reason, Mem.Message, Mem.SetStatus]
        rw [hs₃.2.1]
        rfl
      · simp only [Mem.Reason, Mem.Message, Mem.SetStatus,
          modify_status, hval', condition.Reason, condition.Message, condition.SetStatus]
      · exact hs₃

/-- The function `updateClusterStatus` over the memory returns what it returns on
values, and writes to newly allocated cells only. -/
theorem updateClusterStatus_refines {σ : Type} (h : handler σ) (p : Nat) (status : StatusCell)
    (previousErr : Option GoError) (w : World σ) (m : Memory)
    (hown : ∀ a, status.Conditions = some a → a < m.nextArray) :
    (Mem.updateClusterStatus h p status previousErr w m).1 =
      updateClusterStatus h (m.cluster p) (m.status status) previousErr w ∧
    m.keptBy (Mem.updateClusterStatus h p status previousErr w m).2 := by
  have hdc : ∃ (x : List GenericCondition) (m' : Memory) (cell : StatusCell),
      m.DeepCopyCluster p = (m.nextCluster, m') ∧
      (m'.arrays = m.arrays ∨ m'.arrays = Function.update m.arrays m.nextArray x) ∧
      m'.clusters = Function.update m.clusters m.nextCluster
        { Namespace := (m.clusters p).Namespace, Name := (m.clusters p).Name, Status := cell } ∧
      m'.nextCluster = m.nextCluster + 1 ∧ m'.statuses = m.statuses ∧
      m'.nextStatus = m.nextStatus ∧ m.nextArray ≤ m'.nextArray ∧
      ∀ a, a < m.nextArray → m'.arrays a = m.arrays a := by
    cases hc : (m.clusters p).Status.Conditions with
    | none =>
      have hd : m.DeepCopyCluster p = (m.nextCluster,
          { m with
            clusters := Function.update m.clusters m.nextCluster
              { Namespace := (m.clusters p).Namespace, Name := (m.clusters p).Name,
                Status := { (m.clusters p).Status with Conditions := none } },
            nextCluster := m.nextCluster + 1 }) := by
        simp only [Memory.DeepCopyCluster, hc, Memory.copySlice]
      exact ⟨[], _, _, hd, Or.inl rfl, rfl, rfl, rfl, rfl, le_refl _, fun _ _ => rfl⟩
    | some b =>
      have hd : m.DeepCopyCluster p = (m.nextCluster,
          { m with
            clusters := Function.update m.clusters m.nextCluster
              { Namespace := (m.clusters p).Namespace, Name := (m.clusters p).Name,
                Status := { (m.clusters p).Status with Conditions := some m.nextArray } },
            nextCluster := m.nextCluster + 1,
            arrays := Function.update m.arrays m.nextArray (m.arrays b),
            nextArray := m.nextArray + 1 }) := by
        simp only [Memory.DeepCopyCluster, hc, Memory.copySlice]
      refine ⟨m.arrays b, _, _, hd, Or.inr rfl, rfl, rfl, rfl, rfl, Nat.le_succ _,
        fun a ha => ?_⟩
      simp only
      rw [Function.update_noteq (Nat.ne_of_lt ha)]
  obtain ⟨x, m', cell, hm', harr, hcl, hnc, hsts, hns, hna, hlow⟩ := hdc
  have hread : ({ (m.DeepCopyCluster p).2 with
        clusters := Function.update (m.DeepCopyCluster p).2.clusters (m.DeepCopyCluster p).1
          { (m.DeepCopyCluster p).2.clusters (m.DeepCopyCluster p).1 with Status := status } } :
        Memory).cluster (m.DeepCopyCluster p).1 =
      { m.cluster p with Status := m.status status } := by
    rw [hm']
    have hsl : ∀ m₂ : Memory, m₂.arrays = m'.arrays →
        m₂.slice status.Conditions = m.slice status.Conditions := by
      intro m₂ h₂
      cases hs : status.Conditions with
      | none => rfl
      | some a =>
        simp only [Memory.slice, h₂]
        rcases harr with harr | harr
        · rw [harr]
        · rw [harr, Function.update_noteq (Nat.ne_of_lt (hown a hs))]
    simp only [Memory.cluster, Memory.status, Function.update_same, hcl]
    exact congrArg
      (fun c => ({ Namespace := (m.clusters p).Namespace, Name := (m.clusters p).Name,
                   Status := { ClusterName := status.ClusterName, Conditions := c,
                               Other := status.Other } } : Cluster))
      (hsl _ rfl)
  have hkept : m.keptBy ({ (m.DeepCopyCluster p).2 with
        clusters := Function.update (m.DeepCopyCluster p).2.clusters (m.DeepCopyCluster p).1
          { (m.DeepCopyCluster p).2.clusters (m.DeepCopyCluster p).1 with Status := status } } :
        Memory) := by
    rw [hm']
    refine ⟨?_, ?_, ?_, ?_, ?_, ?_⟩
    · simp only [hnc]
      exact Nat.le_succ _
    · simp only [hns]
      exact le_refl _
    · exact hna
    · intro q hq
      simp only [hcl]
      rw [Function.update_noteq (Nat.ne_of_lt hq), Function.update_noteq (Nat.ne_of_lt hq)]
    · intro q _
      simp only [hsts]
    · exact hlow
  by_cases heq : m.status status = m.status (m.clusters p).Status
  · have heq' : m.status status = (m.cluster p).Status := heq
    unfold Mem.updateClusterStatus updateClusterStatus
    rw [if_pos heq, if_pos heq']
    exact ⟨rfl, keptBy_refl m⟩
  · have heq' : ¬ m.status status = (m.cluster p).Status := heq
    unfold Mem.updateClusterStatus updateClusterStatus
    rw [if_neg heq, if_neg heq']
    simp only [hread]
    constructor
    · split <;> rfl
    · split <;> exact hkept

/-- A pass of `OnClusterRemove` over the memory returns what `OnClusterRemove` returns
on the value of the cluster at the address it is given, makes the same calls, and
leaves every cell that was allocated before the pass as it was; in particular the
cluster at that address. -/
theorem OnClusterRemove_refines {σ : Type} (h : handler σ) (now₁ now₂ key : String) (p : Nat)
    (w : World σ) (m : Memory) (hp : m.holds p = true) :
    (Mem.OnClusterRemove h now₁ now₂ key p w m).1 =
      OnClusterRemove h now₁ now₂ key (m.cluster p) w ∧
    m.keptBy (Mem.OnClusterRemove h now₁ now₂ key p w m).2 ∧
    (Mem.OnClusterRemove h now₁ now₂ key p w m).2.cluster p = m.cluster p := by
  obtain ⟨herr, hworld, hstatus, hscr⟩ := compute_refines h now₁ now₂ p w m hp
  have hcl : (Mem.compute h now₁ now₂ p w m).memory.cluster p = m.cluster p :=
    keptBy_cluster hscr.1 p hp
  obtain ⟨hret, hkept⟩ := updateClusterStatus_refines h p
    ((Mem.compute h now₁ now₂ p w m).memory.statuses (Mem.compute h now₁ now₂ p w m).status)
    (Mem.compute h now₁ now₂ p w m).err (Mem.compute h now₁ now₂ p w m).world
    (Mem.compute h now₁ now₂ p w m).memory (fun a ha => (hscr.2.2.2.2 a ha).2)
  have hall : m.keptBy (Mem.OnClusterRemove h now₁ now₂ key p w m).2 :=
    keptBy_trans hscr.1 hkept
  refine ⟨?_, hall, keptBy_cluster hall p hp⟩
  unfold Mem.OnClusterRemove OnClusterRemove
  simp only
  rw [hret, hcl, hstatus, herr, hworld]

/-! ## The finalizer is released only when everything is gone -/

/-- C1: if `OnClusterRemove` returns a nil error, then in that pass the lookup of the
management cluster answered not-found whenever `Status.ClusterName` is non-empty, the
lookup of the cluster-api cluster answered not-found, and the list of machines was
empty with no error.  Each of these calls was made, and no lookup or list of the pass
answered otherwise. -/
theorem OnClusterRemove_nil_only_when_all_gone {σ : Type} (h : handler σ)
    (now₁ now₂ key : String) (cluster : Cluster) (s : σ)
    (hnil : (OnClusterRemove h now₁ now₂ key cluster (World.start s)).1.2 = none) :
    (cluster.Status.ClusterName ≠ "" → ∃ obj e, e.NotFound = true ∧
        Event.mgmtClusterCacheGet cluster.Status.ClusterName obj (some e) ∈
          (OnClusterRemove h now₁ now₂ key cluster (World.start s)).2.events) ∧
    (∃ obj e, e.NotFound = true ∧
        Event.capiClustersCacheGet cluster.Namespace cluster.Name obj (some e) ∈
          (OnClusterRemove h now₁ now₂ key cluster (World.start s)).2.events) ∧
    Event.capiMachinesCacheList cluster.Namespace [(capiClusterLabel, cluster.Name)] [] none ∈
        (OnClusterRemove h now₁ now₂ key cluster (World.start s)).2.events ∧
    (∀ name obj err, Event.mgmtClusterCacheGet name obj err ∈
        (OnClusterRemove h now₁ now₂ key cluster (World.start s)).2.events →
        apierrors.IsNotFound err = true) ∧
    (∀ ns name obj err, Event.capiClustersCacheGet ns name obj err ∈
        (OnClusterRemove h now₁ now₂ key cluster (World.start s)).2.events →
        apierrors.IsNotFound err = true) ∧
    (∀ ns sel objs err, Event.capiMachinesCacheList ns sel objs err ∈
        (OnClusterRemove h now₁ now₂ key cluster (World.start s)).2.events →
        objs = [] ∧ err = none) := by
  unfold OnClusterRemove at hnil ⊢
  simp only at hnil ⊢
  have herr := updateClusterStatus_nil _ _ _ _ _ hnil
  obtain ⟨hdone, hworld⟩ := compute_err_none h now₁ now₂ cluster (World.start s) herr
  obtain ⟨pre, obj, e, mid, he, hev, hmid, hpre⟩ := doClusterRemove_done h cluster _ hdone
  have hshape : ∃ post, (post = [] ∨ ∃ o r er, post = [Event.clustersUpdateStatus o r er]) ∧
      (updateClusterStatus h cluster (OnClusterRemove.compute h now₁ now₂ cluster (World.start s)).status
        (OnClusterRemove.compute h now₁ now₂ cluster (World.start s)).err
        (OnClusterRemove.compute h now₁ now₂ cluster (World.start s)).world).2.events =
      pre ++ [Event.capiClustersCacheGet cluster.Namespace cluster.Name obj (some e)] ++ mid
        ++ [Event.capiMachinesCacheList cluster.Namespace [(capiClusterLabel, cluster.Name)]
              [] none] ++ post := by
    rcases updateClusterStatus_events h cluster
      (OnClusterRemove.compute h now₁ now₂ cluster (World.start s)).status
      (OnClusterRemove.compute h now₁ now₂ cluster (World.start s)).err
      (OnClusterRemove.compute h now₁ now₂ cluster (World.start s)).world with hu | ⟨o, r, er, hu⟩
    · refine ⟨[], Or.inl rfl, ?_⟩
      rw [hu, hworld, hev]
      simp [World.start]
    · refine ⟨[Event.clustersUpdateStatus o r er], Or.inr ⟨o, r, er, rfl⟩, ?_⟩
      rw [hu, hworld, hev]
      simp [World.start]
  obtain ⟨post, hpost, hevents⟩ := hshape
  rw [hevents]
  refine ⟨?_, ?_, ?_, ?_, ?_, ?_⟩
  · intro hname
    rcases hpre with ⟨h0, -⟩ | ⟨-, d, obj₀, e₀, he₀, hp⟩
    · exact absurd h0 hname
    · exact ⟨obj₀, e₀, he₀, by simp [hp]⟩
  · exact ⟨obj, e, he, by simp⟩
  · simp
  · intro name obj₁ err hmem
    rcases hpre with ⟨-, hp⟩ | ⟨-, d, obj₀, e₀, he₀, hp⟩ <;>
      rcases hmid with hm | ⟨ns, nm, er, hm⟩ <;>
      rcases hpost with hq | ⟨o, r, er₂, hq⟩ <;>
      subst hp hm hq <;>
      simp at hmem
    all_goals
      obtain ⟨-, -, rfl⟩ := hmem
      simpa [apierrors.IsNotFound] using he₀
  · intro ns name obj₁ err hmem
    rcases hpre with ⟨-, hp⟩ | ⟨-, d, obj₀, e₀, he₀, hp⟩ <;>
      rcases hmid with hm | ⟨ns₁, nm, er, hm⟩ <;>
      rcases hpost with hq | ⟨o, r, er₂, hq⟩ <;>
      subst hp hm hq <;>
      simp at hmem <;>
      (obtain ⟨-, -, -, rfl⟩ := hmem
       simpa [apierrors.IsNotFound] using he)
  · intro ns sel objs err hmem
    rcases hpre with ⟨-, hp⟩ | ⟨-, d, obj₀, e₀, he₀, hp⟩ <;>
      rcases hmid with hm | ⟨ns₁, nm, er, hm⟩ <;>
      rcases hpost with hq | ⟨o, r, er₂, hq⟩ <;>
      subst hp hm hq <;>
      simp at hmem <;>
      exact ⟨hmem.2.2.1, hmem.2.2.2⟩

/-- C1, at a concrete input: the cluster `ns/foo` over the store in which everything
is gone returns a nil error, and the empty list of machines is among its events. -/
theorem OnClusterRemove_nil_only_when_all_gone_witness :
    (OnClusterRemove allGone.toHandler "t1" "t2" "ns/foo" clusterFoo (World.start ())).1.2 = none ∧
    Event.capiMachinesCacheList "ns" [(capiClusterLabel, "foo")] [] none ∈
      (OnClusterRemove allGone.toHandler "t1" "t2" "ns/foo" clusterFoo (World.start ())).2.events :=
  ⟨by decide,
   (OnClusterRemove_nil_only_when_all_gone allGone.toHandler "t1" "t2" "ns/foo" clusterFoo ()
      (by decide)).2.2.1⟩

/-! ## The `Removed` condition of a cluster that was already removed -/

/-- C2, as it fails: the cluster `ns/foo` has `Removed` equal to `True`; over the store
in which the management cluster still exists the evaluator reports waiting, and the
status computed and written by `OnClusterRemove` has `Removed` equal to `Unknown`. -/
theorem removed_true_is_reset_when_waiting :
    (condition.find Removed clusterFooRemoved.Status).map (fun x => x.Status) = some "True" ∧
    (doClusterRemove mgmtPresent.toHandler clusterFooRemoved (World.start ())).1 =
      ("waiting for cluster [mgmt1] to delete", none) ∧
    (condition.find Removed
      (OnClusterRemove.compute mgmtPresent.toHandler "t1" "t2" clusterFooRemoved
        (World.start ())).status).map (fun x => x.Status) = some "Unknown" ∧
    (OnClusterRemove mgmtPresent.toHandler "t1" "t2" "ns/foo" clusterFooRemoved
        (World.start ())).2.events.filter Event.isUpdateStatus =
      [Event.clustersUpdateStatus
        { clusterFooRemoved with
          Status :=
            { ClusterName := "mgmt1",
              Conditions :=
                [{ CondType := "Removed", Status := "Unknown", LastUpdateTime := "t2",
                   LastTransitionTime := "", Reason := "Waiting",
                   Message := "waiting for cluster [mgmt1] to delete" }],
              Other := "" } }
        (some
          { clusterFooRemoved with
            Status :=
              { ClusterName := "mgmt1",
                Conditions :=
                  [{ CondType := "Removed", Status := "Unknown", LastUpdateTime := "t2",
                     LastTransitionTime := "", Reason := "Waiting",
                     Message := "waiting for cluster [mgmt1] to delete" }],
                Other := "" } })
        none] := by
  decide

/-- C2, as amended: for a cluster whose `Removed` condition is already `True`, the status
computed by `OnClusterRemove` still has `Removed` equal to `True` when the evaluator
reports done (the condition is the old one with reason and message cleared); when the
evaluator reports waiting the computed state is `Unknown`, and when it fails the
computed state is `False`.  Whatever the pass writes carries this computed status. -/
theorem removed_true_kept_only_when_done {σ : Type} (h : handler σ) (now₁ now₂ key : String)
    (cluster : Cluster) (s : σ) (x₀ : GenericCondition)
    (hx : condition.find Removed cluster.Status = some x₀) (htrue : x₀.Status = "True") :
    ((doClusterRemove h cluster (World.start s)).1 = ("", none) →
      condition.find Removed (OnClusterRemove.compute h now₁ now₂ cluster (World.start s)).status
        = some (condition.setMessageField "" now₂ (condition.setReasonField "" x₀)) ∧
      (condition.setMessageField "" now₂ (condition.setReasonField "" x₀)).Status = "True") ∧
    (∀ msg, (doClusterRemove h cluster (World.start s)).1 = (msg, none) → msg ≠ "" →
      ∃ x, condition.find Removed
          (OnClusterRemove.compute h now₁ now₂ cluster (World.start s)).status = some x ∧
        x.Status = "Unknown") ∧
    (∀ err, (doClusterRemove h cluster (World.start s)).1.2 = some err →
      ∃ x, condition.find Removed
          (OnClusterRemove.compute h now₁ now₂ cluster (World.start s)).status = some x ∧
        x.Status = "False") ∧
    (∀ obj res e, Event.clustersUpdateStatus obj res e ∈
        (OnClusterRemove h now₁ now₂ key cluster (World.start s)).2.events →
      obj.Status = (OnClusterRemove.compute h now₁ now₂ cluster (World.start s)).status) := by
  refine ⟨?_, ?_, ?_, ?_⟩
  · intro hdone
    rw [compute_done h now₁ now₂ cluster _ hdone]
    simp only [condition.SetStatusBool, if_true]
    rw [find_status_reason_message, hx]
    constructor
    · simp [condition.setStatusField, htrue]
    · rw [(setMessageField_fields _ _ _).2.2]
      exact htrue
  · intro msg hwait hmsg
    rw [compute_waiting h now₁ now₂ cluster _ msg hwait hmsg]
    obtain ⟨x, hfind, hst, -, -⟩ :=
      find_after_status_reason_message Removed cluster.Status "Unknown" "Waiting" msg now₁ now₂
    exact ⟨x, hfind, hst⟩
  · intro err herr
    rw [compute_error h now₁ now₂ cluster _ err herr]
    obtain ⟨x, hfind, hst, -, -⟩ :=
      find_after_status_message_reason Removed cluster.Status "False" "Error" err.Message now₁ now₂
    exact ⟨x, hfind, hst⟩
  · intro obj res e hmem
    rw [(OnClusterRemove_written h now₁ now₂ key cluster s obj res e hmem).1]

/-- C2, as amended, at a concrete input: the cluster `ns/foo` with `Removed` equal to
`True`, over the store in which everything is gone. -/
theorem removed_true_kept_only_when_done_witness :
    condition.find Removed clusterFooRemoved.Status = some (removedCond "True" "" "") ∧
    condition.find Removed
      (OnClusterRemove.compute allGone.toHandler "t1" "t2" clusterFooRemoved
        (World.start ())).status
      = some (condition.setMessageField "" "t2"
          (condition.setReasonField "" (removedCond "True" "" ""))) :=
  ⟨by decide,
   ((removed_true_kept_only_when_done allGone.toHandler "t1" "t2" "ns/foo" clusterFooRemoved ()
      (removedCond "True" "" "") (by decide) (by decide)).1 (by decide)).1⟩

/-! ## A waiting pass -/

/-- C3, as it fails: for `ns/foo` over the store in which `mgmt1` still exists and the
status write fails with a conflict, the evaluator yields a wait message, and
`OnClusterRemove` returns the conflict of the status write, not `generic.ErrSkip`. -/
theorem waiting_pass_returns_write_error :
    (doClusterRemove mgmtPresentWriteFails.toHandler clusterFoo (World.start ())).1 =
      ("waiting for cluster [mgmt1] to delete", none) ∧
    (OnClusterRemove mgmtPresentWriteFails.toHandler "t1" "t2" "ns/foo" clusterFoo
      (World.start ())).1 = (none, some (GoError.api errConflict)) ∧
    GoError.api errConflict ≠ GoError.ErrSkip := by
  decide

/-- C3, as amended: when the evaluator yields a non-empty wait message, `OnClusterRemove`
computes a status whose `Removed` condition is `Unknown` with reason `"Waiting"` and
the wait message as message, the requests for a later reconcile of the pass are exactly
one, for the namespace and name of the cluster after 5 seconds, and the signal it
computes is `generic.ErrSkip`.  It returns that signal when no status write fails, and
the error of the status write when that fails; it never returns nil.  When the
evaluator reports done or fails, the pass requests no later reconcile. -/
theorem OnClusterRemove_waiting_requeues {σ : Type} (h : handler σ) (now₁ now₂ key : String)
    (cluster : Cluster) (s : σ) :
    (∀ msg, (doClusterRemove h cluster (World.start s)).1 = (msg, none) → msg ≠ "" →
      (∃ x, condition.find Removed
          (OnClusterRemove.compute h now₁ now₂ cluster (World.start s)).status = some x ∧
        x.Status = "Unknown" ∧ x.Reason = "Waiting" ∧ x.Message = msg) ∧
      (OnClusterRemove h now₁ now₂ key cluster (World.start s)).2.events.filter
          Event.isEnqueueAfter =
        [Event.clustersEnqueueAfter cluster.Namespace cluster.Name (5 * time.Second)] ∧
      (OnClusterRemove.compute h now₁ now₂ cluster (World.start s)).err = some GoError.ErrSkip ∧
      ((OnClusterRemove h now₁ now₂ key cluster (World.start s)).2.events.filter
          Event.isFailedUpdateStatus = [] →
        (OnClusterRemove h now₁ now₂ key cluster (World.start s)).1.2 = some GoError.ErrSkip) ∧
      (∀ obj res e, Event.clustersUpdateStatus obj res (some e) ∈
          (OnClusterRemove h now₁ now₂ key cluster (World.start s)).2.events →
        (OnClusterRemove h now₁ now₂ key cluster (World.start s)).1.2 =
          some (GoError.api e)) ∧
      (OnClusterRemove h now₁ now₂ key cluster (World.start s)).1.2 ≠ none) ∧
    ((doClusterRemove h cluster (World.start s)).1 = ("", none) ∨
        (doClusterRemove h cluster (World.start s)).1.2 ≠ none →
      (OnClusterRemove h now₁ now₂ key cluster (World.start s)).2.events.filter
          Event.isEnqueueAfter = []) := by
  have hev := (doClusterRemove_no_enqueue h cluster s).1
  constructor
  · intro msg hwait hmsg
    have hc := compute_waiting h now₁ now₂ cluster _ msg hwait hmsg
    refine ⟨?_, ?_, ?_, ?_, ?_, ?_⟩
    · rw [hc]
      exact find_after_status_reason_message Removed cluster.Status "Unknown" "Waiting" msg
        now₁ now₂
    · rw [OnClusterRemove_enqueues, hc]
      simp [World.record, List.filter_append, hev, Event.isEnqueueAfter]
    · rw [hc]
    · intro hno
      rw [(OnClusterRemove_err h now₁ now₂ key cluster _).1 hno, hc]
    · intro obj res e hmem
      exact OnClusterRemove_failed_write h now₁ now₂ key cluster s obj res e hmem
    · exact (OnClusterRemove_err h now₁ now₂ key cluster _).2 (by rw [hc]; simp)
  · intro hcase
    rw [OnClusterRemove_enqueues]
    rcases hcase with hdone | herr
    · rw [compute_done h now₁ now₂ cluster _ hdone]
      exact hev
    · cases herr' : (doClusterRemove h cluster (World.start s)).1.2 with
      | none => exact absurd herr' herr
      | some err =>
        rw [compute_error h now₁ now₂ cluster _ err herr']
        exact hev

/-- C3, as amended, at a concrete input: over the store in which the management cluster
still exists, the pass for `ns/foo` requests exactly one later reconcile, after 5
seconds. -/
theorem OnClusterRemove_waiting_requeues_witness :
    (doClusterRemove mgmtPresent.toHandler clusterFoo (World.start ())).1 =
      ("waiting for cluster [mgmt1] to delete", none) ∧
    (OnClusterRemove mgmtPresent.toHandler "t1" "t2" "ns/foo" clusterFoo
        (World.start ())).2.events.filter Event.isEnqueueAfter =
      [Event.clustersEnqueueAfter "ns" "foo" (5 * time.Second)] :=
  ⟨by decide,
   ((OnClusterRemove_waiting_requeues mgmtPresent.toHandler "t1" "t2" "ns/foo" clusterFoo ()).1
      "waiting for cluster [mgmt1] to delete" (by decide) (by decide)).2.1⟩

/-! ## A pass that finds everything gone -/

/-- C4: for a cluster with a non-empty `Status.ClusterName` whose management cluster is
absent (the delete and the lookup both answer not-found), with no cluster-api cluster
(its lookup answers not-found) and no machines, `doClusterRemove` returns the empty
message with no error, and `OnClusterRemove` computes `Removed` equal to `True` with
empty reason and message, requests no later reconcile, and returns a nil error when
no status write fails. -/
theorem OnClusterRemove_done_when_all_absent {σ : Type} (h : handler σ)
    (now₁ now₂ key : String) (cluster : Cluster) (s s₁ s₂ s₃ s₄ : σ) (e₁ e₂ e₃ : APIError)
    (obj : Option MgmtCluster)
    (hname : cluster.Status.ClusterName ≠ "")
    (hdel : h.mgmtClusters.Delete cluster.Status.ClusterName none s = (some e₁, s₁))
    (he₁ : e₁.NotFound = true)
    (hget : h.mgmtClusterCache.Get cluster.Status.ClusterName s₁ = ((obj, some e₂), s₂))
    (he₂ : e₂.NotFound = true)
    (hcapi : h.capiClustersCache.Get cluster.Namespace cluster.Name s₂ = ((none, some e₃), s₃))
    (he₃ : e₃.NotFound = true)
    (hlist : h.capiMachinesCache.List cluster.Namespace [(capiClusterLabel, cluster.Name)] s₃ =
      (([], none), s₄)) :
    (doClusterRemove h cluster (World.start s)).1 = ("", none) ∧
    (∃ x, condition.find Removed
        (OnClusterRemove.compute h now₁ now₂ cluster (World.start s)).status = some x ∧
      x.Status = "True" ∧ x.Reason = "" ∧ x.Message = "") ∧
    (OnClusterRemove h now₁ now₂ key cluster (World.start s)).2.events.filter
        Event.isEnqueueAfter = [] ∧
    ((OnClusterRemove h now₁ now₂ key cluster (World.start s)).2.events.filter
        Event.isFailedUpdateStatus = [] →
      (OnClusterRemove h now₁ now₂ key cluster (World.start s)).1.2 = none) := by
  have hdone : (doClusterRemove h cluster (World.start s)).1 = ("", none) := by
    simp [doClusterRemove, doClusterRemove.capi, doClusterRemove.machines, World.start,
      World.record, hname, hdel, hget, hcapi, hlist, apierrors.IsNotFound, he₁, he₂, he₃,
      sort.Slice]
  have hc := compute_done h now₁ now₂ cluster _ hdone
  refine ⟨hdone, ?_, ?_, ?_⟩
  · rw [hc]
    exact find_after_status_reason_message Removed cluster.Status "True" "" "" now₁ now₂
  · rw [OnClusterRemove_enqueues, hc]
    exact (doClusterRemove_no_enqueue h cluster s).1
  · intro hno
    rw [(OnClusterRemove_err h now₁ now₂ key cluster _).1 hno, hc]

/-- C4, at the input of the spec's scenario: `ns/foo` references `mgmt1`, which is
absent, and there is no cluster-api cluster and no machine. -/
theorem OnClusterRemove_done_when_all_absent_witness :
    clusterFoo.Status.ClusterName ≠ "" ∧
    (doClusterRemove allGone.toHandler clusterFoo (World.start ())).1 = ("", none) ∧
    (OnClusterRemove allGone.toHandler "t1" "t2" "ns/foo" clusterFoo (World.start ())).2.events.filter
        Event.isEnqueueAfter = [] :=
  ⟨by decide,
   (OnClusterRemove_done_when_all_absent allGone.toHandler "t1" "t2" "ns/foo" clusterFoo
      () () () () () errNotFound errNotFound errNotFound none (by decide) rfl rfl rfl rfl rfl rfl
      rfl).1,
   (OnClusterRemove_done_when_all_absent allGone.toHandler "t1" "t2" "ns/foo" clusterFoo
      () () () () () errNotFound errNotFound errNotFound none (by decide) rfl rfl rfl rfl rfl rfl
      rfl).2.2.1⟩

/-! ## A pass that starts the deletion of the cluster-api cluster -/

/-- C5, as it fails: `ns/foo` references `mgmt1`, which is absent; the cluster-api
cluster `ns/foo` exists without a deletion timestamp and there is no machine.  When
the delete request for the cluster-api cluster fails with a time-out, `doClusterRemove`
returns the time-out with the empty message, no later reconcile is requested, and
`OnClusterRemove` returns the time-out.  When the delete request is accepted but the
status write fails with a conflict, `OnClusterRemove` returns the conflict.  In neither
case does it return `generic.ErrSkip`. -/
theorem capi_delete_or_write_failure_is_returned :
    (doClusterRemove capiPresentDeleteFails.toHandler clusterFoo (World.start ())).1 =
      ("", some errTimeout) ∧
    (OnClusterRemove capiPresentDeleteFails.toHandler "t1" "t2" "ns/foo" clusterFoo
      (World.start ())).2.events.filter Event.isEnqueueAfter = [] ∧
    (OnClusterRemove capiPresentDeleteFails.toHandler "t1" "t2" "ns/foo" clusterFoo
      (World.start ())).1.2 = some (GoError.api errTimeout) ∧
    (doClusterRemove capiPresentWriteFails.toHandler clusterFoo (World.start ())).1 =
      ("waiting for cluster-api cluster [foo] to delete", none) ∧
    (OnClusterRemove capiPresentWriteFails.toHandler "t1" "t2" "ns/foo" clusterFoo
      (World.start ())).1 = (none, some (GoError.api errConflict)) := by
  decide

/-- C5, as amended: for a cluster whose management cluster is absent or unreferenced,
whose cluster-api cluster is found (same namespace and name) without a deletion
timestamp and takes its delete request without failing (the request is accepted or
answers not-found), and which has no machines: `doClusterRemove` returns
`"waiting for cluster-api cluster [<name>] to delete"`, the pass issues exactly one
delete request for a cluster-api cluster, for the namespace and name of the cluster,
and requests exactly one later reconcile, after 5 seconds; the signal computed is
`generic.ErrSkip`.  `OnClusterRemove` returns that signal when no status write fails,
and the error of the status write when that fails; the error returned is never nil. -/
theorem OnClusterRemove_deletes_capi_cluster {σ : Type} (h : handler σ)
    (now₁ now₂ key : String) (cluster : Cluster) (s s₂ s₃ s₄ s₅ : σ) (pre : List Event)
    (capiCluster : CapiCluster) (d : Option APIError)
    (hm : mgmtGone h cluster s s₂ pre)
    (hcapi : h.capiClustersCache.Get cluster.Namespace cluster.Name s₂ =
      ((some capiCluster, none), s₃))
    (hns : capiCluster.Namespace = cluster.Namespace) (hnm : capiCluster.Name = cluster.Name)
    (hts : capiCluster.DeletionTimestamp = none)
    (hdel : h.capiClusters.Delete cluster.Namespace cluster.Name (some {}) s₃ = (d, s₄))
    (hd : d = none ∨ apierrors.IsNotFound d = true)
    (hlist : h.capiMachinesCache.List cluster.Namespace [(capiClusterLabel, cluster.Name)] s₄ =
      (([], none), s₅)) :
    doClusterRemove h cluster (World.start s) =
      (("waiting for cluster-api cluster [" ++ cluster.Name ++ "] to delete", none),
       { state := s₅,
         events := pre ++
           [Event.capiClustersCacheGet cluster.Namespace cluster.Name (some capiCluster) none,
            Event.capiClustersDelete cluster.Namespace cluster.Name (some {}) d,
            Event.capiMachinesCacheList cluster.Namespace [(capiClusterLabel, cluster.Name)]
              [] none] }) ∧
    (OnClusterRemove h now₁ now₂ key cluster (World.start s)).2.events.filter
        Event.isCapiClustersDelete =
      [Event.capiClustersDelete cluster.Namespace cluster.Name (some {}) d] ∧
    (OnClusterRemove h now₁ now₂ key cluster (World.start s)).2.events.filter
        Event.isEnqueueAfter =
      [Event.clustersEnqueueAfter cluster.Namespace cluster.Name (5 * time.Second)] ∧
    (OnClusterRemove.compute h now₁ now₂ cluster (World.start s)).err = some GoError.ErrSkip ∧
    ((OnClusterRemove h now₁ now₂ key cluster (World.start s)).2.events.filter
        Event.isFailedUpdateStatus = [] →
      (OnClusterRemove h now₁ now₂ key cluster (World.start s)).1.2 = some GoError.ErrSkip) ∧
    (∀ obj res e, Event.clustersUpdateStatus obj res (some e) ∈
        (OnClusterRemove h now₁ now₂ key cluster (World.start s)).2.events →
      (OnClusterRemove h now₁ now₂ key cluster (World.start s)).1.2 = some (GoError.api e)) ∧
    (OnClusterRemove h now₁ now₂ key cluster (World.start s)).1.2 ≠ none := by
  have hrun : doClusterRemove h cluster (World.start s) =
      (("waiting for cluster-api cluster [" ++ cluster.Name ++ "] to delete", none),
       { state := s₅,
         events := pre ++
           [Event.capiClustersCacheGet cluster.Namespace cluster.Name (some capiCluster) none,
            Event.capiClustersDelete cluster.Namespace cluster.Name (some {}) d,
            Event.capiMachinesCacheList cluster.Namespace [(capiClusterLabel, cluster.Name)]
              [] none] }) := by
    rw [doClusterRemove_of_mgmtGone h cluster s s₂ pre hm]
    rcases not_failed_cases d hd with rfl | ⟨e₁, rfl, he₁⟩ <;>
      simp [doClusterRemove.capi, doClusterRemove.machines, World.record, hcapi, hns, hnm, hts,
        hdel, hlist, apierrors.IsNotFound, sort.Slice, *]
  have hmsg : "waiting for cluster-api cluster [" ++ cluster.Name ++ "] to delete" ≠ "" :=
    append3_ne_empty _ _ _ (by decide)
  have hc := compute_waiting h now₁ now₂ cluster (World.start s) _
    (congrArg Prod.fst hrun) hmsg
  have hpre : pre.filter Event.isCapiClustersDelete = [] := by
    rcases hm with ⟨-, -, rfl⟩ | ⟨-, d₀, s₁, obj, e, -, -, -, -, rfl⟩ <;>
      simp [Event.isCapiClustersDelete]
  refine ⟨hrun, ?_, ?_, ?_, ?_, ?_, ?_⟩
  · unfold OnClusterRemove
    simp only
    rw [updateClusterStatus_filter, hc, hrun]
    · simp [World.record, List.filter_append, hpre, Event.isCapiClustersDelete]
    · intro ev hev
      cases ev <;> simp_all [Event.isUpdateStatus, Event.isCapiClustersDelete]
  · rw [OnClusterRemove_enqueues, hc]
    simp [World.record, List.filter_append, (doClusterRemove_no_enqueue h cluster s).1,
      Event.isEnqueueAfter]
  · rw [hc]
  · intro hno
    rw [(OnClusterRemove_err h now₁ now₂ key cluster _).1 hno, hc]
  · intro obj res e hmem
    exact OnClusterRemove_failed_write h now₁ now₂ key cluster s obj res e hmem
  · exact (OnClusterRemove_err h now₁ now₂ key cluster _).2 (by rw [hc]; simp)

/-- C5, as amended, at the input of the spec's scenario: `ns/foo` references `mgmt1`,
which is absent; the cluster-api cluster `ns/foo` exists and is not marked for
deletion. -/
theorem OnClusterRemove_deletes_capi_cluster_witness :
    mgmtGone capiPresent.toHandler clusterFoo () ()
      [Event.mgmtClustersDelete "mgmt1" none (some errNotFound),
       Event.mgmtClusterCacheGet "mgmt1" none (some errNotFound)] ∧
    (doClusterRemove capiPresent.toHandler clusterFoo (World.start ())).1 =
      ("waiting for cluster-api cluster [foo] to delete", none) ∧
    (OnClusterRemove capiPresent.toHandler "t1" "t2" "ns/foo" clusterFoo
        (World.start ())).1.2 = some GoError.ErrSkip :=
  have hm : mgmtGone capiPresent.toHandler clusterFoo () ()
      [Event.mgmtClustersDelete "mgmt1" none (some errNotFound),
       Event.mgmtClusterCacheGet "mgmt1" none (some errNotFound)] :=
    Or.inr ⟨by decide, some errNotFound, (), none, errNotFound, rfl, Or.inr rfl, rfl, rfl, rfl⟩
  ⟨hm,
   congrArg Prod.fst (OnClusterRemove_deletes_capi_cluster capiPresent.toHandler "t1" "t2"
      "ns/foo" clusterFoo () () () () () _ capiFoo none hm rfl rfl rfl rfl rfl (Or.inl rfl)
      rfl).1,
   (OnClusterRemove_deletes_capi_cluster capiPresent.toHandler "t1" "t2"
      "ns/foo" clusterFoo () () () () () _ capiFoo none hm rfl rfl rfl rfl rfl (Or.inl rfl)
      rfl).2.2.2.2.1 (by decide)⟩

/-! ## A pass that waits for the management cluster -/

/-- C6: for a cluster with a non-empty `Status.ClusterName`, if the delete request for
the management cluster is accepted or answers not-found, and the lookup that follows
does not answer not-found, then `doClusterRemove` returns
`"waiting for cluster [<Status.ClusterName>] to delete"` with no error, and its only
calls are that delete and that lookup: no lookup and no delete of the cluster-api
cluster, and no list of machines. -/
theorem doClusterRemove_waits_for_mgmt {σ : Type} (h : handler σ) (cluster : Cluster)
    (s s₁ s₂ : σ) (d gerr : Option APIError) (obj : Option MgmtCluster)
    (hname : cluster.Status.ClusterName ≠ "")
    (hdel : h.mgmtClusters.Delete cluster.Status.ClusterName none s = (d, s₁))
    (hd : d = none ∨ apierrors.IsNotFound d = true)
    (hget : h.mgmtClusterCache.Get cluster.Status.ClusterName s₁ = ((obj, gerr), s₂))
    (hg : apierrors.IsNotFound gerr = false) :
    doClusterRemove h cluster (World.start s) =
      (("waiting for cluster [" ++ cluster.Status.ClusterName ++ "] to delete", none),
       { state := s₂,
         events := [Event.mgmtClustersDelete cluster.Status.ClusterName none d,
                    Event.mgmtClusterCacheGet cluster.Status.ClusterName obj gerr] }) ∧
    (doClusterRemove h cluster (World.start s)).2.events.filter Event.isCapiCall = [] := by
  have hrun : doClusterRemove h cluster (World.start s) =
      (("waiting for cluster [" ++ cluster.Status.ClusterName ++ "] to delete", none),
       { state := s₂,
         events := [Event.mgmtClustersDelete cluster.Status.ClusterName none d,
                    Event.mgmtClusterCacheGet cluster.Status.ClusterName obj gerr] }) := by
    cases gerr with
    | none =>
      rcases not_failed_cases d hd with rfl | ⟨e₁, rfl, he₁⟩ <;>
        simp [doClusterRemove, hname, World.start, World.record, hdel, hget,
          apierrors.IsNotFound, *]
    | some e₂ =>
      have he₂ : e₂.NotFound = false := by simpa [apierrors.IsNotFound] using hg
      rcases not_failed_cases d hd with rfl | ⟨e₁, rfl, he₁⟩ <;>
        simp [doClusterRemove, hname, World.start, World.record, hdel, hget,
          apierrors.IsNotFound, *]
  refine ⟨hrun, ?_⟩
  rw [hrun]
  simp [Event.isCapiCall]

/-- C6, at a concrete input: `ns/foo` references `mgmt1`, which still exists. -/
theorem doClusterRemove_waits_for_mgmt_witness :
    clusterFoo.Status.ClusterName ≠ "" ∧
    (doClusterRemove mgmtPresent.toHandler clusterFoo (World.start ())).1 =
      ("waiting for cluster [mgmt1] to delete", none) ∧
    (doClusterRemove mgmtPresent.toHandler clusterFoo (World.start ())).2.events.filter
      Event.isCapiCall = [] :=
  ⟨by decide,
   congrArg Prod.fst (doClusterRemove_waits_for_mgmt mgmtPresent.toHandler clusterFoo () () ()
      none none (some { Name := "mgmt1" }) (by decide) rfl (Or.inl rfl) rfl rfl).1,
   (doClusterRemove_waits_for_mgmt mgmtPresent.toHandler clusterFoo () () ()
      none none (some { Name := "mgmt1" }) (by decide) rfl (Or.inl rfl) rfl rfl).2⟩

/-! ## A cluster with nothing left to remove -/

/-- C8: for a cluster with an empty `Status.ClusterName`, whose cluster-api cluster
lookup answers not-found and whose list of machines is empty, `doClusterRemove` returns
the empty message with no error; its only calls are that lookup and that list, so it
issues no delete request of any kind. -/
theorem doClusterRemove_done_unreferenced {σ : Type} (h : handler σ) (cluster : Cluster)
    (s s₁ s₂ : σ) (e : APIError)
    (hname : cluster.Status.ClusterName = "")
    (hcapi : h.capiClustersCache.Get cluster.Namespace cluster.Name s = ((none, some e), s₁))
    (he : e.NotFound = true)
    (hlist : h.capiMachinesCache.List cluster.Namespace [(capiClusterLabel, cluster.Name)] s₁ =
      (([], none), s₂)) :
    doClusterRemove h cluster (World.start s) =
      (("", none),
       { state := s₂,
         events := [Event.capiClustersCacheGet cluster.Namespace cluster.Name none (some e),
                    Event.capiMachinesCacheList cluster.Namespace
                      [(capiClusterLabel, cluster.Name)] [] none] }) ∧
    (doClusterRemove h cluster (World.start s)).2.events.filter Event.isDelete = [] := by
  have hrun : doClusterRemove h cluster (World.start s) =
      (("", none),
       { state := s₂,
         events := [Event.capiClustersCacheGet cluster.Namespace cluster.Name none (some e),
                    Event.capiMachinesCacheList cluster.Namespace
                      [(capiClusterLabel, cluster.Name)] [] none] }) := by
    simp [doClusterRemove, doClusterRemove.capi, doClusterRemove.machines, hname, World.start,
      World.record, hcapi, hlist, apierrors.IsNotFound, he, sort.Slice]
  refine ⟨hrun, ?_⟩
  rw [hrun]
  simp [Event.isDelete]

/-- C8, at a concrete input: `ns/foo` without a management cluster, over the store in
which everything is gone. -/
theorem doClusterRemove_done_unreferenced_witness :
    clusterFooUnreferenced.Status.ClusterName = "" ∧
    (doClusterRemove allGone.toHandler clusterFooUnreferenced (World.start ())).1 = ("", none) ∧
    (doClusterRemove allGone.toHandler clusterFooUnreferenced (World.start ())).2.events.filter
      Event.isDelete = [] :=
  ⟨rfl,
   congrArg Prod.fst (doClusterRemove_done_unreferenced allGone.toHandler clusterFooUnreferenced
      () () () errNotFound rfl rfl rfl rfl).1,
   (doClusterRemove_done_unreferenced allGone.toHandler clusterFooUnreferenced
      () () () errNotFound rfl rfl rfl rfl).2⟩

/-! ## A pass that waits for machines -/

/-- C7: whenever the pass reaches the list of machines (the management stage is not
pending and the orchestration stage raised no error) and the list answers a non-empty
list with no error, in whatever order, `doClusterRemove` returns
`"waiting for machine [<m>] to delete"` for one machine `m` of the list whose name is
the least, and no error; the outcome of the cluster-api cluster lookup, found or
not-found, plays no part. -/
theorem doClusterRemove_reports_least_machine {σ : Type} (h : handler σ) (cluster : Cluster)
    (s : σ) (ns : String) (sel : Selector) (machines : Machines)
    (hmem : Event.capiMachinesCacheList ns sel machines none ∈
      (doClusterRemove h cluster (World.start s)).2.events)
    (hne : machines ≠ []) :
    ∃ m ∈ machines, (∀ x ∈ machines, m.Name ≤ x.Name) ∧
      (doClusterRemove h cluster (World.start s)).1 =
        ("waiting for machine [" ++ m.Name ++ "] to delete", none) := by
  rcases doClusterRemove_reaches_machines h cluster s with hnone | ⟨cerr, w₁, hw₁, hrun⟩
  · have : Event.capiMachinesCacheList ns sel machines none ∈
        (doClusterRemove h cluster (World.start s)).2.events.filter Event.isMachinesList :=
      List.mem_filter.mpr ⟨hmem, rfl⟩
    rw [hnone] at this
    exact absurd this (List.not_mem_nil _)
  · rw [hrun] at hmem ⊢
    rw [machines_world] at hmem
    simp only [World.record, List.mem_append, List.mem_singleton] at hmem
    rcases hmem with hin | heq
    · have : Event.capiMachinesCacheList ns sel machines none ∈
          w₁.events.filter Event.isMachinesList := List.mem_filter.mpr ⟨hin, rfl⟩
      rw [hw₁] at this
      exact absurd this (List.not_mem_nil _)
    · injection heq with _ _ h₃ h₄
      exact machines_nonempty h cluster cerr w₁ machines (Prod.ext h₃.symm h₄.symm) hne

/-- C7, at the input of the spec's example: the machines `b`, `a`, `c`, listed in this
order, give `"waiting for machine [a] to delete"`. -/
theorem doClusterRemove_reports_least_machine_witness :
    Event.capiMachinesCacheList "ns" [(capiClusterLabel, "foo")]
        [{ Namespace := "ns", Name := "b" }, { Namespace := "ns", Name := "a" },
         { Namespace := "ns", Name := "c" }] none ∈
      (doClusterRemove machinesLeft.toHandler clusterFoo (World.start ())).2.events ∧
    (doClusterRemove machinesLeft.toHandler clusterFoo (World.start ())).1 =
      ("waiting for machine [a] to delete", none) ∧
    ∃ m ∈ ([{ Namespace := "ns", Name := "b" }, { Namespace := "ns", Name := "a" },
            { Namespace := "ns", Name := "c" }] : Machines),
      (doClusterRemove machinesLeft.toHandler clusterFoo (World.start ())).1 =
        ("waiting for machine [" ++ m.Name ++ "] to delete", none) :=
  ⟨by decide, by decide,
   (doClusterRemove_reports_least_machine machinesLeft.toHandler clusterFoo () "ns"
      [(capiClusterLabel, "foo")]
      [{ Namespace := "ns", Name := "b" }, { Namespace := "ns", Name := "a" },
       { Namespace := "ns", Name := "c" }] (by decide) (by decide)).elim
     (fun m hm => ⟨m, hm.1, hm.2.2⟩)⟩

/-! ## A pass in which the evaluator fails -/

/-- C9, as it fails: over the store in which the lookup of the cluster-api cluster times
out and the status write fails with a conflict, the evaluator returns the time-out,
and `OnClusterRemove` returns the conflict of the status write, not the time-out. -/
theorem evaluator_error_replaced_by_write_error :
    (doClusterRemove capiTimeoutWriteFails.toHandler clusterFoo (World.start ())).1 =
      ("", some errTimeout) ∧
    (OnClusterRemove capiTimeoutWriteFails.toHandler "t1" "t2" "ns/foo" clusterFoo
      (World.start ())).1 = (none, some (GoError.api errConflict)) ∧
    GoError.api errConflict ≠ GoError.api errTimeout := by
  decide

/-- C9, as amended: for every error returned by the stage evaluator, the status computed
by `OnClusterRemove` has `Removed` equal to `False` with the text of the error as its
message, the pass requests no later reconcile, and `OnClusterRemove` returns that error
when no status write fails; when the status write fails it returns the error of the
write instead.  In every case it returns an error of a client, never nil and never
the skip signal. -/
theorem OnClusterRemove_evaluator_error {σ : Type} (h : handler σ) (now₁ now₂ key : String)
    (cluster : Cluster) (s : σ) (err : APIError)
    (herr : (doClusterRemove h cluster (World.start s)).1.2 = some err) :
    (∃ x, condition.find Removed
        (OnClusterRemove.compute h now₁ now₂ cluster (World.start s)).status = some x ∧
      x.Status = "False" ∧ x.Message = err.Message) ∧
    (OnClusterRemove h now₁ now₂ key cluster (World.start s)).2.events.filter
        Event.isEnqueueAfter = [] ∧
    ((OnClusterRemove h now₁ now₂ key cluster (World.start s)).2.events.filter
        Event.isFailedUpdateStatus = [] →
      (OnClusterRemove h now₁ now₂ key cluster (World.start s)).1.2 = some (GoError.api err)) ∧
    (∀ obj res e, Event.clustersUpdateStatus obj res (some e) ∈
        (OnClusterRemove h now₁ now₂ key cluster (World.start s)).2.events →
      (OnClusterRemove h now₁ now₂ key cluster (World.start s)).1.2 = some (GoError.api e)) ∧
    (∃ e, (OnClusterRemove h now₁ now₂ key cluster (World.start s)).1.2 =
      some (GoError.api e)) := by
  have hc := compute_error h now₁ now₂ cluster _ err herr
  have hno := compute_no_updateStatus h now₁ now₂ cluster s
  have hcases := updateClusterStatus_cases h cluster
    (OnClusterRemove.compute h now₁ now₂ cluster (World.start s)).status
    (OnClusterRemove.compute h now₁ now₂ cluster (World.start s)).err
    (OnClusterRemove.compute h now₁ now₂ cluster (World.start s)).world
  have herr' : (OnClusterRemove.compute h now₁ now₂ cluster (World.start s)).err =
      some (GoError.api err) := by rw [hc]
  refine ⟨?_, ?_, ?_, ?_, ?_⟩
  · rw [hc]
    obtain ⟨x, hfind, hst, -, hmsg⟩ :=
      find_after_status_message_reason Removed cluster.Status "False" "Error" err.Message
        now₁ now₂
    exact ⟨x, hfind, hst, hmsg⟩
  · rw [OnClusterRemove_enqueues, hc]
    exact (doClusterRemove_no_enqueue h cluster s).1
  · intro hnf
    rw [(OnClusterRemove_err h now₁ now₂ key cluster _).1 hnf, hc]
  · intro obj res e hmem
    have hnot : Event.clustersUpdateStatus obj res (some e) ∉
        (OnClusterRemove.compute h now₁ now₂ cluster (World.start s)).world.events := by
      intro hin
      have : Event.clustersUpdateStatus obj res (some e) ∈
          (OnClusterRemove.compute h now₁ now₂ cluster (World.start s)).world.events.filter
            Event.isUpdateStatus := List.mem_filter.mpr ⟨hin, rfl⟩
      rw [hno] at this
      exact absurd this (List.not_mem_nil _)
    unfold OnClusterRemove at hmem ⊢
    simp only at hmem ⊢
    rcases hcases with ⟨-, hr⟩ | ⟨-, r, s₁, -, hr⟩ | ⟨-, r, e₁, s₁, -, hr⟩ <;>
      rw [hr] at hmem ⊢
    · exact absurd hmem hnot
    · simp only [World.record, List.mem_append, List.mem_singleton] at hmem
      rcases hmem with hin | heq
      · exact absurd hin hnot
      · injection heq with _ _ h₃
        exact absurd h₃ (by simp)
    · simp only [World.record, List.mem_append, List.mem_singleton] at hmem
      rcases hmem with hin | heq
      · exact absurd hin hnot
      · injection heq with _ _ h₃
        injection h₃ with h₃
        rw [h₃]
  · unfold OnClusterRemove
    simp only
    rcases hcases with ⟨-, hr⟩ | ⟨-, r, s₁, -, hr⟩ | ⟨-, r, e₁, s₁, -, hr⟩ <;> rw [hr]
    · exact ⟨err, herr'⟩
    · exact ⟨err, herr'⟩
    · exact ⟨e₁, rfl⟩

/-- C9, as amended, at a concrete input: over the store in which the lookup of the
cluster-api cluster times out, `OnClusterRemove` returns the time-out. -/
theorem OnClusterRemove_evaluator_error_witness :
    (doClusterRemove capiTimeout.toHandler clusterFoo (World.start ())).1.2 = some errTimeout ∧
    (OnClusterRemove capiTimeout.toHandler "t1" "t2" "ns/foo" clusterFoo
      (World.start ())).1.2 = some (GoError.api errTimeout) :=
  ⟨by decide,
   (OnClusterRemove_evaluator_error capiTimeout.toHandler "t1" "t2" "ns/foo" clusterFoo ()
      errTimeout (by decide)).2.2.1 (by decide)⟩

/-! ## What `OnClusterRemove` returns -/

/-- C10, as it fails: over the store in which everything is gone and the status write
fails with a conflict, the evaluator reports done and the signal computed is nil, but
`OnClusterRemove` returns the conflict. -/
theorem write_error_overrides_signal :
    (doClusterRemove allGoneWriteFails.toHandler clusterFoo (World.start ())).1 = ("", none) ∧
    (OnClusterRemove.compute allGoneWriteFails.toHandler "t1" "t2" clusterFoo
      (World.start ())).err = none ∧
    (OnClusterRemove allGoneWriteFails.toHandler "t1" "t2" "ns/foo" clusterFoo
      (World.start ())).1 = (none, some (GoError.api errConflict)) := by
  decide

/-- C10, as amended: the signal computed by `OnClusterRemove` is the error of the
evaluator when it fails, `generic.ErrSkip` when it waits, and nil when it is done.
When the computed status equals the current one there is no write, and the cluster
given is returned with that signal; when a write is made and succeeds, the resource
answered by the write is returned with that signal; when the write fails, the resource
answered by the write is returned with the error of the write. -/
theorem OnClusterRemove_returns {σ : Type} (h : handler σ) (now₁ now₂ key : String)
    (cluster : Cluster) (s : σ) :
    ((∀ err, (doClusterRemove h cluster (World.start s)).1.2 = some err →
        (OnClusterRemove.compute h now₁ now₂ cluster (World.start s)).err =
          some (GoError.api err)) ∧
      (∀ msg, (doClusterRemove h cluster (World.start s)).1 = (msg, none) → msg ≠ "" →
        (OnClusterRemove.compute h now₁ now₂ cluster (World.start s)).err =
          some GoError.ErrSkip) ∧
      ((doClusterRemove h cluster (World.start s)).1 = ("", none) →
        (OnClusterRemove.compute h now₁ now₂ cluster (World.start s)).err = none)) ∧
    ((OnClusterRemove.compute h now₁ now₂ cluster (World.start s)).status = cluster.Status →
      OnClusterRemove h now₁ now₂ key cluster (World.start s) =
        ((some cluster, (OnClusterRemove.compute h now₁ now₂ cluster (World.start s)).err),
         (OnClusterRemove.compute h now₁ now₂ cluster (World.start s)).world)) ∧
    ((OnClusterRemove.compute h now₁ now₂ cluster (World.start s)).status ≠ cluster.Status →
      ∀ res s₁,
        h.clusters.UpdateStatus
            { cluster with
              Status := (OnClusterRemove.compute h now₁ now₂ cluster (World.start s)).status }
            (OnClusterRemove.compute h now₁ now₂ cluster (World.start s)).world.state =
          ((res, none), s₁) →
        OnClusterRemove h now₁ now₂ key cluster (World.start s) =
          ((res, (OnClusterRemove.compute h now₁ now₂ cluster (World.start s)).err),
           (OnClusterRemove.compute h now₁ now₂ cluster (World.start s)).world.record s₁
             (Event.clustersUpdateStatus
               { cluster with
                 Status := (OnClusterRemove.compute h now₁ now₂ cluster (World.start s)).status }
               res none))) ∧
    ((OnClusterRemove.compute h now₁ now₂ cluster (World.start s)).status ≠ cluster.Status →
      ∀ res e s₁,
        h.clusters.UpdateStatus
            { cluster with
              Status := (OnClusterRemove.compute h now₁ now₂ cluster (World.start s)).status }
            (OnClusterRemove.compute h now₁ now₂ cluster (World.start s)).world.state =
          ((res, some e), s₁) →
        OnClusterRemove h now₁ now₂ key cluster (World.start s) =
          ((res, some (GoError.api e)),
           (OnClusterRemove.compute h now₁ now₂ cluster (World.start s)).world.record s₁
             (Event.clustersUpdateStatus
               { cluster with
                 Status := (OnClusterRemove.compute h now₁ now₂ cluster (World.start s)).status }
               res (some e)))) := by
  refine ⟨⟨?_, ?_, ?_⟩, ?_, ?_, ?_⟩
  · intro err herr
    rw [compute_error h now₁ now₂ cluster _ err herr]
  · intro msg hwait hmsg
    rw [compute_waiting h now₁ now₂ cluster _ msg hwait hmsg]
  · intro hdone
    rw [compute_done h now₁ now₂ cluster _ hdone]
  · intro heq
    simp [OnClusterRemove, updateClusterStatus, heq]
  · intro hne res s₁ hu
    simp [OnClusterRemove, updateClusterStatus, hne, hu]
  · intro hne res e s₁ hu
    simp [OnClusterRemove, updateClusterStatus, hne, hu]

/-- C10, as amended, at a concrete input: over the store in which everything is gone
and a status write gives back the object written, `ns/foo` gets its `Removed` condition
written and a nil error. -/
theorem OnClusterRemove_returns_witness :
    (OnClusterRemove.compute allGone.toHandler "t1" "t2" clusterFoo (World.start ())).status ≠
      clusterFoo.Status ∧
    (OnClusterRemove allGone.toHandler "t1" "t2" "ns/foo" clusterFoo (World.start ())).1 =
      (some { clusterFoo with
              Status := (OnClusterRemove.compute allGone.toHandler "t1" "t2" clusterFoo
                (World.start ())).status },
       (OnClusterRemove.compute allGone.toHandler "t1" "t2" clusterFoo (World.start ())).err) :=
  ⟨by decide,
   congrArg Prod.fst
     ((OnClusterRemove_returns allGone.toHandler "t1" "t2" "ns/foo" clusterFoo ()).2.2.1
       (by decide) _ () rfl)⟩

/-! ## The evaluator does not look at earlier progress -/

/-- C17: two provisioning clusters that agree on namespace, name and
`Status.ClusterName`, however their conditions and the rest of their status differ,
get from `doClusterRemove`, over the same handler and from the same store state, the
same message and error, the same events in the same order (each call with the same
arguments and the same answer) and the same final store state. -/
theorem doClusterRemove_ignores_progress {σ : Type} (h : handler σ) (c₁ c₂ : Cluster)
    (w : World σ)
    (hns : c₁.Namespace = c₂.Namespace) (hname : c₁.Name = c₂.Name)
    (hmgmt : c₁.Status.ClusterName = c₂.Status.ClusterName) :
    doClusterRemove h c₁ w = doClusterRemove h c₂ w := by
  unfold doClusterRemove doClusterRemove.capi doClusterRemove.machines
  simp only [hns, hname, hmgmt]

/-- C17, at a concrete input: `ns/foo` without a condition and `ns/foo` with `Removed`
equal to `True` get the same outcome and the same events over the store in which the
management cluster still exists. -/
theorem doClusterRemove_ignores_progress_witness :
    clusterFoo.Status ≠ clusterFooRemoved.Status ∧
    doClusterRemove mgmtPresent.toHandler clusterFoo (World.start ()) =
      doClusterRemove mgmtPresent.toHandler clusterFooRemoved (World.start ()) :=
  ⟨by decide,
   doClusterRemove_ignores_progress mgmtPresent.toHandler clusterFoo clusterFooRemoved
     (World.start ()) rfl rfl rfl⟩

/-! ## A management cluster lookup that fails -/

/-- C15: for a cluster with a non-empty `Status.ClusterName` whose management delete
request did not fail (it is accepted or answers not-found), a lookup of the management
cluster that fails with an error other than not-found gives the same outcome of
`doClusterRemove` as a lookup that finds the management cluster: the message
`"waiting for cluster [<Status.ClusterName>] to delete"` with a nil error.  The error of
the lookup is not returned. -/
theorem doClusterRemove_mgmt_lookup_error_waits {σ τ : Type} (h : handler σ) (h' : handler τ)
    (cluster : Cluster) (s s₁ s₂ : σ) (t t₁ t₂ : τ) (d d' : Option APIError)
    (obj : Option MgmtCluster) (e : APIError) (found : MgmtCluster)
    (hname : cluster.Status.ClusterName ≠ "")
    (hdel : h.mgmtClusters.Delete cluster.Status.ClusterName none s = (d, s₁))
    (hd : d = none ∨ apierrors.IsNotFound d = true)
    (hget : h.mgmtClusterCache.Get cluster.Status.ClusterName s₁ = ((obj, some e), s₂))
    (he : e.NotFound = false)
    (hdel' : h'.mgmtClusters.Delete cluster.Status.ClusterName none t = (d', t₁))
    (hd' : d' = none ∨ apierrors.IsNotFound d' = true)
    (hget' : h'.mgmtClusterCache.Get cluster.Status.ClusterName t₁ = ((some found, none), t₂)) :
    (doClusterRemove h cluster (World.start s)).1 =
      ("waiting for cluster [" ++ cluster.Status.ClusterName ++ "] to delete", none) ∧
    (doClusterRemove h' cluster (World.start t)).1 =
      (doClusterRemove h cluster (World.start s)).1 ∧
    (doClusterRemove h cluster (World.start s)).2.events =
      [Event.mgmtClustersDelete cluster.Status.ClusterName none d,
       Event.mgmtClusterCacheGet cluster.Status.ClusterName obj (some e)] := by
  have hrun : doClusterRemove h cluster (World.start s) =
      (("waiting for cluster [" ++ cluster.Status.ClusterName ++ "] to delete", none),
       { state := s₂,
         events := [Event.mgmtClustersDelete cluster.Status.ClusterName none d,
                    Event.mgmtClusterCacheGet cluster.Status.ClusterName obj (some e)] }) := by
    rcases not_failed_cases d hd with rfl | ⟨e₁, rfl, he₁⟩ <;>
      simp [doClusterRemove, hname, World.start, World.record, hdel, hget,
        apierrors.IsNotFound, *]
  have hrun' : (doClusterRemove h' cluster (World.start t)).1 =
      ("waiting for cluster [" ++ cluster.Status.ClusterName ++ "] to delete", none) := by
    rcases not_failed_cases d' hd' with rfl | ⟨e₁, rfl, he₁⟩ <;>
      simp [doClusterRemove, hname, World.start, World.record, hdel', hget',
        apierrors.IsNotFound, *]
  rw [hrun, hrun']
  exact ⟨rfl, rfl, rfl⟩

/-- C15, at a concrete input: for `ns/foo`, the store in which the lookup of `mgmt1`
times out gives the same outcome as the store in which `mgmt1` is found. -/
theorem doClusterRemove_mgmt_lookup_error_waits_witness :
    clusterFoo.Status.ClusterName ≠ "" ∧
    (doClusterRemove mgmtLookupTimeout.toHandler clusterFoo (World.start ())).1 =
      ("waiting for cluster [mgmt1] to delete", none) ∧
    (doClusterRemove mgmtPresent.toHandler clusterFoo (World.start ())).1 =
      (doClusterRemove mgmtLookupTimeout.toHandler clusterFoo (World.start ())).1 :=
  ⟨by decide,
   (doClusterRemove_mgmt_lookup_error_waits mgmtLookupTimeout.toHandler mgmtPresent.toHandler
      clusterFoo () () () () () () (some errNotFound) none none errTimeout { Name := "mgmt1" }
      (by decide) rfl (Or.inr rfl) rfl rfl rfl (Or.inl rfl) rfl).1,
   (doClusterRemove_mgmt_lookup_error_waits mgmtLookupTimeout.toHandler mgmtPresent.toHandler
      clusterFoo () () () () () () (some errNotFound) none none errTimeout { Name := "mgmt1" }
      (by decide) rfl (Or.inr rfl) rfl rfl rfl (Or.inl rfl) rfl).2.1⟩

/-! ## The delete request for the cluster-api cluster -/

/-- C16: for a cluster that passes the management stage and whose lookup of the
cluster-api cluster does not fail with another error than not-found, a delete request
for a cluster-api cluster is among the events of `doClusterRemove` exactly when the
lookup answered an object without a deletion timestamp.  When the lookup succeeds
with an object that already carries a deletion timestamp and there are no machines,
the events are the lookup and the list only, and the result is
`"waiting for cluster-api cluster [<name>] to delete"`; when the object carries none,
the delete request is issued, and whether it is accepted or answers not-found the
result without machines is that same message, with no error. -/
theorem doClusterRemove_capi_delete_when_unmarked {σ : Type} (h : handler σ)
    (cluster : Cluster) (s s₂ s₃ : σ) (pre : List Event) (obj : Option CapiCluster)
    (cerr : Option APIError)
    (hm : mgmtGone h cluster s s₂ pre)
    (hcapi : h.capiClustersCache.Get cluster.Namespace cluster.Name s₂ = ((obj, cerr), s₃))
    (hok : cerr = none ∨ apierrors.IsNotFound cerr = true) :
    ((∃ ns name opts err, Event.capiClustersDelete ns name opts err ∈
        (doClusterRemove h cluster (World.start s)).2.events) ↔
      ∃ c, obj = some c ∧ c.DeletionTimestamp = none) ∧
    (∀ c ts s₄, obj = some c → cerr = none → c.DeletionTimestamp = some ts →
      h.capiMachinesCache.List cluster.Namespace [(capiClusterLabel, cluster.Name)] s₃ =
        (([], none), s₄) →
      doClusterRemove h cluster (World.start s) =
        (("waiting for cluster-api cluster [" ++ cluster.Name ++ "] to delete", none),
         { state := s₄,
           events := pre ++
             [Event.capiClustersCacheGet cluster.Namespace cluster.Name (some c) none,
              Event.capiMachinesCacheList cluster.Namespace [(capiClusterLabel, cluster.Name)]
                [] none] })) ∧
    (∀ c d s₄ s₅, obj = some c → cerr = none → c.DeletionTimestamp = none →
      h.capiClusters.Delete c.Namespace c.Name (some {}) s₃ = (d, s₄) →
      (d = none ∨ apierrors.IsNotFound d = true) →
      h.capiMachinesCache.List cluster.Namespace [(capiClusterLabel, cluster.Name)] s₄ =
        (([], none), s₅) →
      doClusterRemove h cluster (World.start s) =
        (("waiting for cluster-api cluster [" ++ cluster.Name ++ "] to delete", none),
         { state := s₅,
           events := pre ++
             [Event.capiClustersCacheGet cluster.Namespace cluster.Name (some c) none,
              Event.capiClustersDelete c.Namespace c.Name (some {}) d,
              Event.capiMachinesCacheList cluster.Namespace [(capiClusterLabel, cluster.Name)]
                [] none] })) := by
  have hpre := mgmtGone_no_capi_delete h cluster s s₂ pre hm
  rw [doClusterRemove_of_mgmtGone h cluster s s₂ pre hm]
  refine ⟨?_, ?_, ?_⟩
  · have hfil := capi_delete_events h cluster { state := s₂, events := pre } obj cerr s₃ hcapi hok
    have hpre' : pre.filter Event.isCapiClustersDelete = [] :=
      List.filter_eq_nil_iff.mpr (fun ev hev => by simp [hpre ev hev])
    simp only [hpre', List.nil_append] at hfil
    constructor
    · rintro ⟨ns, name, opts, err, hmem⟩
      have hin : Event.capiClustersDelete ns name opts err ∈
          (doClusterRemove.capi h cluster { state := s₂, events := pre }).2.events.filter
            Event.isCapiClustersDelete := List.mem_filter.mpr ⟨hmem, rfl⟩
      rw [hfil] at hin
      cases obj with
      | none => simp at hin
      | some c =>
        by_cases hts : c.DeletionTimestamp = none
        · exact ⟨c, rfl, hts⟩
        · simp [hts] at hin
    · rintro ⟨c, rfl, hts⟩
      simp only [hts, if_true] at hfil
      have hin : Event.capiClustersDelete c.Namespace c.Name (some {})
          (h.capiClusters.Delete c.Namespace c.Name (some {}) s₃).1 ∈
          (doClusterRemove.capi h cluster { state := s₂, events := pre }).2.events.filter
            Event.isCapiClustersDelete := by
        rw [hfil]
        simp
      exact ⟨_, _, _, _, (List.mem_filter.mp hin).1⟩
  · intro c ts s₄ hobj hcerr hts hlist
    subst hobj hcerr
    simp [doClusterRemove.capi, doClusterRemove.machines, World.record, hcapi, hts, hlist,
      apierrors.IsNotFound, sort.Slice]
  · intro c d s₄ s₅ hobj hcerr hts hdel hd hlist
    subst hobj hcerr
    rcases not_failed_cases d hd with rfl | ⟨e₁, rfl, he₁⟩ <;>
      simp [doClusterRemove.capi, doClusterRemove.machines, World.record, hcapi, hts, hdel,
        hlist, apierrors.IsNotFound, sort.Slice, *]

/-- C16, at a concrete input: `ns/foo` over the store in which `mgmt1` is gone and the
cluster-api cluster is already marked for deletion. -/
theorem doClusterRemove_capi_delete_when_unmarked_witness :
    mgmtGone capiDeleting.toHandler clusterFoo () ()
      [Event.mgmtClustersDelete "mgmt1" none (some errNotFound),
       Event.mgmtClusterCacheGet "mgmt1" none (some errNotFound)] ∧
    (doClusterRemove capiDeleting.toHandler clusterFoo (World.start ())).1 =
      ("waiting for cluster-api cluster [foo] to delete", none) ∧
    (doClusterRemove capiDeleting.toHandler clusterFoo (World.start ())).2.events.filter
      Event.isCapiClustersDelete = [] :=
  have hm : mgmtGone capiDeleting.toHandler clusterFoo () ()
      [Event.mgmtClustersDelete "mgmt1" none (some errNotFound),
       Event.mgmtClusterCacheGet "mgmt1" none (some errNotFound)] :=
    Or.inr ⟨by decide, some errNotFound, (), none, errNotFound, rfl, Or.inr rfl, rfl, rfl, rfl⟩
  ⟨hm,
   congrArg Prod.fst
     ((doClusterRemove_capi_delete_when_unmarked capiDeleting.toHandler clusterFoo () () () _
        (some capiFooDeleting) none hm rfl (Or.inl rfl)).2.1
       capiFooDeleting "t0" () rfl rfl rfl rfl),
   by decide⟩

/-! ## The cascade from a management cluster -/

/-- C12: `OnMgmtClusterRemove` first looks up the provisioning clusters indexed under
the name of the management cluster.  When the lookup fails, that is the only call, and
its error is returned with a nil resource.  When the lookup succeeds and no delete
request fails, the calls that follow are exactly one delete request without options
for each cluster found, by its namespace and name and in the order found, and the
management cluster given is returned with no error.  When a delete request fails, it is
the last call, after the accepted requests for the clusters found before it, and its
error is returned with a nil resource. -/
theorem OnMgmtClusterRemove_cascades {σ : Type} (h : handler σ) (ByCluster key : String)
    (cluster : MgmtCluster) (s s₁ : σ) (objs : List Cluster) (lerr : Option APIError)
    (hget : h.clusterCache.GetByIndex ByCluster cluster.Name s = ((objs, lerr), s₁)) :
    (∀ e, lerr = some e →
      OnMgmtClusterRemove h ByCluster key cluster (World.start s) =
        ((none, some (GoError.api e)),
         { state := s₁,
           events := [Event.clusterCacheGetByIndex ByCluster cluster.Name objs (some e)] })) ∧
    (lerr = none →
      ((OnMgmtClusterRemove h ByCluster key cluster (World.start s)).2.events.filter
          Event.isFailedClustersDelete = [] →
        (OnMgmtClusterRemove h ByCluster key cluster (World.start s)).1 = (some cluster, none) ∧
        (OnMgmtClusterRemove h ByCluster key cluster (World.start s)).2.events =
          Event.clusterCacheGetByIndex ByCluster cluster.Name objs none ::
            objs.map Event.deleted) ∧
      ((OnMgmtClusterRemove h ByCluster key cluster (World.start s)).2.events.filter
          Event.isFailedClustersDelete ≠ [] →
        ∃ pre c post e, objs = pre ++ c :: post ∧
          (OnMgmtClusterRemove h ByCluster key cluster (World.start s)).1 =
            (none, some (GoError.api e)) ∧
          (OnMgmtClusterRemove h ByCluster key cluster (World.start s)).2.events =
            Event.clusterCacheGetByIndex ByCluster cluster.Name objs none ::
              (pre.map Event.deleted ++
                [Event.clustersDelete c.Namespace c.Name none (some e)]))) := by
  constructor
  · intro e he
    subst he
    simp [OnMgmtClusterRemove, hget, World.start, World.record]
  · intro he
    subst he
    have hfilter : ∀ l : List Cluster,
        (l.map Event.deleted).filter Event.isFailedClustersDelete = [] := by
      intro l
      simp [List.filter_eq_nil_iff, Event.deleted, Event.isFailedClustersDelete]
    have hrun := OnMgmtClusterRemove_of_lookup h ByCluster key cluster s s₁ objs hget
    rcases deleteAll_shape h objs
      { state := s₁,
        events := [Event.clusterCacheGetByIndex ByCluster cluster.Name objs none] }
      with ⟨hnone, hev⟩ | ⟨pre, c, post, e, hobjs, herr, hev⟩
    · simp only [hnone] at hrun
      have hres : (OnMgmtClusterRemove h ByCluster key cluster (World.start s)).1 =
          (some cluster, none) := by rw [hrun]
      have hevs : (OnMgmtClusterRemove h ByCluster key cluster (World.start s)).2.events =
          Event.clusterCacheGetByIndex ByCluster cluster.Name objs none ::
            objs.map Event.deleted := by
        rw [hrun]
        simp only
        rw [hev]
        rfl
      refine ⟨fun _ => ⟨hres, hevs⟩, fun hne => ?_⟩
      rw [hevs] at hne
      simp [List.filter_cons, Event.isFailedClustersDelete, hfilter] at hne
    · simp only [herr] at hrun
      have hres : (OnMgmtClusterRemove h ByCluster key cluster (World.start s)).1 =
          (none, some (GoError.api e)) := by rw [hrun]
      have hevs : (OnMgmtClusterRemove h ByCluster key cluster (World.start s)).2.events =
          Event.clusterCacheGetByIndex ByCluster cluster.Name objs none ::
            (pre.map Event.deleted ++
              [Event.clustersDelete c.Namespace c.Name none (some e)]) := by
        rw [hrun]
        simp only
        rw [hev]
        rfl
      refine ⟨fun hnil => ?_, fun _ => ⟨pre, c, post, e, hobjs, hres, hevs⟩⟩
      rw [hevs] at hnil
      simp [List.filter_cons, List.filter_append, Event.isFailedClustersDelete, hfilter] at hnil

/-- C12, at a concrete input: `ns/foo` and `ns/bar` are indexed under `mgmt1`; both get
a delete request, in this order, and `mgmt1` is returned with no error. -/
theorem OnMgmtClusterRemove_cascades_witness :
    (OnMgmtClusterRemove twoIndexed.toHandler "by-cluster" "mgmt1" mgmtOne
        (World.start ())).2.events.filter Event.isFailedClustersDelete = [] ∧
    (OnMgmtClusterRemove twoIndexed.toHandler "by-cluster" "mgmt1" mgmtOne
        (World.start ())).1 = (some mgmtOne, none) ∧
    (OnMgmtClusterRemove twoIndexed.toHandler "by-cluster" "mgmt1" mgmtOne
        (World.start ())).2.events =
      [Event.clusterCacheGetByIndex "by-cluster" "mgmt1" [clusterFoo, clusterBar] none,
       Event.clustersDelete "ns" "foo" none none,
       Event.clustersDelete "ns" "bar" none none] :=
  ⟨by decide,
   ((OnMgmtClusterRemove_cascades twoIndexed.toHandler "by-cluster" "mgmt1" mgmtOne () ()
      [clusterFoo, clusterBar] none rfl).2 rfl).1 (by decide)⟩

/-! ## Status writes -/

/-- C11: when the status computed by a pass of `OnClusterRemove` equals the current
status of the cluster, the pass makes no status write and returns the cluster it was
given; when it differs, the status writes of the pass are exactly one, of the cluster
with the computed status.  A pass over the resource returned by an earlier pass
(the cluster given, or the answer of its status write, carrying the status written) in
which the evaluator has the same outcome makes no status write and returns that
resource, whatever the clock reads. -/
theorem OnClusterRemove_writes_only_changes {σ : Type} (h : handler σ)
    (now₁ now₂ key : String) (cluster : Cluster) (s : σ) :
    ((OnClusterRemove.compute h now₁ now₂ cluster (World.start s)).status = cluster.Status →
      (OnClusterRemove h now₁ now₂ key cluster (World.start s)).2.events.filter
          Event.isUpdateStatus = [] ∧
      (OnClusterRemove h now₁ now₂ key cluster (World.start s)).1.1 = some cluster) ∧
    ((OnClusterRemove.compute h now₁ now₂ cluster (World.start s)).status ≠ cluster.Status →
      ∃ res err,
        (OnClusterRemove h now₁ now₂ key cluster (World.start s)).2.events.filter
            Event.isUpdateStatus =
          [Event.clustersUpdateStatus
            { cluster with
              Status := (OnClusterRemove.compute h now₁ now₂ cluster (World.start s)).status }
            res err]) ∧
    (∀ (now₃ now₄ key₂ : String) (cluster₂ : Cluster) (s₂ : σ),
      (OnClusterRemove h now₁ now₂ key cluster (World.start s)).1.1 = some cluster₂ →
      (∀ obj res err, Event.clustersUpdateStatus obj res err ∈
          (OnClusterRemove h now₁ now₂ key cluster (World.start s)).2.events →
        cluster₂.Status = obj.Status) →
      (doClusterRemove h cluster₂ (World.start s₂)).1 =
        (doClusterRemove h cluster (World.start s)).1 →
      (OnClusterRemove h now₃ now₄ key₂ cluster₂ (World.start s₂)).2.events.filter
          Event.isUpdateStatus = [] ∧
      (OnClusterRemove h now₃ now₄ key₂ cluster₂ (World.start s₂)).1.1 = some cluster₂) := by
  have hno := compute_no_updateStatus h now₁ now₂ cluster s
  have hcases := updateClusterStatus_cases h cluster
    (OnClusterRemove.compute h now₁ now₂ cluster (World.start s)).status
    (OnClusterRemove.compute h now₁ now₂ cluster (World.start s)).err
    (OnClusterRemove.compute h now₁ now₂ cluster (World.start s)).world
  refine ⟨OnClusterRemove_no_write h now₁ now₂ key cluster s, ?_, ?_⟩
  · intro hne
    unfold OnClusterRemove
    simp only
    rcases hcases with ⟨heq, -⟩ | ⟨-, res, s₁, -, hr⟩ | ⟨-, res, e, s₁, -, hr⟩
    · exact absurd heq hne
    · rw [hr]
      exact ⟨res, none, by simp [World.record, List.filter_append, hno, Event.isUpdateStatus]⟩
    · rw [hr]
      exact ⟨res, some e, by
        simp [World.record, List.filter_append, hno, Event.isUpdateStatus]⟩
  · intro now₃ now₄ key₂ cluster₂ s₂ hret hwritten hout
    have hst : cluster₂.Status =
        (OnClusterRemove.compute h now₁ now₂ cluster (World.start s)).status := by
      unfold OnClusterRemove at hret hwritten
      simp only at hret hwritten
      rcases hcases with ⟨heq, hr⟩ | ⟨-, res, s₁, -, hr⟩ | ⟨-, res, e, s₁, -, hr⟩
      · rw [hr] at hret
        simp only [Option.some.injEq] at hret
        rw [← hret, heq]
      · rw [hr] at hwritten
        exact hwritten
          { cluster with
            Status := (OnClusterRemove.compute h now₁ now₂ cluster (World.start s)).status }
          res none (by simp [World.record])
      · rw [hr] at hwritten
        exact hwritten
          { cluster with
            Status := (OnClusterRemove.compute h now₁ now₂ cluster (World.start s)).status }
          res (some e) (by simp [World.record])
    exact OnClusterRemove_no_write h now₃ now₄ key₂ cluster₂ s₂
      (compute_status_idem h h now₁ now₂ now₃ now₄ cluster cluster₂ _ _ hst hout)

/-- C11, at a concrete input: the first pass for `ns/foo` over the store in which
everything is gone writes the status once; a second pass over the resource it returned
writes nothing. -/
theorem OnClusterRemove_writes_only_changes_witness :
    (OnClusterRemove allGone.toHandler "t1" "t2" "ns/foo" clusterFoo (World.start ())).1.1 =
      some { clusterFoo with
             Status := (OnClusterRemove.compute allGone.toHandler "t1" "t2" clusterFoo
               (World.start ())).status } ∧
    ((OnClusterRemove allGone.toHandler "t1" "t2" "ns/foo" clusterFoo
        (World.start ())).2.events.filter Event.isUpdateStatus).length = 1 ∧
    (OnClusterRemove allGone.toHandler "t3" "t4" "ns/foo"
        { clusterFoo with
          Status := (OnClusterRemove.compute allGone.toHandler "t1" "t2" clusterFoo
            (World.start ())).status }
        (World.start ())).2.events.filter Event.isUpdateStatus = [] :=
  ⟨by decide, by decide,
   ((OnClusterRemove_writes_only_changes allGone.toHandler "t1" "t2" "ns/foo" clusterFoo
      ()).2.2 "t3" "t4" "ns/foo" _ () (by decide)
      (fun obj res err hmem => by
        rw [(OnClusterRemove_written allGone.toHandler "t1" "t2" "ns/foo" clusterFoo ()
          obj res err hmem).1])
      (by decide)).1⟩

/-! ## What a pass changes in the status -/

/-- C18: the status computed by `OnClusterRemove` has the `Status.ClusterName` and the
other content of the current status.  Its conditions are the current ones with the
first `Removed` condition changed in place, keeping its type and transition time (so
only its state, reason, message and update time can differ), or, when there is no
`Removed` condition, with a new one added at the end; every other condition is the
same, at the same place.  What a status write is given is the cluster with this
status, and a pass that has nothing to write returns the cluster it was given.  The
cluster given is not modified: in every memory that holds the cluster at an address,
the pass over that address returns the same and makes the same calls, leaves every
cell that was allocated before the pass as it was, and the cluster at the address
reads as before. -/
theorem OnClusterRemove_changes_only_removed {σ : Type} (h : handler σ)
    (now₁ now₂ key : String) (cluster : Cluster) (s : σ) :
    (OnClusterRemove.compute h now₁ now₂ cluster (World.start s)).status.ClusterName =
      cluster.Status.ClusterName ∧
    (OnClusterRemove.compute h now₁ now₂ cluster (World.start s)).status.Other =
      cluster.Status.Other ∧
    ((∃ pre x x' post, cluster.Status.Conditions = pre ++ x :: post ∧
        (∀ y ∈ pre, y.CondType ≠ Removed) ∧ x.CondType = Removed ∧
        (OnClusterRemove.compute h now₁ now₂ cluster (World.start s)).status.Conditions =
          pre ++ x' :: post ∧
        x'.CondType = Removed ∧ x'.LastTransitionTime = x.LastTransitionTime) ∨
      (∃ x', (∀ y ∈ cluster.Status.Conditions, y.CondType ≠ Removed) ∧
        (OnClusterRemove.compute h now₁ now₂ cluster (World.start s)).status.Conditions =
          cluster.Status.Conditions ++ [x'] ∧
        x'.CondType = Removed)) ∧
    (∀ obj res err, Event.clustersUpdateStatus obj res err ∈
        (OnClusterRemove h now₁ now₂ key cluster (World.start s)).2.events →
      obj = { cluster with
              Status := (OnClusterRemove.compute h now₁ now₂ cluster (World.start s)).status }) ∧
    ((OnClusterRemove h now₁ now₂ key cluster (World.start s)).2.events.filter
        Event.isUpdateStatus = [] →
      (OnClusterRemove h now₁ now₂ key cluster (World.start s)).1.1 = some cluster) ∧
    (∀ (m : Memory) (p : Nat), m.holds p = true → m.cluster p = cluster →
      (Mem.OnClusterRemove h now₁ now₂ key p (World.start s) m).1 =
        OnClusterRemove h now₁ now₂ key cluster (World.start s) ∧
      m.keptBy (Mem.OnClusterRemove h now₁ now₂ key p (World.start s) m).2 ∧
      (Mem.OnClusterRemove h now₁ now₂ key p (World.start s) m).2.cluster p = cluster) := by
  obtain ⟨F, hF, hst⟩ := compute_status_shape h now₁ now₂ cluster (World.start s)
  refine ⟨by rw [hst], by rw [hst], ?_, ?_, ?_, ?_⟩
  · rw [hst]
    simp only
    rcases modify_shape Removed F cluster.Status.Conditions with
      ⟨pre, x, post, hl, hpre, hx, hmod⟩ | ⟨hall, hmod⟩
    · left
      exact ⟨pre, x, F x, post, hl, hpre, hx, hmod, by rw [(hF x).1, hx], (hF x).2⟩
    · right
      exact ⟨F (condition.newCond Removed), hall, hmod, by rw [(hF _).1]; rfl⟩
  · intro obj res err hmem
    exact (OnClusterRemove_written h now₁ now₂ key cluster s obj res err hmem).1
  · intro hnone
    have hno := compute_no_updateStatus h now₁ now₂ cluster s
    unfold OnClusterRemove at hnone ⊢
    simp only at hnone ⊢
    rcases updateClusterStatus_cases h cluster
      (OnClusterRemove.compute h now₁ now₂ cluster (World.start s)).status
      (OnClusterRemove.compute h now₁ now₂ cluster (World.start s)).err
      (OnClusterRemove.compute h now₁ now₂ cluster (World.start s)).world with
      ⟨-, hr⟩ | ⟨-, res, s₁, -, hr⟩ | ⟨-, res, e, s₁, -, hr⟩ <;> rw [hr] at hnone ⊢
    · simp [World.record, List.filter_append, hno, Event.isUpdateStatus] at hnone
    · simp [World.record, List.filter_append, hno, Event.isUpdateStatus] at hnone
  · intro m p hp hcluster
    subst hcluster
    exact OnClusterRemove_refines h now₁ now₂ key p (World.start s) m hp

/-- C18, at a concrete input: `ns/foo` carries a `Ready` condition and other status
content; over the store in which everything is gone the pass changes the `Removed`
condition only, and writes the cluster with that status.  In the memory that holds
`ns/foo` at address 0, the pass over address 0 leaves the cluster at address 0 as it
was, and the cluster with the new status is the copy at address 1. -/
theorem OnClusterRemove_changes_only_removed_witness :
    (OnClusterRemove.compute allGone.toHandler "t1" "t2" clusterFooReady
        (World.start ())).status =
      { clusterFooReady.Status with
        Conditions :=
          [{ CondType := "Ready", Status := "True", LastUpdateTime := "t0",
             LastTransitionTime := "t0", Reason := "", Message := "" },
           { CondType := "Removed", Status := "True", LastUpdateTime := "t2",
             LastTransitionTime := "", Reason := "", Message := "" }] } ∧
    Event.clustersUpdateStatus
        { clusterFooReady with
          Status := (OnClusterRemove.compute allGone.toHandler "t1" "t2" clusterFooReady
            (World.start ())).status }
        (some { clusterFooReady with
          Status := (OnClusterRemove.compute allGone.toHandler "t1" "t2" clusterFooReady
            (World.start ())).status })
        none ∈
      (OnClusterRemove allGone.toHandler "t1" "t2" "ns/foo" clusterFooReady
        (World.start ())).2.events ∧
    (OnClusterRemove.compute allGone.toHandler "t1" "t2" clusterFooReady
        (World.start ())).status.Other = clusterFooReady.Status.Other ∧
    memoryFooReady.holds 0 = true ∧
    memoryFooReady.cluster 0 = clusterFooReady ∧
    (Mem.OnClusterRemove allGone.toHandler "t1" "t2" "ns/foo" 0 (World.start ())
        memoryFooReady).2.cluster 1 =
      { clusterFooReady with
        Status := (OnClusterRemove.compute allGone.toHandler "t1" "t2" clusterFooReady
          (World.start ())).status } ∧
    ((Mem.OnClusterRemove allGone.toHandler "t1" "t2" "ns/foo" 0 (World.start ())
        memoryFooReady).1 =
      OnClusterRemove allGone.toHandler "t1" "t2" "ns/foo" clusterFooReady (World.start ()) ∧
     memoryFooReady.keptBy (Mem.OnClusterRemove allGone.toHandler "t1" "t2" "ns/foo" 0
        (World.start ()) memoryFooReady).2 ∧
     (Mem.OnClusterRemove allGone.toHandler "t1" "t2" "ns/foo" 0 (World.start ())
        memoryFooReady).2.cluster 0 = clusterFooReady) :=
  ⟨by decide, by decide,
   (OnClusterRemove_changes_only_removed allGone.toHandler "t1" "t2" "ns/foo" clusterFooReady
      ()).2.1,
   by decide, by decide, by decide,
   (OnClusterRemove_changes_only_removed allGone.toHandler "t1" "t2" "ns/foo" clusterFooReady
      ()).2.2.2.2.2 memoryFooReady 0 (by decide) (by decide)⟩

/-! ## Not-found answers -/

/-- C13, at the failing input: `ns/foo` and `ns/bar` are indexed under `mgmt1` but are
already gone, so the delete request for `ns/foo` answers not-found.  That is the only
failure of the pass, a not-found answer of a delete call, and `OnMgmtClusterRemove`
returns it as its error, with a nil resource and without a request for `ns/bar`. -/
theorem OnMgmtClusterRemove_returns_not_found :
    (OnMgmtClusterRemove twoIndexedGone.toHandler "by-cluster" "mgmt1" mgmtOne
        (World.start ())).2.events =
      [Event.clusterCacheGetByIndex "by-cluster" "mgmt1" [clusterFoo, clusterBar] none,
       Event.clustersDelete "ns" "foo" none (some errNotFound)] ∧
    (OnMgmtClusterRemove twoIndexedGone.toHandler "by-cluster" "mgmt1" mgmtOne
        (World.start ())).2.events.all Event.failsAtMostNotFound = true ∧
    (OnMgmtClusterRemove twoIndexedGone.toHandler "by-cluster" "mgmt1" mgmtOne
        (World.start ())).1 = (none, some (GoError.api errNotFound)) := by
  decide

/-! ## Failures other than not-found -/

/-- C14, as it fails: for `ns/foo` over the store in which the lookup of `mgmt1` fails
with a time-out, that failure is not propagated: the evaluator returns the wait message
with no error, and `OnClusterRemove` returns the skip signal. -/
theorem mgmt_lookup_failure_not_propagated :
    Event.mgmtClusterCacheGet "mgmt1" none (some errTimeout) ∈
      (OnClusterRemove mgmtLookupTimeout.toHandler "t1" "t2" "ns/foo" clusterFoo
        (World.start ())).2.events ∧
    errTimeout.NotFound = false ∧
    (doClusterRemove mgmtLookupTimeout.toHandler clusterFoo (World.start ())).1 =
      ("waiting for cluster [mgmt1] to delete", none) ∧
    (OnClusterRemove mgmtLookupTimeout.toHandler "t1" "t2" "ns/foo" clusterFoo
      (World.start ())).1.2 = some GoError.ErrSkip := by
  decide

/-- C14, as amended: when a call of a pass of `OnClusterRemove` other than the lookup
of the management cluster fails with an error that is not not-found, `OnClusterRemove`
returns an error of a client, neither nil nor the skip signal.  When the call is one
of the evaluator (a delete request, the lookup of the cluster-api cluster, the list of
machines), the evaluator returns its error with the empty message and it is the last
call of the evaluator; when it is the status write, its error is the one returned. -/
theorem failures_propagate_except_mgmt_lookup {σ : Type} (h : handler σ)
    (now₁ now₂ key : String) (cluster : Cluster) (s : σ) (ev : Event) (e : APIError)
    (hmem : ev ∈ (OnClusterRemove h now₁ now₂ key cluster (World.start s)).2.events)
    (herr : ev.err = some e) (hnf : e.NotFound = false)
    (hnot : ev.isMgmtClusterCacheGet = false) :
    (∃ e₁, (OnClusterRemove h now₁ now₂ key cluster (World.start s)).1.2 =
      some (GoError.api e₁)) ∧
    (ev.isEvaluatorCall = true →
      (doClusterRemove h cluster (World.start s)).1 = ("", some e) ∧
      ∃ init, (doClusterRemove h cluster (World.start s)).2.events = init ++ [ev]) ∧
    (ev.isUpdateStatus = true →
      (OnClusterRemove h now₁ now₂ key cluster (World.start s)).1.2 =
        some (GoError.api e)) := by
  obtain ⟨mid, post, hev, hmid, hpost⟩ := OnClusterRemove_events_shape h now₁ now₂ key cluster s
  rw [hev] at hmem
  simp only [List.mem_append] at hmem
  rcases hmem with (hin | hin) | hin
  · have hcall := doClusterRemove_all_evaluator_calls h cluster s ev hin
    have hstop := evaluator_failure_stops ev e hcall herr hnf hnot
    obtain ⟨e₁, init, he₁, hres, hevs⟩ := doClusterRemove_stop_event h cluster s ev hin hstop
    rw [herr] at he₁
    simp only [Option.some.injEq] at he₁
    subst he₁
    refine ⟨OnClusterRemove_api_error h now₁ now₂ key cluster s e (by rw [hres]),
      fun _ => ⟨hres, init, hevs⟩, fun hupd => ?_⟩
    cases ev <;> simp_all [Event.isEvaluatorCall, Event.isUpdateStatus]
  · have henq := hmid ev hin
    cases ev <;> simp_all [Event.isEnqueueAfter, Event.err]
  · obtain ⟨hupd, hret⟩ := hpost ev hin
    refine ⟨⟨e, hret e herr⟩, fun hcall => ?_, fun _ => hret e herr⟩
    cases ev <;> simp_all [Event.isEvaluatorCall, Event.isUpdateStatus]

/-- C14, as amended, at a concrete input: for `ns/foo` over the store in which the
lookup of the cluster-api cluster times out, the evaluator returns the time-out. -/
theorem failures_propagate_except_mgmt_lookup_witness :
    Event.capiClustersCacheGet "ns" "foo" none (some errTimeout) ∈
      (OnClusterRemove capiTimeout.toHandler "t1" "t2" "ns/foo" clusterFoo
        (World.start ())).2.events ∧
    (doClusterRemove capiTimeout.toHandler clusterFoo (World.start ())).1 =
      ("", some errTimeout) :=
  ⟨by decide,
   ((failures_propagate_except_mgmt_lookup capiTimeout.toHandler "t1" "t2" "ns/foo"
      clusterFoo () (Event.capiClustersCacheGet "ns" "foo" none (some errTimeout)) errTimeout
      (by decide) rfl rfl rfl).2.1 rfl).1⟩

end ClusterRemove
